import Mathlib

/-! # permission-claim-operator: the claim reconciler

A shallow embedding of `internal/controllers/permissionclaim_controller.go`.
The two clusters are explicit stores, every client call is a step on a
`World` that also records the call and its answer, and each Go function of the
controller becomes a Lean function that passes the world along and returns the
Go error as an `Except` / `Option`.

Go `nil` slices and empty slices are both the empty list here, which is also
how `equality.Semantic.DeepEqual` compares them.
-/

namespace Controllers

/-! ## Kubernetes data model (the fields the controller touches) -/

/-- The `rbacv1.PolicyRule` payload. -/
structure PolicyRule where
  Verbs : List String
  APIGroups : List String
  Resources : List String
  ResourceNames : List String
  NonResourceURLs : List String
deriving DecidableEq, Repr

/-- The seven object kinds the controller reads or writes. -/
inductive Kind where
  | PermissionClaim
  | Secret
  | ServiceAccount
  | Role
  | ClusterRole
  | RoleBinding
  | ClusterRoleBinding
deriving DecidableEq, Repr

/-- Group and kind of a registered type, as `apiutil.GVKForObject` answers. -/
structure GroupVersionKind where
  Group : String
  Version : String
  Kind : String
deriving DecidableEq, Repr

/-- The `metav1.OwnerReference` payload. -/
structure OwnerReference where
  APIVersion : String
  Kind : String
  Name : String
  Controller : Bool
deriving DecidableEq, Repr

/-- The `metav1.ObjectMeta` fields in use. -/
structure ObjectMeta where
  Name : String
  Namespace : String
  Generation : Nat
  DeletionTimestamp : Option Nat
  Finalizers : List String
  Annotations : List (String × String)
  OwnerReferences : List OwnerReference
deriving DecidableEq, Repr

/-- Metadata carrying only a name and a namespace, as in the Go literals
`metav1.ObjectMeta{Name: ..., Namespace: ...}`. -/
def ObjectMeta.named (name ns : String) : ObjectMeta :=
  { Name := name, Namespace := ns, Generation := 0, DeletionTimestamp := none,
    Finalizers := [], Annotations := [], OwnerReferences := [] }

/-- The test `GetDeletionTimestamp().IsZero()`: a nil or zero time. -/
def ObjectMeta.deletionTimestampIsZero (m : ObjectMeta) : Bool :=
  match m.DeletionTimestamp with
  | none => true
  | some t => t == 0

/-- The `metav1.Condition` payload (`Type_` is the Go field `Type`). -/
structure Condition where
  Type_ : String
  Status : String
  ObservedGeneration : Nat
  LastTransitionTime : Nat
  Reason : String
  Message : String
deriving DecidableEq, Repr

/-- Spec of a claim, `PermissionClaimSpec`. -/
structure PermissionClaimSpec where
  Namespace : String
  SecretName : String
  Rules : List PolicyRule
  ClusterRules : List PolicyRule
deriving DecidableEq, Repr

/-- Status of a claim, `PermissionClaimStatus`. -/
structure PermissionClaimStatus where
  Conditions : List Condition
  Phase : String
deriving DecidableEq, Repr

/-- Condition type `PermissionClaimBound`. -/
def PermissionClaimBound : String := "Bound"

/-- Phase `PermissionClaimPhasePending`. -/
def PermissionClaimPhasePending : String := "Pending"

/-- Phase `PermissionClaimPhaseBound`. -/
def PermissionClaimPhaseBound : String := "Bound"

/-- Value `metav1.ConditionTrue`. -/
def ConditionTrue : String := "True"

/-- The claim object. -/
structure PermissionClaim where
  ObjectMeta : ObjectMeta
  Spec : PermissionClaimSpec
  Status : PermissionClaimStatus
deriving DecidableEq, Repr

/-- The `corev1.ObjectReference` fields in use. -/
structure ObjectReference where
  Name : String
  Namespace : String
deriving DecidableEq, Repr

/-- The `corev1.Secret` object; `Data` is the key/value map. -/
structure Secret where
  ObjectMeta : ObjectMeta
  Data : List (String × String)
deriving DecidableEq, Repr

/-- The `corev1.ServiceAccount` object. -/
structure ServiceAccount where
  ObjectMeta : ObjectMeta
  Secrets : List ObjectReference
deriving DecidableEq, Repr

/-- The `rbacv1.Role` object. -/
structure Role where
  ObjectMeta : ObjectMeta
  Rules : List PolicyRule
deriving DecidableEq, Repr

/-- The `rbacv1.ClusterRole` object. -/
structure ClusterRole where
  ObjectMeta : ObjectMeta
  Rules : List PolicyRule
deriving DecidableEq, Repr

/-- The `rbacv1.RoleRef` payload. -/
structure RoleRef where
  APIGroup : String
  Kind : String
  Name : String
deriving DecidableEq, Repr

/-- The `rbacv1.Subject` payload. -/
structure Subject where
  APIGroup : String
  Kind : String
  Name : String
  Namespace : String
deriving DecidableEq, Repr

/-- The `rbacv1.RoleBinding` object. -/
structure RoleBinding where
  ObjectMeta : ObjectMeta
  RoleRef : RoleRef
  Subjects : List Subject
deriving DecidableEq, Repr

/-- The `rbacv1.ClusterRoleBinding` object. -/
structure ClusterRoleBinding where
  ObjectMeta : ObjectMeta
  RoleRef : RoleRef
  Subjects : List Subject
deriving DecidableEq, Repr

/-- Any object a client call carries (`client.Object`). -/
inductive Object where
  | claim (o : PermissionClaim)
  | secret (o : Secret)
  | serviceAccount (o : ServiceAccount)
  | role (o : Role)
  | clusterRole (o : ClusterRole)
  | roleBinding (o : RoleBinding)
  | clusterRoleBinding (o : ClusterRoleBinding)
deriving DecidableEq, Repr

/-- Kind of an object. -/
def Object.kind : Object → Kind
  | .claim _ => .PermissionClaim
  | .secret _ => .Secret
  | .serviceAccount _ => .ServiceAccount
  | .role _ => .Role
  | .clusterRole _ => .ClusterRole
  | .roleBinding _ => .RoleBinding
  | .clusterRoleBinding _ => .ClusterRoleBinding

/-- Metadata of an object. -/
def Object.meta : Object → ObjectMeta
  | .claim o => o.ObjectMeta
  | .secret o => o.ObjectMeta
  | .serviceAccount o => o.ObjectMeta
  | .role o => o.ObjectMeta
  | .clusterRole o => o.ObjectMeta
  | .roleBinding o => o.ObjectMeta
  | .clusterRoleBinding o => o.ObjectMeta

/-- Replace the metadata of an object. -/
def Object.withMeta (m : ObjectMeta) : Object → Object
  | .claim o => .claim { o with ObjectMeta := m }
  | .secret o => .secret { o with ObjectMeta := m }
  | .serviceAccount o => .serviceAccount { o with ObjectMeta := m }
  | .role o => .role { o with ObjectMeta := m }
  | .clusterRole o => .clusterRole { o with ObjectMeta := m }
  | .roleBinding o => .roleBinding { o with ObjectMeta := m }
  | .clusterRoleBinding o => .clusterRoleBinding { o with ObjectMeta := m }

/-- The kinds that live outside every namespace. -/
def Kind.clusterScoped : Kind → Bool
  | .ClusterRole => true
  | .ClusterRoleBinding => true
  | _ => false

/-! ## The two clusters and their API

Each cluster is a map from keys to objects. The calls below model what the
API server answers: a read returns what is stored, a create is refused when the
key is taken, an update and a delete need the key to be taken. A delete removes
the entry at once, and an update of a claim that is being deleted stores it like
any other update (its later removal by the server is not part of the model).
Optimistic-concurrency conflicts, transport and authorization failures are
`Fault.error`. -/

/-- Identity of a stored object: kind, namespace, name. -/
structure Key where
  kind : Kind
  Namespace : String
  Name : String
deriving DecidableEq, Repr

/-- The API server addresses a cluster-scoped kind by name alone: a namespace
sent along with it is dropped. -/
def Key.norm (k : Key) : Key :=
  if k.kind.clusterScoped then { k with Namespace := "" } else k

/-- Key under which an object is stored. -/
def Object.key (o : Object) : Key :=
  Key.norm { kind := o.kind, Namespace := o.meta.Namespace, Name := o.meta.Name }

/-- The object as the API server stores it: the namespace field of a
cluster-scoped kind is cleared. -/
def Object.norm (o : Object) : Object :=
  if o.kind.clusterScoped then o.withMeta { o.meta with Namespace := "" } else o

/-- Rule set of a Role or ClusterRole. -/
def Object.rules : Object → Option (List PolicyRule)
  | .role r => some r.Rules
  | .clusterRole r => some r.Rules
  | _ => none

/-- Content of one cluster. -/
abbrev Store := Key → Option Object

/-- A store as an API server keeps it: every object sits under its own key. -/
def Store.WellKeyed (s : Store) : Prop := ∀ k o, s k = some o → o.key = k

/-- Rule set of the Role or ClusterRole stored under `k`, if one is. -/
def Store.rules (s : Store) (k : Key) : Option (List PolicyRule) :=
  (s k).bind Object.rules

/-- Store with the entry at `k` replaced. -/
def Store.set (s : Store) (k : Key) (v : Option Object) : Store :=
  fun k' => if k' = k then v else s k'

/-- Which cluster a client talks to: `c.client` is the control cluster,
`c.targetClient` the target cluster. -/
inductive ClusterId where
  | control
  | target
deriving DecidableEq, Repr

/-- Verb of a client call. -/
inductive Verb where
  | get
  | create
  | update
  | delete
  | statusUpdate
deriving DecidableEq, Repr

/-- What `errors.IsNotFound` / `errors.IsAlreadyExists` can tell apart. -/
inductive ErrKind where
  | NotFound
  | AlreadyExists
  | Other
deriving DecidableEq, Repr

/-- One client call as issued, with the answer it got. -/
structure Call where
  cluster : ClusterId
  verb : Verb
  key : Key
  obj : Option Object
  err : Option ErrKind
deriving DecidableEq, Repr

/-- A call that asks the cluster to change something. -/
def Call.isWrite (c : Call) : Bool := c.verb != .get

/-- Whether the answer to a call was success or not-found. -/
def Call.benign (c : Call) : Bool := c.err == none || c.err == some .NotFound

/-- State of both clusters plus the log of client calls issued so far. -/
structure World where
  control : Store
  target : Store
  calls : List Call

/-- Store of one cluster. -/
def World.store (w : World) : ClusterId → Store
  | .control => w.control
  | .target => w.target

/-- Replace the store of one cluster. -/
def World.setStore (w : World) (cl : ClusterId) (s : Store) : World :=
  match cl with
  | .control => { w with control := s }
  | .target => { w with target := s }

/-- Append a call to the log. -/
def World.record (w : World) (c : Call) : World :=
  { w with calls := w.calls ++ [c] }

/-- The calls issued between world `w` and a later world `w'`. -/
def newCalls (w w' : World) : List Call := w'.calls.drop w.calls.length

/-- What can go wrong with a call apart from the state of the cluster:
`error` is a transport, authorization or version-conflict failure. Both clients
read through a watch cache (`mgr.GetClient()` and the delegating client built in
`run`), and the cache may lag: `staleMiss` is a read answered not-found because
the cache has not seen the object yet, `staleHit o` a read answered with the
outdated copy `o` the cache still holds. Writes go to the API server and are
not affected by the two cache faults. -/
inductive Fault where
  | error
  | staleMiss
  | staleHit (o : Object)
deriving DecidableEq, Repr

/-- Fault schedule: the fault, if any, that hits the n-th call of the log. -/
abbrev Faults := Nat → Option Fault

/-- The schedule without faults. -/
def noFaults : Faults := fun _ => none

/-- The n-th call is not answered with an outdated cached copy. -/
def noStaleHitAt (f : Faults) (n : Nat) : Bool :=
  match f n with
  | some (.staleHit _) => false
  | _ => true

/-- Model of `client.Get`: the answer of the cluster, unless the call fails or
the cache behind the reader lags. -/
def apiGet (f : Faults) (cl : ClusterId) (k : Key) (w : World) : Except ErrKind Object × World :=
  match f w.calls.length with
  | some .error => (.error .Other, w.record ⟨cl, .get, k.norm, none, some .Other⟩)
  | some .staleMiss => (.error .NotFound, w.record ⟨cl, .get, k.norm, none, some .NotFound⟩)
  | some (.staleHit o) => (.ok o, w.record ⟨cl, .get, k.norm, none, none⟩)
  | none =>
    match w.store cl k.norm with
    | none => (.error .NotFound, w.record ⟨cl, .get, k.norm, none, some .NotFound⟩)
    | some o => (.ok o, w.record ⟨cl, .get, k.norm, none, none⟩)

/-- Model of `client.Create`: refused with already-exists when the key is
taken, otherwise the object is stored and handed back as stored. -/
def apiCreate (f : Faults) (cl : ClusterId) (o : Object) (w : World) : Except ErrKind Object × World :=
  match f w.calls.length with
  | some .error => (.error .Other, w.record ⟨cl, .create, o.key, some o, some .Other⟩)
  | _ =>
    match w.store cl o.key with
    | some _ => (.error .AlreadyExists, w.record ⟨cl, .create, o.key, some o, some .AlreadyExists⟩)
    | none =>
      (.ok o.norm,
        (w.setStore cl ((w.store cl).set o.key (some o.norm))).record ⟨cl, .create, o.key, some o, none⟩)

/-- What an update of the main resource stores: a claim has a status
subresource, so its stored status is kept. -/
def Object.keepStatus (o old : Object) : Object :=
  match o, old with
  | .claim c, .claim c0 => .claim { c with Status := c0.Status }
  | _, _ => o

/-- What an update of the status subresource stores: the stored object with the
status of the object sent. -/
def Object.withStatusOf (old o : Object) : Object :=
  match old, o with
  | .claim c0, .claim c => .claim { c0 with Status := c.Status }
  | _, _ => old

/-- Model of `client.Update`: not-found when the key is free, otherwise the
stored object is replaced and handed back as stored. -/
def apiUpdate (f : Faults) (cl : ClusterId) (o : Object) (w : World) : Except ErrKind Object × World :=
  match f w.calls.length with
  | some .error => (.error .Other, w.record ⟨cl, .update, o.key, some o, some .Other⟩)
  | _ =>
    match w.store cl o.key with
    | none => (.error .NotFound, w.record ⟨cl, .update, o.key, some o, some .NotFound⟩)
    | some old =>
      (.ok (o.norm.keepStatus old),
        (w.setStore cl ((w.store cl).set o.key (some (o.norm.keepStatus old)))).record
          ⟨cl, .update, o.key, some o, none⟩)

/-- Model of `client.Status().Update`. -/
def apiStatusUpdate (f : Faults) (cl : ClusterId) (o : Object) (w : World) : Except ErrKind Object × World :=
  match f w.calls.length with
  | some .error => (.error .Other, w.record ⟨cl, .statusUpdate, o.key, some o, some .Other⟩)
  | _ =>
    match w.store cl o.key with
    | none => (.error .NotFound, w.record ⟨cl, .statusUpdate, o.key, some o, some .NotFound⟩)
    | some old =>
      (.ok (old.withStatusOf o),
        (w.setStore cl ((w.store cl).set o.key (some (old.withStatusOf o)))).record
          ⟨cl, .statusUpdate, o.key, some o, none⟩)

/-- Model of `client.Delete`: not-found when the key is free, otherwise the
entry is removed. -/
def apiDelete (f : Faults) (cl : ClusterId) (o : Object) (w : World) : Option ErrKind × World :=
  match f w.calls.length with
  | some .error => (some .Other, w.record ⟨cl, .delete, o.key, some o, some .Other⟩)
  | _ =>
    match w.store cl o.key with
    | none => (some .NotFound, w.record ⟨cl, .delete, o.key, some o, some .NotFound⟩)
    | some _ =>
      (none, (w.setStore cl ((w.store cl).set o.key none)).record ⟨cl, .delete, o.key, some o, none⟩)

/-! ## Errors -/

/-- A Go error: what the API answered at the root, and the contexts that
`fmt.Errorf("...: %w", err)` wrapped around it, outermost first. -/
structure Err where
  kind : ErrKind
  context : List String
deriving DecidableEq, Repr

/-- The wrapping `fmt.Errorf(ctx + ": %w", err)`. -/
def Err.wrap (ctx : String) (e : Err) : Err :=
  { e with context := ctx :: e.context }

/-- An API error as the client returns it. -/
def Err.api (k : ErrKind) : Err := { kind := k, context := [] }

/-! ## Typed client calls -/

/-- Model of `client.Get` into a `PermissionClaim`; an object of another shape
under the key does not decode. -/
def getClaim (f : Faults) (cl : ClusterId) (k : Key) (w : World) : Except ErrKind PermissionClaim × World :=
  match apiGet f cl k w with
  | (.error e, w1) => (.error e, w1)
  | (.ok (.claim o), w1) => (.ok o, w1)
  | (.ok _, w1) => (.error .Other, w1)

/-- Model of `client.Get` into a `Role`. -/
def getRole (f : Faults) (cl : ClusterId) (k : Key) (w : World) : Except ErrKind Role × World :=
  match apiGet f cl k w with
  | (.error e, w1) => (.error e, w1)
  | (.ok (.role o), w1) => (.ok o, w1)
  | (.ok _, w1) => (.error .Other, w1)

/-- Model of `client.Get` into a `ClusterRole`. -/
def getClusterRole (f : Faults) (cl : ClusterId) (k : Key) (w : World) : Except ErrKind ClusterRole × World :=
  match apiGet f cl k w with
  | (.error e, w1) => (.error e, w1)
  | (.ok (.clusterRole o), w1) => (.ok o, w1)
  | (.ok _, w1) => (.error .Other, w1)

/-- Model of `client.Get` into a `Secret`. -/
def getSecret (f : Faults) (cl : ClusterId) (k : Key) (w : World) : Except ErrKind Secret × World :=
  match apiGet f cl k w with
  | (.error e, w1) => (.error e, w1)
  | (.ok (.secret o), w1) => (.ok o, w1)
  | (.ok _, w1) => (.error .Other, w1)

/-- Model of `client.Update` on a claim: on success the claim in memory is
overwritten with the server's answer. -/
def updateClaim (f : Faults) (cl : ClusterId) (claim : PermissionClaim) (w : World) :
    Except ErrKind PermissionClaim × World :=
  match apiUpdate f cl (.claim claim) w with
  | (.error e, w1) => (.error e, w1)
  | (.ok (.claim o), w1) => (.ok o, w1)
  | (.ok _, w1) => (.ok claim, w1)

/-! ## Finalizers, conditions, owner references (library helpers) -/

/-- The constant `cleanupFinalizer`. -/
def cleanupFinalizer : String := "permissions.thetechnick.ninja/cleanup"

/-- Model of `controllerutil.ContainsFinalizer`. -/
def ContainsFinalizer (claim : PermissionClaim) (fin : String) : Bool :=
  claim.ObjectMeta.Finalizers.contains fin

/-- Model of `controllerutil.AddFinalizer`: appended unless present. -/
def AddFinalizer (claim : PermissionClaim) (fin : String) : PermissionClaim :=
  if claim.ObjectMeta.Finalizers.contains fin then claim
  else { claim with ObjectMeta := { claim.ObjectMeta with Finalizers := claim.ObjectMeta.Finalizers ++ [fin] } }

/-- Model of `controllerutil.RemoveFinalizer`: every occurrence is dropped. -/
def RemoveFinalizer (claim : PermissionClaim) (fin : String) : PermissionClaim :=
  { claim with ObjectMeta :=
      { claim.ObjectMeta with Finalizers := claim.ObjectMeta.Finalizers.filter (fun x => x != fin) } }

/-- Model of `meta.SetStatusCondition` for a condition whose transition time is
unset: appended when no condition of that type exists, otherwise the first such
condition is refreshed, its transition time only when the status changes. -/
def SetStatusCondition (now : Nat) (conditions : List Condition) (newCondition : Condition) :
    List Condition :=
  match conditions with
  | [] => [{ newCondition with LastTransitionTime := now }]
  | x :: rest =>
    if x.Type_ = newCondition.Type_ then
      { x with
        Status := newCondition.Status
        LastTransitionTime := if x.Status = newCondition.Status then x.LastTransitionTime else now
        Reason := newCondition.Reason
        Message := newCondition.Message
        ObservedGeneration := newCondition.ObservedGeneration } :: rest
    else x :: SetStatusCondition now rest newCondition

/-- The `ownerStrategy` the controller is built with. Of its interface the
reconcile steps call `SetControllerReference` only; an implementation records
the owning claim in the annotations of the child, or fails. -/
structure OwnerStrategy where
  ownerAnnotations : PermissionClaim → ObjectMeta → Option (List (String × String))

/-- The call `c.ownerStrategy.SetControllerReference(claim, obj, c.scheme)` on
the metadata of `obj`. -/
def OwnerStrategy.SetControllerReference (s : OwnerStrategy) (owner : PermissionClaim)
    (m : ObjectMeta) : Except Err ObjectMeta :=
  match s.ownerAnnotations owner m with
  | none => .error (Err.api .Other)
  | some a => .ok { m with Annotations := a }

/-- Modelled from the spec: the key of the ownership annotation, "a well-known
string token recorded on cross-cluster derived objects". The spec does not give
its text; this value stands in for it. -/
def ownerAnnotationKey : String := "owner"

/-- Modelled from the spec: the annotation strategy of `internal/ownerhandling`
(the package is not among the sources at hand). Ownership is recorded as
metadata on the child: the annotation `ownerAnnotationKey` is set to the
identity of the owning claim. -/
def Annotation : OwnerStrategy where
  ownerAnnotations := fun owner m =>
    some (m.Annotations.filter (fun a => a.1 != ownerAnnotationKey)
      ++ [(ownerAnnotationKey, owner.ObjectMeta.Namespace ++ "/" ++ owner.ObjectMeta.Name)])

/-- Registered types of the control-cluster scheme. -/
abbrev Scheme := Kind → Option GroupVersionKind

/-- Model of `apiutil.GVKForObject` with its error ignored, as both binding
steps do: an unregistered type yields the zero value. -/
def GVKForObject (scheme : Scheme) (k : Kind) : GroupVersionKind :=
  match scheme k with
  | some g => g
  | none => { Group := "", Version := "", Kind := "" }

/-- Model of `controllerutil.SetControllerReference` with a claim as owner: an
owner living in a namespace needs a child in that namespace, the owner's type
must be registered, and a child controlled by another object is refused. -/
def SetControllerReference (scheme : Scheme) (owner : PermissionClaim) (m : ObjectMeta) :
    Except Err ObjectMeta :=
  if owner.ObjectMeta.Namespace ≠ "" ∧ owner.ObjectMeta.Namespace ≠ m.Namespace then
    .error (Err.api .Other)
  else
    match scheme .PermissionClaim with
    | none => .error (Err.api .Other)
    | some g =>
      let ref : OwnerReference :=
        { APIVersion := g.Group ++ "/" ++ g.Version, Kind := g.Kind,
          Name := owner.ObjectMeta.Name, Controller := true }
      if m.OwnerReferences.any (fun r => r.Controller && r != ref) then .error (Err.api .Other)
      else .ok { m with OwnerReferences := m.OwnerReferences.filter (fun r => r != ref) ++ [ref] }

/-! ## The kubeconfig document -/

/-- The `clientcmdapi.AuthInfo` authentication fields. -/
structure AuthInfo where
  ClientCertificate : String
  ClientCertificateData : String
  ClientKey : String
  ClientKeyData : String
  Token : String
  TokenFile : String
  Impersonate : String
  ImpersonateGroups : List String
  Username : String
  Password : String
  AuthProvider : Option String
  Exec : Option String
deriving DecidableEq, Repr

/-- The Go literal `&clientcmdapi.AuthInfo{Token: token}`: every other field
has its zero value. -/
def AuthInfo.ofToken (token : String) : AuthInfo :=
  { ClientCertificate := "", ClientCertificateData := "", ClientKey := "", ClientKeyData := "",
    Token := token, TokenFile := "", Impersonate := "", ImpersonateGroups := [],
    Username := "", Password := "", AuthProvider := none, Exec := none }

/-- The `clientcmdapi.Cluster` fields. -/
structure Cluster where
  Server : String
  InsecureSkipTLSVerify : Bool
  CertificateAuthority : String
  CertificateAuthorityData : String
deriving DecidableEq, Repr

/-- The `clientcmdapi.Context` fields. -/
structure Context where
  Cluster : String
  AuthInfo : String
  Namespace : String
deriving DecidableEq, Repr

/-- The `clientcmdapi.Config` document; each Go map is the list of its
entries. -/
structure Config where
  Kind : String
  APIVersion : String
  Preferences : Bool
  Clusters : List (String × Cluster)
  AuthInfos : List (String × AuthInfo)
  Contexts : List (String × Context)
  CurrentContext : String
deriving DecidableEq, Repr

/-- The Go map assignment `m[k] = v`: the entry under `k` is replaced, or a
new entry is added when `k` is not a key of `m`. -/
def mapAssign (m : List (String × AuthInfo)) (k : String) (v : AuthInfo) : List (String × AuthInfo) :=
  if m.any (fun e => e.1 == k) then m.map (fun e => if e.1 == k then (k, v) else e)
  else m ++ [(k, v)]

/-- Memory holding kubeconfig documents: pointer `p` is the `p`-th cell. -/
abbrev ConfigHeap := List Config

/-- The zero-value document. -/
def Config.zero : Config :=
  { Kind := "", APIVersion := "", Preferences := false, Clusters := [], AuthInfos := [],
    Contexts := [], CurrentContext := "" }

/-- Dereference a pointer. -/
def ConfigHeap.deref (h : ConfigHeap) (p : Nat) : Config := h.getD p Config.zero

/-- Model of `(*Config).DeepCopy`: a fresh cell with the same content. -/
def ConfigHeap.DeepCopy (h : ConfigHeap) (p : Nat) : ConfigHeap × Nat :=
  (h ++ [h.deref p], h.length)

/-- The statement `cfg.AuthInfos[i] = a` on the document behind `p`. -/
def ConfigHeap.assignAuthInfo (h : ConfigHeap) (p : Nat) (i : String) (a : AuthInfo) : ConfigHeap :=
  h.set p { h.deref p with AuthInfos := mapAssign (h.deref p).AuthInfos i a }

/-- Lines 127-134 of `reconcileKubeconfigSecret`: deep-copy the template behind
`base`, then walk over the keys of the copy's `AuthInfos` and assign a
token-only entry under each. Returns the memory and the pointer to the new
document. -/
def newKubeconfig (h : ConfigHeap) (base : Nat) (token : String) : ConfigHeap × Nat :=
  let (h1, p) := h.DeepCopy base
  (((h1.deref p).AuthInfos.map Prod.fst).foldl
      (fun hh i => hh.assignAuthInfo p i (AuthInfo.ofToken token)) h1, p)

/-! ## The controller -/

/-- The fields of `PermissionClaimController` that decide behaviour; the two
clients are the two stores of the `World`. -/
structure PermissionClaimController where
  scheme : Scheme
  baseKubeconfig : Config
  ownerStrategy : OwnerStrategy

/-- What the run depends on from outside: the fault schedule of the client
calls, the clock, and `yaml.Marshal` on kubeconfig documents. -/
structure Env where
  faults : Faults
  now : Nat
  yamlMarshal : Config → String

/-- Key `corev1.ServiceAccountTokenKey`. -/
def ServiceAccountTokenKey : String := "token"

/-- Key `corev1.ServiceAccountKubeconfigKey`. -/
def ServiceAccountKubeconfigKey : String := "kubernetes.kubeconfig"

/-- The kubeconfig document `reconcileKubeconfigSecret` marshals: the template
sits in cell 0 of a fresh memory. -/
def kubeconfigFor (c : PermissionClaimController) (token : String) : Config :=
  let r := newKubeconfig [c.baseKubeconfig] 0 token
  r.1.deref r.2

/-- Embedding of `reconcileKubeconfigSecret`. Returns the error, the claim as
left in memory, and the world. -/
def reconcileKubeconfigSecret (e : Env) (c : PermissionClaimController)
    (claim : PermissionClaim) (sa : ServiceAccount) (w : World) :
    Option Err × PermissionClaim × World :=
  match sa.Secrets with
  | [] => (none, claim, w)
  | secretRef :: _ =>
    match getSecret e.faults .target ⟨.Secret, secretRef.Namespace, secretRef.Name⟩ w with
    | (.error k, w1) => (some ((Err.api k).wrap "getting ServiceAccount token secret"), claim, w1)
    | (.ok saTokenSecret, w1) =>
      let token := (saTokenSecret.Data.lookup ServiceAccountTokenKey).getD ""
      let kubeconfigYaml := e.yamlMarshal (kubeconfigFor c token)
      let newSecret : Secret :=
        { ObjectMeta := ObjectMeta.named claim.Spec.SecretName claim.ObjectMeta.Namespace,
          Data := [(ServiceAccountKubeconfigKey, kubeconfigYaml)] }
      match SetControllerReference c.scheme claim newSecret.ObjectMeta with
      | .error err => (some (err.wrap "set controller-reference"), claim, w1)
      | .ok m =>
        match apiCreate e.faults .control (.secret { newSecret with ObjectMeta := m }) w1 with
        | (.error k, w2) => (some ((Err.api k).wrap "creating Secret"), claim, w2)
        | (.ok _, w2) =>
          (none,
            { claim with Status :=
                { Conditions := SetStatusCondition e.now claim.Status.Conditions
                    { Type_ := PermissionClaimBound, Status := ConditionTrue,
                      ObservedGeneration := claim.ObjectMeta.Generation,
                      LastTransitionTime := 0, Reason := "PermissionsEstablished", Message := "" },
                  Phase := PermissionClaimPhaseBound } },
            w2)

/-- Embedding of `reconcileServiceAccount`: the create goes through `c.client`,
and the object handed back is the one built here. -/
def reconcileServiceAccount (e : Env) (c : PermissionClaimController)
    (claim : PermissionClaim) (w : World) : Except Err ServiceAccount × World :=
  let sa : ServiceAccount :=
    { ObjectMeta := ObjectMeta.named claim.ObjectMeta.Name claim.Spec.Namespace, Secrets := [] }
  match c.ownerStrategy.SetControllerReference claim sa.ObjectMeta with
  | .error err => (.error (err.wrap "set controller reference"), w)
  | .ok m =>
    let sa := { sa with ObjectMeta := m }
    match apiCreate e.faults .control (.serviceAccount sa) w with
    | (.error k, w1) =>
      if k = .AlreadyExists then (.ok sa, w1) else (.error (Err.api k), w1)
    | (.ok _, w1) => (.ok sa, w1)

/-- Embedding of `reconcileRole`. -/
def reconcileRole (e : Env) (c : PermissionClaimController)
    (claim : PermissionClaim) (w : World) : Except Err Role × World :=
  let desiredRole : Role :=
    { ObjectMeta := ObjectMeta.named claim.ObjectMeta.Name claim.Spec.Namespace,
      Rules := claim.Spec.Rules }
  match c.ownerStrategy.SetControllerReference claim desiredRole.ObjectMeta with
  | .error err => (.error (err.wrap "set controller reference"), w)
  | .ok m =>
    let desiredRole := { desiredRole with ObjectMeta := m }
    match getRole e.faults .target (Object.role desiredRole).key w with
    | (.error k, w1) =>
      if k ≠ .NotFound then (.error ((Err.api k).wrap "getting Role"), w1)
      else
        match apiCreate e.faults .target (.role desiredRole) w1 with
        | (.error k2, w2) => (.error (Err.api k2), w2)
        | (.ok _, w2) => (.ok desiredRole, w2)
    | (.ok existingRole, w1) =>
      if desiredRole.Rules ≠ existingRole.Rules then
        match apiUpdate e.faults .target (.role { existingRole with Rules := desiredRole.Rules }) w1 with
        | (.error k, w2) => (.error ((Err.api k).wrap "updating Role"), w2)
        | (.ok _, w2) => (.ok desiredRole, w2)
      else (.ok desiredRole, w1)

/-- Embedding of `reconcileClusterRole`; the desired rules are read from
`claim.Spec.Rules`, as line 235 does. -/
def reconcileClusterRole (e : Env) (c : PermissionClaimController)
    (claim : PermissionClaim) (w : World) : Except Err ClusterRole × World :=
  let desiredRole : ClusterRole :=
    { ObjectMeta := ObjectMeta.named claim.ObjectMeta.Name "",
      Rules := claim.Spec.Rules }
  match c.ownerStrategy.SetControllerReference claim desiredRole.ObjectMeta with
  | .error err => (.error (err.wrap "set controller reference"), w)
  | .ok m =>
    let desiredRole := { desiredRole with ObjectMeta := m }
    match getClusterRole e.faults .target (Object.clusterRole desiredRole).key w with
    | (.error k, w1) =>
      if k ≠ .NotFound then (.error ((Err.api k).wrap "getting Role"), w1)
      else
        match apiCreate e.faults .target (.clusterRole desiredRole) w1 with
        | (.error k2, w2) => (.error (Err.api k2), w2)
        | (.ok _, w2) => (.ok desiredRole, w2)
    | (.ok existingRole, w1) =>
      if desiredRole.Rules ≠ existingRole.Rules then
        match apiUpdate e.faults .target (.clusterRole { existingRole with Rules := desiredRole.Rules }) w1 with
        | (.error k, w2) => (.error ((Err.api k).wrap "updating Role"), w2)
        | (.ok _, w2) => (.ok desiredRole, w2)
      else (.ok desiredRole, w1)

/-- Embedding of `reconcileRoleBinding`: the create goes through `c.client`. -/
def reconcileRoleBinding (e : Env) (c : PermissionClaimController)
    (claim : PermissionClaim) (role : Role) (sa : ServiceAccount) (w : World) :
    Option Err × World :=
  let roleGVK := GVKForObject c.scheme .Role
  let saGVK := GVKForObject c.scheme .ServiceAccount
  let desiredRole : RoleBinding :=
    { ObjectMeta := ObjectMeta.named claim.ObjectMeta.Name claim.Spec.Namespace,
      RoleRef := { APIGroup := roleGVK.Group, Kind := roleGVK.Kind, Name := role.ObjectMeta.Name },
      Subjects := [{ APIGroup := saGVK.Group, Kind := saGVK.Kind, Name := sa.ObjectMeta.Name,
                     Namespace := "" }] }
  match c.ownerStrategy.SetControllerReference claim desiredRole.ObjectMeta with
  | .error err => (some (err.wrap "set controller reference"), w)
  | .ok m =>
    match apiCreate e.faults .control (.roleBinding { desiredRole with ObjectMeta := m }) w with
    | (.error k, w1) => if k = .AlreadyExists then (none, w1) else (some (Err.api k), w1)
    | (.ok _, w1) => (none, w1)

/-- Embedding of `reconcileClusterRoleBinding`: the create goes through
`c.client`. -/
def reconcileClusterRoleBinding (e : Env) (c : PermissionClaimController)
    (claim : PermissionClaim) (role : ClusterRole) (sa : ServiceAccount) (w : World) :
    Option Err × World :=
  let roleGVK := GVKForObject c.scheme .ClusterRole
  let saGVK := GVKForObject c.scheme .ServiceAccount
  let desiredRole : ClusterRoleBinding :=
    { ObjectMeta := ObjectMeta.named claim.ObjectMeta.Name claim.Spec.Namespace,
      RoleRef := { APIGroup := roleGVK.Group, Kind := roleGVK.Kind, Name := role.ObjectMeta.Name },
      Subjects := [{ APIGroup := saGVK.Group, Kind := saGVK.Kind, Name := sa.ObjectMeta.Name,
                     Namespace := sa.ObjectMeta.Namespace }] }
  match c.ownerStrategy.SetControllerReference claim desiredRole.ObjectMeta with
  | .error err => (some (err.wrap "set controller reference"), w)
  | .ok m =>
    match apiCreate e.faults .control (.clusterRoleBinding { desiredRole with ObjectMeta := m }) w with
    | (.error k, w1) => if k = .AlreadyExists then (none, w1) else (some (Err.api k), w1)
    | (.ok _, w1) => (none, w1)

/-- The objects `handleDeletion` deletes, in its order; the namespaced ones
carry `claim.Namespace`. -/
def deletionObjects (claim : PermissionClaim) : List Object :=
  [ .clusterRole { ObjectMeta := ObjectMeta.named claim.ObjectMeta.Name "", Rules := [] },
    .role { ObjectMeta := ObjectMeta.named claim.ObjectMeta.Name claim.ObjectMeta.Namespace, Rules := [] },
    .clusterRoleBinding
      { ObjectMeta := ObjectMeta.named claim.ObjectMeta.Name "",
        RoleRef := { APIGroup := "", Kind := "", Name := "" }, Subjects := [] },
    .roleBinding
      { ObjectMeta := ObjectMeta.named claim.ObjectMeta.Name claim.ObjectMeta.Namespace,
        RoleRef := { APIGroup := "", Kind := "", Name := "" }, Subjects := [] },
    .serviceAccount
      { ObjectMeta := ObjectMeta.named claim.ObjectMeta.Name claim.ObjectMeta.Namespace, Secrets := [] } ]

/-- The delete loop of `handleDeletion`: stops at the first answer that is an
error other than not-found. -/
def deleteAll (f : Faults) : List Object → World → Option Err × World
  | [], w => (none, w)
  | obj :: rest, w =>
    match apiDelete f .target obj w with
    | (some k, w1) =>
      if k ≠ .NotFound then (some ((Err.api k).wrap "cleanup on target cluster"), w1)
      else deleteAll f rest w1
    | (none, w1) => deleteAll f rest w1

/-- Embedding of `handleDeletion`. Returns the error, the claim as left in
memory, and the world. -/
def handleDeletion (e : Env) (claim : PermissionClaim) (w : World) :
    Option Err × PermissionClaim × World :=
  match deleteAll e.faults (deletionObjects claim) w with
  | (some err, w1) => (some err, claim, w1)
  | (none, w1) =>
    if ContainsFinalizer claim cleanupFinalizer then
      match updateClaim e.faults .control (RemoveFinalizer claim cleanupFinalizer) w1 with
      | (.error k, w2) =>
        (some ((Err.api k).wrap "removing finalizer"), RemoveFinalizer claim cleanupFinalizer, w2)
      | (.ok claim2, w2) => (none, claim2, w2)
    else (none, claim, w1)

/-- Embedding of `ensureCacheFinalizer`. -/
def ensureCacheFinalizer (e : Env) (claim : PermissionClaim) (w : World) :
    Option Err × PermissionClaim × World :=
  if ¬ ContainsFinalizer claim cleanupFinalizer then
    match updateClaim e.faults .control (AddFinalizer claim cleanupFinalizer) w with
    | (.error k, w1) =>
      (some ((Err.api k).wrap "adding finalizer"), AddFinalizer claim cleanupFinalizer, w1)
    | (.ok claim1, w1) => (none, claim1, w1)
  else (none, claim, w)

/-- The `types.NamespacedName` of a request. -/
structure NamespacedName where
  Namespace : String
  Name : String
deriving DecidableEq, Repr

/-- Store key of the claim a request names. -/
def NamespacedName.claimKey (req : NamespacedName) : Key :=
  { kind := .PermissionClaim, Namespace := req.Namespace, Name := req.Name }

/-- Embedding of `Reconcile`; `req` is the identity of the claim. The
`ctrl.Result` is always empty, so only the error is returned. -/
def Reconcile (e : Env) (c : PermissionClaimController) (req : NamespacedName) (w : World) :
    Option Err × World :=
  match getClaim e.faults .control req.claimKey w with
  | (.error k, w0) => (if k = .NotFound then none else some (Err.api k), w0)
  | (.ok claim, w0) =>
    if ¬ claim.ObjectMeta.deletionTimestampIsZero then
      let r := handleDeletion e claim w0
      (r.1, r.2.2)
    else
      match ensureCacheFinalizer e claim w0 with
      | (some err, _, w1) => (some err, w1)
      | (none, claim, w1) =>
        match reconcileRole e c claim w1 with
        | (.error err, w2) => (some (err.wrap "reconciling Role"), w2)
        | (.ok role, w2) =>
          match reconcileClusterRole e c claim w2 with
          | (.error err, w3) => (some (err.wrap "reconciling ClusterRole"), w3)
          | (.ok clusterRole, w3) =>
            match reconcileServiceAccount e c claim w3 with
            | (.error err, w4) => (some (err.wrap "reconciling ServiceAccount"), w4)
            | (.ok sa, w4) =>
              match reconcileRoleBinding e c claim role sa w4 with
              | (some err, w5) => (some (err.wrap "reconciling RoleBinding"), w5)
              | (none, w5) =>
                match reconcileClusterRoleBinding e c claim clusterRole sa w5 with
                | (some err, w6) => (some (err.wrap "reconciling ClusterRoleBinding"), w6)
                | (none, w6) =>
                  match reconcileKubeconfigSecret e c claim sa w6 with
                  | (some err, _, w7) => (some (err.wrap "reconcile Kubeconfig Secret"), w7)
                  | (none, claim, w7) =>
                    match apiStatusUpdate e.faults .control (.claim claim) w7 with
                    | (.error k, w8) => (some (Err.api k), w8)
                    | (.ok _, w8) => (none, w8)

/-! ## Fixtures: the scenario `team-a/demo` -/

/-- The rule of the scenario: get and list on pods. -/
def demoRule : PolicyRule :=
  { Verbs := ["get", "list"], APIGroups := [], Resources := ["pods"], ResourceNames := [],
    NonResourceURLs := [] }

/-- The claim `team-a/demo`: one namespaced rule, no cluster rules, not yet
touched by the controller. -/
def demoClaim : PermissionClaim :=
  { ObjectMeta := ObjectMeta.named "demo" "team-a",
    Spec := { Namespace := "team-a", SecretName := "demo-kubeconfig", Rules := [demoRule],
              ClusterRules := [] },
    Status := { Conditions := [], Phase := PermissionClaimPhasePending } }

/-- A cluster-scoped rule: get on nodes. -/
def nodesRule : PolicyRule :=
  { Verbs := ["get"], APIGroups := [], Resources := ["nodes"], ResourceNames := [],
    NonResourceURLs := [] }

/-- The request naming the claim. -/
def demoReq : NamespacedName := { Namespace := "team-a", Name := "demo" }

/-- The empty cluster. -/
def emptyStore : Store := fun _ => none

/-- A store holding the listed objects, each under its own key. -/
def storeOf (objs : List Object) : Store :=
  objs.foldl (fun s o => s.set o.key (some o.norm)) emptyStore

/-- The worlds of the scenarios start with an empty call log. -/
def worldOf (control target : List Object) : World :=
  { control := storeOf control, target := storeOf target, calls := [] }

/-- The claim of the scenario asking for a cluster rule as well. -/
def nodesClaim : PermissionClaim :=
  { demoClaim with Spec := { demoClaim.Spec with ClusterRules := [nodesRule] } }

/-- A Role `team-a/demo` whose rules were changed behind the controller's
back. -/
def driftedRole : Role :=
  { ObjectMeta := ObjectMeta.named "demo" "team-a", Rules := [nodesRule] }

/-- The claim `team-a/demo` asking for permissions in another namespace,
`tenant-b`, carrying the cleanup finalizer and a deletion timestamp. -/
def deletingClaim : PermissionClaim :=
  { ObjectMeta := { ObjectMeta.named "demo" "team-a" with
      DeletionTimestamp := some 5, Finalizers := [cleanupFinalizer] },
    Spec := { Namespace := "tenant-b", SecretName := "demo-kubeconfig", Rules := [demoRule],
              ClusterRules := [] },
    Status := { Conditions := [], Phase := PermissionClaimPhasePending } }

/-- The Role a reconcile of `deletingClaim` created before the deletion was
requested: named `demo`, in `tenant-b`. -/
def tenantRole : Role :=
  { ObjectMeta := ObjectMeta.named "demo" "tenant-b", Rules := [demoRule] }

/-- The claim `team-a/demo` once it carries the cleanup finalizer. -/
def liveClaim : PermissionClaim :=
  { demoClaim with ObjectMeta := { demoClaim.ObjectMeta with Finalizers := [cleanupFinalizer] } }

/-- The ServiceAccount `team-a/demo` after the token controller has issued a
token secret for it. -/
def readyServiceAccount : ServiceAccount :=
  { ObjectMeta := ObjectMeta.named "demo" "team-a",
    Secrets := [{ Name := "demo-token-x7k2p", Namespace := "team-a" }] }

/-- The token secret of `readyServiceAccount`. -/
def tokenSecret : Secret :=
  { ObjectMeta := ObjectMeta.named "demo-token-x7k2p" "team-a",
    Data := [(ServiceAccountTokenKey, "TOKEN")] }

/-- A run in which the third call (the delete of the ClusterRoleBinding, when
`handleDeletion` starts on an empty log) is refused by the target cluster. -/
def thirdCallFails : Env :=
  { faults := fun n => if n = 2 then some .error else none, now := 1,
    yamlMarshal := fun c => c.CurrentContext }

/-- A run in which the second call (the claim update adding the finalizer,
when `Reconcile` starts on an empty log) is refused by the control cluster. -/
def secondCallFails : Env :=
  { faults := fun n => if n = 1 then some .error else none, now := 1,
    yamlMarshal := fun c => c.CurrentContext }

/-- A ServiceAccount `team-a/demo` for which no token secret was issued
yet. -/
def freshServiceAccount : ServiceAccount :=
  { ObjectMeta := ObjectMeta.named "demo" "team-a", Secrets := [] }

/-- The Role `team-a/demo` as `reconcileRole` wants it for `liveClaim`. -/
def demoRole : Role :=
  { ObjectMeta := ObjectMeta.named "demo" "team-a", Rules := [demoRule] }

/-- The ClusterRole `demo` as `reconcileClusterRole` leaves it for
`liveClaim`. -/
def demoClusterRole : ClusterRole :=
  { ObjectMeta := ObjectMeta.named "demo" "", Rules := [demoRule] }

/-- A run in which the first call (the read, when a role step starts on an
empty log) is served by a cache that has not seen the object yet. -/
def firstReadStale : Env :=
  { faults := fun n => if n = 0 then some .staleMiss else none, now := 1,
    yamlMarshal := fun c => c.CurrentContext }

/-- A run in which the first call (the read, when a role step starts on an
empty log) is served by a cache that still holds the Role `team-a/demo` with
the claim's rule, as it was before somebody changed it on the cluster. -/
def firstReadOutdated : Env :=
  { faults := fun n => if n = 0 then some (.staleHit (.role demoRole)) else none, now := 1,
    yamlMarshal := fun c => c.CurrentContext }

/-- A run in which the second call (the read of the Role, when `Reconcile`
starts on an empty log with a claim that has its finalizer) is served by a cache
that has not seen the object yet. -/
def secondReadStale : Env :=
  { faults := fun n => if n = 1 then some .staleMiss else none, now := 1,
    yamlMarshal := fun c => c.CurrentContext }

/-- A run in which the third call (the read of the ClusterRole, when the Role
step only reads) is served by a cache that has not seen the object yet. -/
def thirdReadStale : Env :=
  { faults := fun n => if n = 2 then some .staleMiss else none, now := 1,
    yamlMarshal := fun c => c.CurrentContext }

/-- A RoleBinding `team-a/demo` that binds somebody else to something else. -/
def foreignRoleBinding : RoleBinding :=
  { ObjectMeta := ObjectMeta.named "demo" "team-a",
    RoleRef := { APIGroup := "rbac.authorization.k8s.io", Kind := "ClusterRole", Name := "cluster-admin" },
    Subjects := [{ APIGroup := "rbac.authorization.k8s.io", Kind := "User", Name := "mallory",
                   Namespace := "" }] }

/-- A ClusterRoleBinding `demo` that binds somebody else to something else. -/
def foreignClusterRoleBinding : ClusterRoleBinding :=
  { ObjectMeta := ObjectMeta.named "demo" "",
    RoleRef := { APIGroup := "rbac.authorization.k8s.io", Kind := "ClusterRole", Name := "cluster-admin" },
    Subjects := [{ APIGroup := "rbac.authorization.k8s.io", Kind := "User", Name := "mallory",
                   Namespace := "" }] }

/-- A run without faults; the document is rendered as its list of
`name=token` pairs. -/
def demoEnv : Env :=
  { faults := noFaults, now := 1,
    yamlMarshal := fun c => String.intercalate "," (c.AuthInfos.map (fun a => a.1 ++ "=" ++ a.2.Token)) }

/-- The scheme with every kind registered. -/
def demoScheme : Scheme := fun k =>
  match k with
  | .PermissionClaim => some ⟨"permissions.thetechnick.ninja", "v1alpha1", "PermissionClaim"⟩
  | .Secret => some ⟨"", "v1", "Secret"⟩
  | .ServiceAccount => some ⟨"", "v1", "ServiceAccount"⟩
  | .Role => some ⟨"rbac.authorization.k8s.io", "v1", "Role"⟩
  | .ClusterRole => some ⟨"rbac.authorization.k8s.io", "v1", "ClusterRole"⟩
  | .RoleBinding => some ⟨"rbac.authorization.k8s.io", "v1", "RoleBinding"⟩
  | .ClusterRoleBinding => some ⟨"rbac.authorization.k8s.io", "v1", "ClusterRoleBinding"⟩

/-- A template with one cluster, one context and one certificate-based
credential entry. -/
def demoTemplate : Config :=
  { Kind := "Config", APIVersion := "v1", Preferences := false,
    Clusters := [("target", { Server := "https://target:6443", InsecureSkipTLSVerify := false,
                              CertificateAuthority := "", CertificateAuthorityData := "CA" })],
    AuthInfos := [("admin", { AuthInfo.ofToken "" with ClientCertificateData := "CERT",
                                                         ClientKeyData := "KEY" })],
    Contexts := [("default", { Cluster := "target", AuthInfo := "admin", Namespace := "" })],
    CurrentContext := "default" }

/-- The controller of the scenarios. -/
def demoController : PermissionClaimController :=
  { scheme := demoScheme, baseKubeconfig := demoTemplate, ownerStrategy := Annotation }

end Controllers

/-! ## Theorems: stores and client calls -/

namespace Controllers

@[simp] theorem World.store_record (w : World) (c : Call) (cl : ClusterId) :
    (w.record c).store cl = w.store cl := by
  cases cl <;> rfl

@[simp] theorem World.target_record (w : World) (c : Call) : (w.record c).target = w.target := rfl

@[simp] theorem World.control_record (w : World) (c : Call) : (w.record c).control = w.control := rfl

@[simp] theorem World.calls_record (w : World) (c : Call) : (w.record c).calls = w.calls ++ [c] := rfl

@[simp] theorem World.store_target (w : World) : w.store .target = w.target := rfl

@[simp] theorem World.store_control (w : World) : w.store .control = w.control := rfl

@[simp] theorem World.setStore_target (w : World) (s : Store) : (w.setStore .target s).target = s := rfl

@[simp] theorem World.setStore_control (w : World) (s : Store) : (w.setStore .control s).control = s := rfl

@[simp] theorem World.setStore_target_control (w : World) (s : Store) :
    (w.setStore .target s).control = w.control := rfl

@[simp] theorem World.setStore_control_target (w : World) (s : Store) :
    (w.setStore .control s).target = w.target := rfl

@[simp] theorem World.setStore_calls (w : World) (cl : ClusterId) (s : Store) :
    (w.setStore cl s).calls = w.calls := by
  cases cl <;> rfl

@[simp] theorem Store.set_same (s : Store) (k : Key) (v : Option Object) : s.set k v k = v := by
  simp [Store.set]

theorem Store.set_other (s : Store) (k k' : Key) (v : Option Object) (h : k' ≠ k) :
    s.set k v k' = s k' := by
  simp [Store.set, h]

@[simp] theorem Object.key_role (r : Role) :
    (Object.role r).key = ⟨.Role, r.ObjectMeta.Namespace, r.ObjectMeta.Name⟩ := rfl

@[simp] theorem Object.key_clusterRole (r : ClusterRole) :
    (Object.clusterRole r).key = ⟨.ClusterRole, "", r.ObjectMeta.Name⟩ := rfl

@[simp] theorem Object.key_claim (r : PermissionClaim) :
    (Object.claim r).key = ⟨.PermissionClaim, r.ObjectMeta.Namespace, r.ObjectMeta.Name⟩ := rfl

@[simp] theorem Object.key_secret (r : Secret) :
    (Object.secret r).key = ⟨.Secret, r.ObjectMeta.Namespace, r.ObjectMeta.Name⟩ := rfl

@[simp] theorem Object.key_serviceAccount (r : ServiceAccount) :
    (Object.serviceAccount r).key = ⟨.ServiceAccount, r.ObjectMeta.Namespace, r.ObjectMeta.Name⟩ := rfl

@[simp] theorem Object.key_roleBinding (r : RoleBinding) :
    (Object.roleBinding r).key = ⟨.RoleBinding, r.ObjectMeta.Namespace, r.ObjectMeta.Name⟩ := rfl

@[simp] theorem Object.key_clusterRoleBinding (r : ClusterRoleBinding) :
    (Object.clusterRoleBinding r).key = ⟨.ClusterRoleBinding, "", r.ObjectMeta.Name⟩ := rfl

@[simp] theorem Object.norm_role (r : Role) : (Object.role r).norm = .role r := rfl

@[simp] theorem Object.norm_claim (r : PermissionClaim) : (Object.claim r).norm = .claim r := rfl

@[simp] theorem Object.norm_secret (r : Secret) : (Object.secret r).norm = .secret r := rfl

@[simp] theorem Object.norm_serviceAccount (r : ServiceAccount) :
    (Object.serviceAccount r).norm = .serviceAccount r := rfl

@[simp] theorem Object.norm_roleBinding (r : RoleBinding) :
    (Object.roleBinding r).norm = .roleBinding r := rfl

@[simp] theorem Object.norm_clusterRole (r : ClusterRole) :
    (Object.clusterRole r).norm
      = .clusterRole { r with ObjectMeta := { r.ObjectMeta with Namespace := "" } } := rfl

@[simp] theorem Object.norm_clusterRoleBinding (r : ClusterRoleBinding) :
    (Object.clusterRoleBinding r).norm
      = .clusterRoleBinding { r with ObjectMeta := { r.ObjectMeta with Namespace := "" } } := rfl

/-- A successful read changes no store and logs one call. -/
theorem apiGet_ok_log {f : Faults} {cl : ClusterId} {k : Key} {w w1 : World} {o : Object}
    (h : apiGet f cl k w = (.ok o, w1)) :
    w1 = w.record ⟨cl, .get, k.norm, none, none⟩ := by
  unfold apiGet at h
  cases hf : f w.calls.length with
  | some x =>
    cases x with
    | error => simp [hf] at h
    | staleMiss => simp [hf] at h
    | staleHit o1 =>
      simp only [hf, Prod.mk.injEq, Except.ok.injEq] at h
      exact h.2.symm
  | none =>
    simp only [hf] at h
    cases hs : w.store cl k.norm with
    | none => simp [hs] at h
    | some o1 =>
      simp only [hs, Prod.mk.injEq, Except.ok.injEq] at h
      exact h.2.symm

/-- A successful read that is not served an outdated copy returns what the
store holds and changes no store. -/
theorem apiGet_ok {f : Faults} {cl : ClusterId} {k : Key} {w w1 : World} {o : Object}
    (hcur : noStaleHitAt f w.calls.length = true)
    (h : apiGet f cl k w = (.ok o, w1)) :
    w.store cl k.norm = some o ∧ f w.calls.length = none
      ∧ w1 = w.record ⟨cl, .get, k.norm, none, none⟩ := by
  unfold apiGet at h
  cases hf : f w.calls.length with
  | some x =>
    cases x with
    | error => simp [hf] at h
    | staleMiss => simp [hf] at h
    | staleHit o1 => simp [noStaleHitAt, hf] at hcur
  | none =>
    simp only [hf] at h
    cases hs : w.store cl k.norm with
    | none => simp [hs] at h
    | some o1 =>
      simp only [hs, Prod.mk.injEq, Except.ok.injEq] at h
      rcases h with ⟨rfl, rfl⟩
      exact ⟨rfl, rfl, rfl⟩

/-- A failed read changes no store; a not-found answer is a stale miss or a
free key. -/
theorem apiGet_error {f : Faults} {cl : ClusterId} {k : Key} {w w1 : World} {e : ErrKind}
    (h : apiGet f cl k w = (.error e, w1)) :
    w1 = w.record ⟨cl, .get, k.norm, none, some e⟩ ∧ e ≠ .AlreadyExists
      ∧ (f w.calls.length = none → w.store cl k.norm = none ∧ e = .NotFound) := by
  unfold apiGet at h
  split at h
  · rename_i hf
    simp only [Prod.mk.injEq, Except.error.injEq] at h
    rcases h with ⟨rfl, rfl⟩
    simp [hf]
  · rename_i hf
    simp only [Prod.mk.injEq, Except.error.injEq] at h
    rcases h with ⟨rfl, rfl⟩
    simp [hf]
  · simp at h
  · split at h
    · rename_i hs
      simp only [Prod.mk.injEq, Except.error.injEq] at h
      rcases h with ⟨rfl, rfl⟩
      simp [hs]
    · simp at h

/-- A successful create found the key free and stored the object. -/
theorem apiCreate_ok {f : Faults} {cl : ClusterId} {o o' : Object} {w w1 : World}
    (h : apiCreate f cl o w = (.ok o', w1)) :
    w.store cl o.key = none ∧ o' = o.norm ∧ f w.calls.length ≠ some .error
      ∧ w1 = (w.setStore cl ((w.store cl).set o.key (some o.norm))).record
          ⟨cl, .create, o.key, some o, none⟩ := by
  unfold apiCreate at h
  split at h
  · simp at h
  · rename_i hf
    split at h
    · simp at h
    · rename_i hs
      simp only [Prod.mk.injEq, Except.ok.injEq] at h
      rcases h with ⟨rfl, rfl⟩
      exact ⟨hs, rfl, fun hh => hf hh, rfl⟩

/-- A refused create changes no store; already-exists means the key is
taken. -/
theorem apiCreate_error {f : Faults} {cl : ClusterId} {o : Object} {w w1 : World} {e : ErrKind}
    (h : apiCreate f cl o w = (.error e, w1)) :
    w1 = w.record ⟨cl, .create, o.key, some o, some e⟩ ∧ e ≠ .NotFound
      ∧ (e = .AlreadyExists → (w.store cl o.key).isSome)
      ∧ (f w.calls.length ≠ some .error → e = .AlreadyExists) := by
  unfold apiCreate at h
  split at h
  · rename_i hf
    simp only [Prod.mk.injEq, Except.error.injEq] at h
    rcases h with ⟨rfl, rfl⟩
    simp [hf]
  · split at h
    · rename_i hs
      simp only [Prod.mk.injEq, Except.error.injEq] at h
      rcases h with ⟨rfl, rfl⟩
      simp [hs]
    · simp at h

/-- A successful update found an object under the key and replaced it. -/
theorem apiUpdate_ok {f : Faults} {cl : ClusterId} {o o' : Object} {w w1 : World}
    (h : apiUpdate f cl o w = (.ok o', w1)) :
    ∃ old, w.store cl o.key = some old ∧ o' = o.norm.keepStatus old
      ∧ w1 = (w.setStore cl ((w.store cl).set o.key (some (o.norm.keepStatus old)))).record
          ⟨cl, .update, o.key, some o, none⟩ := by
  unfold apiUpdate at h
  split at h
  · simp at h
  · split at h
    · simp at h
    · rename_i old hs
      simp only [Prod.mk.injEq, Except.ok.injEq] at h
      rcases h with ⟨rfl, rfl⟩
      exact ⟨old, hs, rfl, rfl⟩

/-- A failed update changes no store. -/
theorem apiUpdate_error {f : Faults} {cl : ClusterId} {o : Object} {w w1 : World} {e : ErrKind}
    (h : apiUpdate f cl o w = (.error e, w1)) :
    w1 = w.record ⟨cl, .update, o.key, some o, some e⟩ := by
  unfold apiUpdate at h
  split at h
  · simp only [Prod.mk.injEq, Except.error.injEq] at h
    rcases h with ⟨rfl, rfl⟩
    rfl
  · split at h
    · simp only [Prod.mk.injEq, Except.error.injEq] at h
      rcases h with ⟨rfl, rfl⟩
      rfl
    · simp at h

/-- A successful status update found an object under the key and replaced its
status. -/
theorem apiStatusUpdate_ok {f : Faults} {cl : ClusterId} {o o' : Object} {w w1 : World}
    (h : apiStatusUpdate f cl o w = (.ok o', w1)) :
    ∃ old, w.store cl o.key = some old ∧ o' = old.withStatusOf o
      ∧ w1 = (w.setStore cl ((w.store cl).set o.key (some (old.withStatusOf o)))).record
          ⟨cl, .statusUpdate, o.key, some o, none⟩ := by
  unfold apiStatusUpdate at h
  split at h
  · simp at h
  · split at h
    · simp at h
    · rename_i old hs
      simp only [Prod.mk.injEq, Except.ok.injEq] at h
      rcases h with ⟨rfl, rfl⟩
      exact ⟨old, hs, rfl, rfl⟩

/-- A failed status update changes no store. -/
theorem apiStatusUpdate_error {f : Faults} {cl : ClusterId} {o : Object} {w w1 : World}
    {e : ErrKind} (h : apiStatusUpdate f cl o w = (.error e, w1)) :
    w1 = w.record ⟨cl, .statusUpdate, o.key, some o, some e⟩ := by
  unfold apiStatusUpdate at h
  split at h
  · simp only [Prod.mk.injEq, Except.error.injEq] at h
    rcases h with ⟨rfl, rfl⟩
    rfl
  · split at h
    · simp only [Prod.mk.injEq, Except.error.injEq] at h
      rcases h with ⟨rfl, rfl⟩
      rfl
    · simp at h

/-- A delete that answers success removed the entry. -/
theorem apiDelete_ok {f : Faults} {cl : ClusterId} {o : Object} {w w1 : World}
    (h : apiDelete f cl o w = (none, w1)) :
    (w.store cl o.key).isSome
      ∧ w1 = (w.setStore cl ((w.store cl).set o.key none)).record
          ⟨cl, .delete, o.key, some o, none⟩ := by
  unfold apiDelete at h
  split at h
  · simp at h
  · split at h
    · simp at h
    · rename_i hs
      simp only [Prod.mk.injEq, true_and] at h
      subst h
      simp [hs]

/-- A delete that answers an error changes no store; not-found means the key
is free. -/
theorem apiDelete_error {f : Faults} {cl : ClusterId} {o : Object} {w w1 : World} {e : ErrKind}
    (h : apiDelete f cl o w = (some e, w1)) :
    w1 = w.record ⟨cl, .delete, o.key, some o, some e⟩
      ∧ (e = .NotFound → w.store cl o.key = none) := by
  unfold apiDelete at h
  split at h
  · simp only [Prod.mk.injEq, Option.some.injEq] at h
    rcases h with ⟨rfl, rfl⟩
    simp
  · split at h
    · rename_i hs
      simp only [Prod.mk.injEq, Option.some.injEq] at h
      rcases h with ⟨rfl, rfl⟩
      simp [hs]
    · simp at h

/-- A successful typed read of a Role. -/
theorem getRole_ok {f : Faults} {cl : ClusterId} {k : Key} {w w1 : World} {r : Role}
    (hcur : noStaleHitAt f w.calls.length = true)
    (h : getRole f cl k w = (.ok r, w1)) :
    w.store cl k.norm = some (.role r) ∧ w1 = w.record ⟨cl, .get, k.norm, none, none⟩ := by
  unfold getRole at h
  split at h
  · simp at h
  · rename_i hg
    simp only [Prod.mk.injEq, Except.ok.injEq] at h
    rcases h with ⟨rfl, rfl⟩
    exact ⟨(apiGet_ok hcur hg).1, (apiGet_ok hcur hg).2.2⟩
  · simp at h

/-- A failed typed read of a Role changes no store. -/
theorem getRole_error {f : Faults} {cl : ClusterId} {k : Key} {w w1 : World} {e : ErrKind}
    (h : getRole f cl k w = (.error e, w1)) :
    ∃ a, w1 = w.record ⟨cl, .get, k.norm, none, a⟩ := by
  unfold getRole at h
  split at h
  · rename_i hg
    simp only [Prod.mk.injEq, Except.error.injEq] at h
    rcases h with ⟨rfl, rfl⟩
    exact ⟨_, (apiGet_error hg).1⟩
  · simp at h
  · rename_i hg
    simp only [Prod.mk.injEq, Except.error.injEq] at h
    rcases h with ⟨rfl, rfl⟩
    exact ⟨_, apiGet_ok_log hg⟩

/-- A successful typed read of a ClusterRole. -/
theorem getClusterRole_ok {f : Faults} {cl : ClusterId} {k : Key} {w w1 : World} {r : ClusterRole}
    (hcur : noStaleHitAt f w.calls.length = true)
    (h : getClusterRole f cl k w = (.ok r, w1)) :
    w.store cl k.norm = some (.clusterRole r) ∧ w1 = w.record ⟨cl, .get, k.norm, none, none⟩ := by
  unfold getClusterRole at h
  split at h
  · simp at h
  · rename_i hg
    simp only [Prod.mk.injEq, Except.ok.injEq] at h
    rcases h with ⟨rfl, rfl⟩
    exact ⟨(apiGet_ok hcur hg).1, (apiGet_ok hcur hg).2.2⟩
  · simp at h

/-- A failed typed read of a ClusterRole changes no store. -/
theorem getClusterRole_error {f : Faults} {cl : ClusterId} {k : Key} {w w1 : World} {e : ErrKind}
    (h : getClusterRole f cl k w = (.error e, w1)) :
    ∃ a, w1 = w.record ⟨cl, .get, k.norm, none, a⟩ := by
  unfold getClusterRole at h
  split at h
  · rename_i hg
    simp only [Prod.mk.injEq, Except.error.injEq] at h
    rcases h with ⟨rfl, rfl⟩
    exact ⟨_, (apiGet_error hg).1⟩
  · simp at h
  · rename_i hg
    simp only [Prod.mk.injEq, Except.error.injEq] at h
    rcases h with ⟨rfl, rfl⟩
    exact ⟨_, apiGet_ok_log hg⟩

/-- Writing an object under its own key keeps a store well keyed. -/
theorem Store.WellKeyed.set {s : Store} (hs : s.WellKeyed) (k : Key) (o : Object) (ho : o.key = k) :
    (s.set k (some o)).WellKeyed := by
  intro k' o' h
  by_cases hk : k' = k
  · subst hk
    simp at h
    subst h
    exact ho
  · rw [Store.set_other _ _ _ _ hk] at h
    exact hs _ _ h

/-- Removing an entry keeps a store well keyed. -/
theorem Store.WellKeyed.erase {s : Store} (hs : s.WellKeyed) (k : Key) :
    (s.set k none).WellKeyed := by
  intro k' o' h
  by_cases hk : k' = k
  · subst hk
    simp at h
  · rw [Store.set_other _ _ _ _ hk] at h
    exact hs _ _ h

/-- What a successful `reconcileRole` leaves behind: the control cluster is
untouched, the target cluster differs at most under the Role's key, and that key
holds a Role with the claim's rules. -/
theorem reconcileRole_ok {e : Env} {c : PermissionClaimController} {claim : PermissionClaim}
    {w w' : World} {r : Role} (hw : w.target.WellKeyed)
    (hcur : noStaleHitAt e.faults w.calls.length = true)
    (h : reconcileRole e c claim w = (.ok r, w')) :
    w'.control = w.control
      ∧ (∀ k, k ≠ ⟨.Role, claim.Spec.Namespace, claim.ObjectMeta.Name⟩ → w'.target k = w.target k)
      ∧ (∃ role, w'.target ⟨.Role, claim.Spec.Namespace, claim.ObjectMeta.Name⟩ = some (.role role)
          ∧ role.Rules = claim.Spec.Rules)
      ∧ w'.target.WellKeyed
      ∧ r.ObjectMeta.Name = claim.ObjectMeta.Name
      ∧ r.ObjectMeta.Namespace = claim.Spec.Namespace := by
  unfold reconcileRole at h
  simp only [OwnerStrategy.SetControllerReference] at h
  cases ha : c.ownerStrategy.ownerAnnotations claim
      (ObjectMeta.named claim.ObjectMeta.Name claim.Spec.Namespace) with
  | none => simp [ha] at h
  | some a =>
    simp only [ha] at h
    rcases hg : getRole e.faults .target
      (Object.role { ObjectMeta := { ObjectMeta.named claim.ObjectMeta.Name claim.Spec.Namespace with
          Annotations := a }, Rules := claim.Spec.Rules }).key w with ⟨res, w1⟩
    rw [hg] at h
    cases res with
    | error k =>
      simp only at h
      obtain ⟨ans, hw1⟩ := getRole_error hg
      split at h
      · simp at h
      · rcases hc : apiCreate e.faults .target
          (.role { ObjectMeta := { ObjectMeta.named claim.ObjectMeta.Name claim.Spec.Namespace with
            Annotations := a }, Rules := claim.Spec.Rules }) w1 with ⟨res2, w2⟩
        rw [hc] at h
        cases res2 with
        | error k2 => simp at h
        | ok o2 =>
          simp only [Prod.mk.injEq, Except.ok.injEq] at h
          rcases h with ⟨rfl, rfl⟩
          obtain ⟨_, _, _, hw2⟩ := apiCreate_ok hc
          subst hw2
          subst hw1
          refine ⟨rfl, ?_, ⟨{ ObjectMeta := { ObjectMeta.named claim.ObjectMeta.Name
            claim.Spec.Namespace with Annotations := a }, Rules := claim.Spec.Rules }, ?_, rfl⟩, ?_, rfl, rfl⟩
          · intro k hk
            simp [ObjectMeta.named, Store.set_other _ _ _ _ hk]
          · simp [ObjectMeta.named]
          · simp only [World.target_record, World.setStore_target, World.store_target]
            exact hw.set _ _ rfl
    | ok existingRole =>
      simp only at h
      obtain ⟨hs, hw1⟩ := getRole_ok hcur hg
      have hkey := hw _ _ hs
      simp only [Object.key_role, Key.norm, Kind.clusterScoped, ObjectMeta.named] at hkey hs
      simp at hkey
      split at h
      · rcases hu : apiUpdate e.faults .target
          (.role { existingRole with Rules := claim.Spec.Rules }) w1 with ⟨res2, w2⟩
        rw [hu] at h
        cases res2 with
        | error k2 => simp at h
        | ok o2 =>
          simp only [Prod.mk.injEq, Except.ok.injEq] at h
          rcases h with ⟨rfl, rfl⟩
          obtain ⟨old, _, _, hw2⟩ := apiUpdate_ok hu
          subst hw2
          subst hw1
          refine ⟨rfl, ?_, ⟨{ existingRole with Rules := claim.Spec.Rules }, ?_, rfl⟩, ?_, rfl, rfl⟩
          · intro k hk
            simp [hkey.1, hkey.2, Store.set_other _ _ _ _ hk]
          · simp [hkey.1, hkey.2, Object.keepStatus]
          · simp only [World.target_record, World.setStore_target, World.store_target]
            refine hw.set _ _ ?_
            simp [Object.keepStatus]
      · rename_i hne
        simp only [Prod.mk.injEq, Except.ok.injEq] at h
        rcases h with ⟨rfl, rfl⟩
        subst hw1
        refine ⟨rfl, fun _ _ => rfl, ⟨existingRole, ?_, ?_⟩, hw, rfl, rfl⟩
        · simpa using hs
        · simp at hne
          exact hne.symm

/-- A fault-free read of a free key answers not-found. -/
theorem apiGet_free {f : Faults} {cl : ClusterId} {k : Key} {w : World}
    (hf : f w.calls.length = none) (hs : w.store cl k.norm = none) :
    apiGet f cl k w = (.error .NotFound, w.record ⟨cl, .get, k.norm, none, some .NotFound⟩) := by
  simp [apiGet, hf, hs]

/-- A fault-free read of a taken key answers the stored object. -/
theorem apiGet_taken {f : Faults} {cl : ClusterId} {k : Key} {w : World} {o : Object}
    (hf : f w.calls.length = none) (hs : w.store cl k.norm = some o) :
    apiGet f cl k w = (.ok o, w.record ⟨cl, .get, k.norm, none, none⟩) := by
  simp [apiGet, hf, hs]

/-- A fault-free create under a free key stores the object. -/
theorem apiCreate_free {f : Faults} {cl : ClusterId} {o : Object} {w : World}
    (hf : f w.calls.length ≠ some .error) (hs : w.store cl o.key = none) :
    apiCreate f cl o w = (.ok o.norm,
      (w.setStore cl ((w.store cl).set o.key (some o.norm))).record ⟨cl, .create, o.key, some o, none⟩) := by
  unfold apiCreate
  split
  · rename_i h
    exact absurd h hf
  · simp [hs]

/-- A fault-free create under a taken key answers already-exists. -/
theorem apiCreate_taken {f : Faults} {cl : ClusterId} {o x : Object} {w : World}
    (hf : f w.calls.length ≠ some .error) (hs : w.store cl o.key = some x) :
    apiCreate f cl o w = (.error .AlreadyExists,
      w.record ⟨cl, .create, o.key, some o, some .AlreadyExists⟩) := by
  unfold apiCreate
  split
  · rename_i h
    exact absurd h hf
  · simp [hs]

/-- A fault-free update of a stored object replaces it. -/
theorem apiUpdate_taken {f : Faults} {cl : ClusterId} {o old : Object} {w : World}
    (hf : f w.calls.length ≠ some .error) (hs : w.store cl o.key = some old) :
    apiUpdate f cl o w = (.ok (o.norm.keepStatus old),
      (w.setStore cl ((w.store cl).set o.key (some (o.norm.keepStatus old)))).record
        ⟨cl, .update, o.key, some o, none⟩) := by
  unfold apiUpdate
  split
  · rename_i h
    exact absurd h hf
  · simp [hs]

/-- A fault-free status update of a stored object replaces its status. -/
theorem apiStatusUpdate_taken {f : Faults} {cl : ClusterId} {o old : Object} {w : World}
    (hf : f w.calls.length ≠ some .error) (hs : w.store cl o.key = some old) :
    apiStatusUpdate f cl o w = (.ok (old.withStatusOf o),
      (w.setStore cl ((w.store cl).set o.key (some (old.withStatusOf o)))).record
        ⟨cl, .statusUpdate, o.key, some o, none⟩) := by
  unfold apiStatusUpdate
  split
  · rename_i h
    exact absurd h hf
  · simp [hs]

/-- Without faults `reconcileRole` succeeds whenever the owner can be recorded
and the key of the Role is free or holds a Role. -/
theorem reconcileRole_succeeds {e : Env} {c : PermissionClaimController} {claim : PermissionClaim}
    {w : World} (hw : w.target.WellKeyed)
    (hf0 : e.faults w.calls.length = none) (hf1 : e.faults (w.calls.length + 1) = none)
    (ha : c.ownerStrategy.ownerAnnotations claim
      (ObjectMeta.named claim.ObjectMeta.Name claim.Spec.Namespace) ≠ none)
    (hs : w.target ⟨.Role, claim.Spec.Namespace, claim.ObjectMeta.Name⟩ = none
      ∨ ∃ role, w.target ⟨.Role, claim.Spec.Namespace, claim.ObjectMeta.Name⟩ = some (.role role)) :
    ∃ r w', reconcileRole e c claim w = (.ok r, w') := by
  obtain ⟨a, ha⟩ := Option.ne_none_iff_exists'.mp ha
  unfold reconcileRole
  simp only [OwnerStrategy.SetControllerReference, ha]
  rcases hs with hs | ⟨role, hs⟩
  · rw [getRole, apiGet_free hf0 (by simpa [Key.norm, Kind.clusterScoped, ObjectMeta.named] using hs)]
    simp only [ne_eq, not_true_eq_false, ↓reduceIte]
    rw [apiCreate_free (by simp [hf1]) (by simpa [ObjectMeta.named] using hs)]
    exact ⟨_, _, rfl⟩
  · rw [getRole, apiGet_taken hf0 (by simpa [Key.norm, Kind.clusterScoped, ObjectMeta.named] using hs)]
    simp only
    split
    · have hkey := hw _ _ hs
      simp only [Object.key_role, Key.mk.injEq, true_and] at hkey
      rw [apiUpdate_taken (by simp [hf1]) (by simpa [hkey.1, hkey.2] using hs)]
      exact ⟨_, _, rfl⟩
    · exact ⟨_, _, rfl⟩

/-- Normalising an object does not move it to another key. -/
theorem Object.key_norm (o : Object) : o.norm.key = o.key := by
  cases o <;> rfl

/-- The empty store is well keyed. -/
theorem emptyStore_wellKeyed : emptyStore.WellKeyed := by
  intro k o h
  simp [emptyStore] at h

/-- Adding objects under their own keys keeps a store well keyed. -/
theorem foldl_set_wellKeyed (objs : List Object) (s : Store) (hs : s.WellKeyed) :
    (objs.foldl (fun s o => s.set o.key (some o.norm)) s).WellKeyed := by
  induction objs generalizing s with
  | nil => exact hs
  | cons o rest ih => exact ih _ (hs.set _ _ (Object.key_norm o))

/-- A store built from a list of objects is well keyed. -/
theorem storeOf_wellKeyed (objs : List Object) : (storeOf objs).WellKeyed :=
  foldl_set_wellKeyed objs _ emptyStore_wellKeyed

/-- C1, the code at a claim with one namespaced rule and one cluster rule:
`reconcileClusterRole` succeeds on an empty target cluster and the ClusterRole
`demo` it leaves there carries the namespaced rule (`spec.rules`), not the
claim's cluster rule (`spec.clusterRules`). -/
theorem C1_clusterRole_gets_namespaced_rules :
    (∃ r, (reconcileClusterRole demoEnv demoController nodesClaim
        (worldOf [.claim nodesClaim] [])).1 = .ok r)
      ∧ nodesClaim.Spec.ClusterRules = [nodesRule]
      ∧ (reconcileClusterRole demoEnv demoController nodesClaim
          (worldOf [.claim nodesClaim] [])).2.target.rules ⟨.ClusterRole, "", "demo"⟩
        = some [demoRule]
      ∧ [demoRule] ≠ nodesClaim.Spec.ClusterRules := by
  refine ⟨⟨_, rfl⟩, rfl, rfl, by decide⟩

/-- C2, counterexample: the Role `team-a/demo` of the target cluster holds the
rule on nodes, and the cache behind the reader still holds the copy with the
claim's rule on pods. `reconcileRole` reads that copy, finds nothing to change
and returns without error after this one call; the Role on the target cluster
keeps the rule on nodes, which is not `spec.rules`. -/
theorem C2_outdated_read_skips_update :
    (worldOf [.claim demoClaim] [.role driftedRole]).target ⟨.Role, "team-a", "demo"⟩
        = some (.role driftedRole)
      ∧ (∃ r, (reconcileRole firstReadOutdated demoController demoClaim
          (worldOf [.claim demoClaim] [.role driftedRole])).1 = .ok r)
      ∧ (newCalls (worldOf [.claim demoClaim] [.role driftedRole])
          (reconcileRole firstReadOutdated demoController demoClaim
            (worldOf [.claim demoClaim] [.role driftedRole])).2).map
            (fun x => (x.cluster, x.verb, x.key, x.err))
          = [(.target, .get, ⟨.Role, "team-a", "demo"⟩, none)]
      ∧ (reconcileRole firstReadOutdated demoController demoClaim
          (worldOf [.claim demoClaim] [.role driftedRole])).2.target ⟨.Role, "team-a", "demo"⟩
          = some (.role driftedRole)
      ∧ demoClaim.ObjectMeta.Name = "demo" ∧ demoClaim.Spec.Namespace = "team-a"
      ∧ driftedRole.Rules ≠ demoClaim.Spec.Rules := by
  refine ⟨by decide, ⟨_, rfl⟩, by decide, by decide, rfl, rfl, by decide⟩

/-- C2, amended: on every well-keyed target cluster, whenever `reconcileRole`
returns without error and its read of the Role was not answered with an
outdated cached copy, the Role named `claim.Name` in namespace `spec.namespace`
of the target cluster has exactly the rules `spec.rules`, whether it was absent
or held other rules before; and without faults on its two calls the step does
return without error when that key is free or holds a Role. -/
theorem C2_reconcileRole_converges (e : Env) (c : PermissionClaimController)
    (claim : PermissionClaim) (w : World) (hw : w.target.WellKeyed)
    (hcur : noStaleHitAt e.faults w.calls.length = true) :
    (∀ r w', reconcileRole e c claim w = (.ok r, w') →
        ∃ role, w'.target ⟨.Role, claim.Spec.Namespace, claim.ObjectMeta.Name⟩ = some (.role role)
          ∧ role.Rules = claim.Spec.Rules)
      ∧ (e.faults w.calls.length = none → e.faults (w.calls.length + 1) = none →
          c.ownerStrategy.ownerAnnotations claim
            (ObjectMeta.named claim.ObjectMeta.Name claim.Spec.Namespace) ≠ none →
          (w.target ⟨.Role, claim.Spec.Namespace, claim.ObjectMeta.Name⟩ = none
            ∨ ∃ role, w.target ⟨.Role, claim.Spec.Namespace, claim.ObjectMeta.Name⟩
                = some (.role role)) →
          ∃ r w', reconcileRole e c claim w = (.ok r, w')) :=
  ⟨fun _ _ h => (reconcileRole_ok hw hcur h).2.2.1, fun hf0 hf1 ha hs => reconcileRole_succeeds hw hf0 hf1 ha hs⟩

/-- Witness for the amended C2 on a drifted Role read without lag: the Role
`team-a/demo` holds a foreign rule, and after the step it holds the claim's
rule. -/
theorem C2_reconcileRole_converges_witness :
    (worldOf [.claim demoClaim] [.role driftedRole]).target.WellKeyed
      ∧ noStaleHitAt demoEnv.faults (worldOf [.claim demoClaim] [.role driftedRole]).calls.length
          = true
      ∧ (worldOf [.claim demoClaim] [.role driftedRole]).target.rules ⟨.Role, "team-a", "demo"⟩
          = some [nodesRule]
      ∧ ∃ role, (reconcileRole demoEnv demoController demoClaim
          (worldOf [.claim demoClaim] [.role driftedRole])).2.target ⟨.Role, "team-a", "demo"⟩
            = some (.role role) ∧ role.Rules = [demoRule] :=
  ⟨storeOf_wellKeyed _, rfl, rfl,
    (C2_reconcileRole_converges demoEnv demoController demoClaim
      (worldOf [.claim demoClaim] [.role driftedRole]) (storeOf_wellKeyed _) rfl).1 _ _ rfl⟩

/-- C3, the code on the scenario `team-a/demo` with both clusters otherwise
empty: `Reconcile` succeeds, its creates of the ServiceAccount, the RoleBinding
and the ClusterRoleBinding are sent to the control cluster, those three objects
exist there afterwards, and the target cluster holds none of them. -/
theorem C3_serviceAccount_and_bindings_created_in_control :
    (Reconcile demoEnv demoController demoReq (worldOf [.claim demoClaim] [])).1 = none
      ∧ ((Reconcile demoEnv demoController demoReq (worldOf [.claim demoClaim] [])).2.calls.filter
            (fun c => c.verb == .create && c.cluster == .control)).map (fun c => c.key.kind)
          = [.ServiceAccount, .RoleBinding, .ClusterRoleBinding]
      ∧ ((Reconcile demoEnv demoController demoReq (worldOf [.claim demoClaim] [])).2.calls.filter
            (fun c => c.verb == .create && c.cluster == .target)).map (fun c => c.key.kind)
          = [.Role, .ClusterRole]
      ∧ (Reconcile demoEnv demoController demoReq (worldOf [.claim demoClaim] [])).2.target
          ⟨.ServiceAccount, "team-a", "demo"⟩ = none
      ∧ (Reconcile demoEnv demoController demoReq (worldOf [.claim demoClaim] [])).2.target
          ⟨.RoleBinding, "team-a", "demo"⟩ = none
      ∧ (Reconcile demoEnv demoController demoReq (worldOf [.claim demoClaim] [])).2.target
          ⟨.ClusterRoleBinding, "", "demo"⟩ = none
      ∧ ((Reconcile demoEnv demoController demoReq (worldOf [.claim demoClaim] [])).2.control
          ⟨.ServiceAccount, "team-a", "demo"⟩).isSome = true
      ∧ ((Reconcile demoEnv demoController demoReq (worldOf [.claim demoClaim] [])).2.control
          ⟨.RoleBinding, "team-a", "demo"⟩).isSome = true
      ∧ ((Reconcile demoEnv demoController demoReq (worldOf [.claim demoClaim] [])).2.control
          ⟨.ClusterRoleBinding, "", "demo"⟩).isSome = true := by
  decide

/-- C4, the code on a deleting claim `team-a/demo` whose `spec.namespace` is
`tenant-b`, with the Role `tenant-b/demo` in the target cluster:
`handleDeletion` returns without error and the persisted claim has lost the
cleanup finalizer, yet the Role `demo` in `tenant-b` is still there (the delete
was addressed to `team-a/demo` and answered not-found). -/
theorem C4_role_in_spec_namespace_survives_deletion :
    (handleDeletion demoEnv deletingClaim
        (worldOf [.claim deletingClaim] [.role tenantRole])).1 = none
      ∧ (handleDeletion demoEnv deletingClaim
          (worldOf [.claim deletingClaim] [.role tenantRole])).2.2.control
            ⟨.PermissionClaim, "team-a", "demo"⟩
          = some (.claim (RemoveFinalizer deletingClaim cleanupFinalizer))
      ∧ ContainsFinalizer (RemoveFinalizer deletingClaim cleanupFinalizer) cleanupFinalizer = false
      ∧ deletingClaim.Spec.Namespace = "tenant-b"
      ∧ (handleDeletion demoEnv deletingClaim
          (worldOf [.claim deletingClaim] [.role tenantRole])).2.2.target
            ⟨.Role, "tenant-b", "demo"⟩ = some (.role tenantRole)
      ∧ ((handleDeletion demoEnv deletingClaim
          (worldOf [.claim deletingClaim] [.role tenantRole])).2.2.calls.filter
            (fun c => c.key.kind == .Role)).map (fun c => (c.key.Namespace, c.err))
          = [("team-a", some .NotFound)] := by
  decide

/-- C7, the code on the live claim `team-a/demo` when the ServiceAccount
`team-a/demo` exists (in both clusters) listing a token secret that can be
fetched, and no kubeconfig Secret exists: `Reconcile` returns without error,
never reads the token secret, creates no Secret, and the persisted claim is
still `Pending` without conditions. -/
theorem C7_ready_serviceAccount_yields_no_secret :
    (Reconcile demoEnv demoController demoReq
        (worldOf [.claim liveClaim, .serviceAccount readyServiceAccount, .secret tokenSecret]
          [.serviceAccount readyServiceAccount, .secret tokenSecret])).1 = none
      ∧ (Reconcile demoEnv demoController demoReq
          (worldOf [.claim liveClaim, .serviceAccount readyServiceAccount, .secret tokenSecret]
            [.serviceAccount readyServiceAccount, .secret tokenSecret])).2.control
              ⟨.Secret, "team-a", "demo-kubeconfig"⟩ = none
      ∧ (Reconcile demoEnv demoController demoReq
          (worldOf [.claim liveClaim, .serviceAccount readyServiceAccount, .secret tokenSecret]
            [.serviceAccount readyServiceAccount, .secret tokenSecret])).2.calls.filter
              (fun c => c.key.kind == .Secret) = []
      ∧ (Reconcile demoEnv demoController demoReq
          (worldOf [.claim liveClaim, .serviceAccount readyServiceAccount, .secret tokenSecret]
            [.serviceAccount readyServiceAccount, .secret tokenSecret])).2.control
              ⟨.PermissionClaim, "team-a", "demo"⟩ = some (.claim liveClaim)
      ∧ liveClaim.Status = { Conditions := [], Phase := PermissionClaimPhasePending } := by
  decide

/-- The log of the delete loop: only deletes on the target cluster; the loop
ends without error exactly when every object was addressed and every answer was
success or not-found. -/
theorem deleteAll_trace (f : Faults) (objs : List Object) (w : World) :
    ∃ dels, (deleteAll f objs w).2.calls = w.calls ++ dels
      ∧ (deleteAll f objs w).2.control = w.control
      ∧ (∀ c ∈ dels, c.cluster = .target ∧ c.verb = .delete)
      ∧ ((deleteAll f objs w).1 = none →
          dels.map (fun c => c.key) = objs.map Object.key ∧ ∀ c ∈ dels, c.benign = true)
      ∧ ((deleteAll f objs w).1 ≠ none → ∃ c ∈ dels, c.benign = false) := by
  induction objs generalizing w with
  | nil => exact ⟨[], by simp [deleteAll]⟩
  | cons obj rest ih =>
    unfold deleteAll
    rcases hd : apiDelete f .target obj w with ⟨res, w1⟩
    cases res with
    | none =>
      simp only
      obtain ⟨_, hw1⟩ := apiDelete_ok hd
      obtain ⟨dels, h1, h2, h3, h4, h5⟩ := ih w1
      refine ⟨⟨.target, .delete, obj.key, some obj, none⟩ :: dels, ?_, ?_, ?_, ?_, ?_⟩
      · rw [h1, hw1]; simp
      · rw [h2, hw1]; simp
      · intro c hc
        rcases List.mem_cons.mp hc with rfl | hc
        · exact ⟨rfl, rfl⟩
        · exact h3 c hc
      · intro hn
        obtain ⟨hk, hb⟩ := h4 hn
        refine ⟨by simp [hk], ?_⟩
        intro c hc
        rcases List.mem_cons.mp hc with rfl | hc
        · rfl
        · exact hb c hc
      · intro hn
        obtain ⟨c, hc, hb⟩ := h5 hn
        exact ⟨c, List.mem_cons_of_mem _ hc, hb⟩
    | some k =>
      simp only
      obtain ⟨hw1, _⟩ := apiDelete_error hd
      by_cases hk : k = .NotFound
      · subst hk
        simp only [ne_eq, not_true_eq_false, ↓reduceIte]
        obtain ⟨dels, h1, h2, h3, h4, h5⟩ := ih w1
        refine ⟨⟨.target, .delete, obj.key, some obj, some .NotFound⟩ :: dels, ?_, ?_, ?_, ?_, ?_⟩
        · rw [h1, hw1]; simp
        · rw [h2, hw1]; simp
        · intro c hc
          rcases List.mem_cons.mp hc with rfl | hc
          · exact ⟨rfl, rfl⟩
          · exact h3 c hc
        · intro hn
          obtain ⟨hk, hb⟩ := h4 hn
          refine ⟨by simp [hk], ?_⟩
          intro c hc
          rcases List.mem_cons.mp hc with rfl | hc
          · rfl
          · exact hb c hc
        · intro hn
          obtain ⟨c, hc, hb⟩ := h5 hn
          exact ⟨c, List.mem_cons_of_mem _ hc, hb⟩
      · simp only [ne_eq, hk, not_false_eq_true, ↓reduceIte]
        refine ⟨[⟨.target, .delete, obj.key, some obj, some k⟩], ?_, ?_, ?_, ?_, ?_⟩
        · rw [hw1]; simp
        · rw [hw1]; simp
        · intro c hc
          simp only [List.mem_singleton] at hc
          subst hc
          exact ⟨rfl, rfl⟩
        · intro hn
          simp at hn
        · intro _
          refine ⟨_, List.mem_singleton.mpr rfl, ?_⟩
          cases k <;> simp [Call.benign] at hk ⊢

/-- The calls appended to a log are the new calls. -/
theorem newCalls_of_append {w w' : World} {cs : List Call} (h : w'.calls = w.calls ++ cs) :
    newCalls w w' = cs := by
  simp [newCalls, h]

/-- A successful claim update found an object under the claim's key and
stored the claim there, keeping the stored status. -/
theorem updateClaim_ok {f : Faults} {cl : ClusterId} {claim c' : PermissionClaim} {w w1 : World}
    (h : updateClaim f cl claim w = (.ok c', w1)) :
    ∃ old, w.store cl (Object.claim claim).key = some old
      ∧ (Object.claim claim).keepStatus old = .claim c'
      ∧ w1 = (w.setStore cl ((w.store cl).set (Object.claim claim).key (some (.claim c')))).record
          ⟨cl, .update, (Object.claim claim).key, some (.claim claim), none⟩ := by
  unfold updateClaim at h
  rcases hu : apiUpdate f cl (.claim claim) w with ⟨res, w2⟩
  rw [hu] at h
  cases res with
  | error k => simp at h
  | ok o =>
    obtain ⟨old, hs, ho, hw2⟩ := apiUpdate_ok hu
    simp only [Object.norm_claim] at ho hw2
    have hcl : ∃ c2, (Object.claim claim).keepStatus old = .claim c2 := by
      cases old <;> simp [Object.keepStatus]
    obtain ⟨c2, hc2⟩ := hcl
    rw [hc2] at ho hw2
    subst ho
    simp only [Prod.mk.injEq, Except.ok.injEq] at h
    rcases h with ⟨rfl, rfl⟩
    exact ⟨old, hs, hc2, hw2⟩

/-- A failed claim update changes no store. -/
theorem updateClaim_error {f : Faults} {cl : ClusterId} {claim : PermissionClaim} {w w1 : World}
    {k : ErrKind} (h : updateClaim f cl claim w = (.error k, w1)) :
    w1 = w.record ⟨cl, .update, (Object.claim claim).key, some (.claim claim), some k⟩ := by
  unfold updateClaim at h
  rcases hu : apiUpdate f cl (.claim claim) w with ⟨res, w2⟩
  rw [hu] at h
  cases res with
  | error k2 =>
    simp only [Prod.mk.injEq, Except.error.injEq] at h
    rcases h with ⟨rfl, rfl⟩
    exact apiUpdate_error hu
  | ok o =>
    exfalso
    cases o <;> simp at h

/-- The three ways `handleDeletion` can run: a delete fails; all deletes are
fine and there is no finalizer to remove; all deletes are fine and the claim
update is sent. -/
theorem handleDeletion_cases (e : Env) (claim : PermissionClaim) (w : World) :
    ∃ dels, (∀ c ∈ dels, c.cluster = .target ∧ c.verb = .delete)
      ∧ (((∃ c ∈ dels, c.benign = false)
            ∧ (handleDeletion e claim w).1 ≠ none
            ∧ (handleDeletion e claim w).2.1 = claim
            ∧ (handleDeletion e claim w).2.2.calls = w.calls ++ dels
            ∧ (handleDeletion e claim w).2.2.control = w.control)
        ∨ ((∀ c ∈ dels, c.benign = true)
            ∧ dels.map (fun c => c.key) = (deletionObjects claim).map Object.key
            ∧ ((ContainsFinalizer claim cleanupFinalizer = false
                  ∧ (handleDeletion e claim w).1 = none
                  ∧ (handleDeletion e claim w).2.1 = claim
                  ∧ (handleDeletion e claim w).2.2.calls = w.calls ++ dels
                  ∧ (handleDeletion e claim w).2.2.control = w.control)
              ∨ (ContainsFinalizer claim cleanupFinalizer = true
                  ∧ ∃ a, (handleDeletion e claim w).2.2.calls = w.calls ++ dels ++
                      [⟨.control, .update, (Object.claim claim).key,
                        some (.claim (RemoveFinalizer claim cleanupFinalizer)), a⟩]
                    ∧ ((handleDeletion e claim w).1 = none ↔ a = none)
                    ∧ (a = none → ∃ c2, c2.ObjectMeta
                          = (RemoveFinalizer claim cleanupFinalizer).ObjectMeta
                        ∧ (handleDeletion e claim w).2.2.control (Object.claim claim).key
                          = some (.claim c2)))))) := by
  obtain ⟨dels, h1, h2, h3, h4, h5⟩ := deleteAll_trace e.faults (deletionObjects claim) w
  refine ⟨dels, h3, ?_⟩
  unfold handleDeletion
  rcases hd : deleteAll e.faults (deletionObjects claim) w with ⟨res, w1⟩
  rw [hd] at h1 h2 h4 h5
  simp only at h1 h2
  cases res with
  | some err =>
    left
    exact ⟨h5 (by simp), by simp, rfl, h1, h2⟩
  | none =>
    right
    obtain ⟨hk, hb⟩ := h4 rfl
    refine ⟨hb, hk, ?_⟩
    simp only
    cases hfin : ContainsFinalizer claim cleanupFinalizer with
    | false =>
      left
      simp only [Bool.false_eq_true, ↓reduceIte]
      simp [h1, h2]
    | true =>
      right
      simp only [↓reduceIte, true_and]
      rcases hu : updateClaim e.faults .control (RemoveFinalizer claim cleanupFinalizer) w1
        with ⟨res, w2⟩
      have hkey : (Object.claim (RemoveFinalizer claim cleanupFinalizer)).key
          = (Object.claim claim).key := rfl
      cases res with
      | error k =>
        have hw2 := updateClaim_error hu
        rw [hkey] at hw2
        refine ⟨some k, ?_, by simp, by simp⟩
        simp only [hw2, World.calls_record, h1]
      | ok c2 =>
        obtain ⟨old, _, hks, hw2⟩ := updateClaim_ok hu
        rw [hkey] at hw2
        refine ⟨none, ?_, by simp, fun _ => ⟨c2, ?_, ?_⟩⟩
        · simp only [hw2, World.calls_record, World.setStore_calls, h1]
        · cases old <;> simp only [Object.keepStatus, Object.claim.injEq] at hks <;> rw [← hks]
        · simp only [hw2, World.control_record, World.setStore_control, Store.set_same]

/-- C5: in `handleDeletion` every call is a delete on the target cluster or
the claim update that carries the claim without the cleanup finalizer. If some
delete is answered with an error other than not-found, the function returns an
error, the claim in memory is unchanged, no update is sent and the control
cluster is unchanged. If every delete is answered with success or not-found,
all five objects are addressed, and then: with the finalizer present the claim
update is sent and the function succeeds exactly when that update does, leaving
the persisted claim without the finalizer; with no finalizer it succeeds without
an update. Hence an update call, a changed claim or a changed control cluster
occur only after five deletes answered success or not-found. -/
theorem C5_handleDeletion_finalizer_gated (e : Env) (claim : PermissionClaim) (w : World) :
    (∀ c ∈ newCalls w (handleDeletion e claim w).2.2,
        (c.cluster = .target ∧ c.verb = .delete)
          ∨ (c.cluster = .control ∧ c.verb = .update
              ∧ c.obj = some (.claim (RemoveFinalizer claim cleanupFinalizer))))
      ∧ ((∃ c ∈ newCalls w (handleDeletion e claim w).2.2, c.verb = .delete ∧ c.benign = false) →
          (handleDeletion e claim w).1 ≠ none
            ∧ (handleDeletion e claim w).2.1 = claim
            ∧ (∀ c ∈ newCalls w (handleDeletion e claim w).2.2, c.verb ≠ .update)
            ∧ (handleDeletion e claim w).2.2.control = w.control)
      ∧ ((∀ c ∈ newCalls w (handleDeletion e claim w).2.2, c.verb = .delete → c.benign = true) →
          ((newCalls w (handleDeletion e claim w).2.2).filter (fun c => c.verb == .delete)).map
              (fun c => c.key) = (deletionObjects claim).map Object.key
            ∧ (ContainsFinalizer claim cleanupFinalizer = true →
                ∃ c ∈ newCalls w (handleDeletion e claim w).2.2, c.verb = .update
                  ∧ ((handleDeletion e claim w).1 = none ↔ c.err = none)
                  ∧ (c.err = none → ∃ c2, ContainsFinalizer c2 cleanupFinalizer = false
                      ∧ (handleDeletion e claim w).2.2.control (Object.claim claim).key
                          = some (.claim c2)))
            ∧ (ContainsFinalizer claim cleanupFinalizer = false →
                (handleDeletion e claim w).1 = none))
      ∧ (((∃ c ∈ newCalls w (handleDeletion e claim w).2.2, c.verb = .update)
            ∨ (handleDeletion e claim w).2.1 ≠ claim
            ∨ (handleDeletion e claim w).2.2.control ≠ w.control) →
          ((newCalls w (handleDeletion e claim w).2.2).filter (fun c => c.verb == .delete)).map
              (fun c => c.key) = (deletionObjects claim).map Object.key
            ∧ ∀ c ∈ newCalls w (handleDeletion e claim w).2.2, c.verb = .delete → c.benign = true) := by
  obtain ⟨dels, hdel, hcase⟩ := handleDeletion_cases e claim w
  have hfilter : dels.filter (fun c => c.verb == .delete) = dels := by
    rw [List.filter_eq_self]
    intro c hc
    simp [(hdel c hc).2]
  rcases hcase with ⟨hbad, herr, hclaim, hcalls, hctl⟩ | ⟨hben, hkeys, hrest⟩
  · have hn := newCalls_of_append hcalls
    rw [hn]
    refine ⟨fun c hc => Or.inl (hdel c hc), fun _ => ⟨herr, hclaim, ?_, hctl⟩, ?_, ?_⟩
    · intro c hc
      simp [(hdel c hc).2]
    · intro hall
      obtain ⟨c, hc, hb⟩ := hbad
      have := hall c hc (hdel c hc).2
      simp [hb] at this
    · rintro (⟨c, hc, hu⟩ | h | h)
      · simp [(hdel c hc).2] at hu
      · exact absurd hclaim h
      · exact absurd hctl h
  · rcases hrest with ⟨hfin, herr, hclaim, hcalls, hctl⟩ | ⟨hfin, a, hcalls, hiff, hstore⟩
    · have hn := newCalls_of_append hcalls
      rw [hn, hfilter]
      refine ⟨fun c hc => Or.inl (hdel c hc), ?_, fun _ => ⟨hkeys, ?_, fun _ => herr⟩,
        fun _ => ⟨hkeys, fun c hc _ => hben c hc⟩⟩
      · rintro ⟨c, hc, _, hb⟩
        simp [hben c hc] at hb
      · intro h
        simp [hfin] at h
    · have hn : newCalls w (handleDeletion e claim w).2.2 = dels ++
          [⟨.control, .update, (Object.claim claim).key,
            some (.claim (RemoveFinalizer claim cleanupFinalizer)), a⟩] :=
        newCalls_of_append (by rw [hcalls, List.append_assoc])
      rw [hn]
      have hf2 : (dels ++ [(⟨.control, .update, (Object.claim claim).key,
          some (.claim (RemoveFinalizer claim cleanupFinalizer)), a⟩ : Call)]).filter
            (fun c => c.verb == .delete) = dels := by
        rw [List.filter_append, hfilter]
        simp
      rw [hf2]
      have hall : ∀ c ∈ dels ++ [(⟨.control, .update, (Object.claim claim).key,
          some (.claim (RemoveFinalizer claim cleanupFinalizer)), a⟩ : Call)],
          c.verb = .delete → c.benign = true := by
        intro c hc hv
        rcases List.mem_append.mp hc with hc | hc
        · exact hben c hc
        · simp only [List.mem_singleton] at hc
          subst hc
          simp at hv
      refine ⟨?_, ?_, fun _ => ⟨hkeys, fun _ => ⟨_, List.mem_append_right _ (List.mem_singleton.mpr rfl),
        rfl, hiff, ?_⟩, ?_⟩, fun _ => ⟨hkeys, hall⟩⟩
      · intro c hc
        rcases List.mem_append.mp hc with hc | hc
        · exact Or.inl (hdel c hc)
        · simp only [List.mem_singleton] at hc
          subst hc
          exact Or.inr ⟨rfl, rfl, rfl⟩
      · rintro ⟨c, hc, hv, hb⟩
        have := hall c hc hv
        simp [hb] at this
      · intro ha
        obtain ⟨c2, hm, hs⟩ := hstore ha
        refine ⟨c2, ?_, hs⟩
        simp [ContainsFinalizer, hm, RemoveFinalizer]
      · intro h
        simp [hfin] at h

/-- Witness for C5: the delete of the ClusterRoleBinding is refused, so the
deletion of `team-a/demo` returns an error, keeps the claim as it was and sends
no update. -/
theorem C5_handleDeletion_finalizer_gated_witness :
    (handleDeletion thirdCallFails deletingClaim
        (worldOf [.claim deletingClaim] [.role tenantRole])).1 ≠ none
      ∧ (handleDeletion thirdCallFails deletingClaim
          (worldOf [.claim deletingClaim] [.role tenantRole])).2.1 = deletingClaim
      ∧ (∀ c ∈ newCalls (worldOf [.claim deletingClaim] [.role tenantRole])
            (handleDeletion thirdCallFails deletingClaim
              (worldOf [.claim deletingClaim] [.role tenantRole])).2.2, c.verb ≠ .update)
      ∧ (handleDeletion thirdCallFails deletingClaim
          (worldOf [.claim deletingClaim] [.role tenantRole])).2.2.control
          = (worldOf [.claim deletingClaim] [.role tenantRole]).control :=
  (C5_handleDeletion_finalizer_gated thirdCallFails deletingClaim
    (worldOf [.claim deletingClaim] [.role tenantRole])).2.1
    ⟨⟨.target, .delete, ⟨.ClusterRoleBinding, "", "demo"⟩,
        some (.clusterRoleBinding
          { ObjectMeta := ObjectMeta.named "demo" "",
            RoleRef := { APIGroup := "", Kind := "", Name := "" }, Subjects := [] }),
        some .Other⟩, by decide, by decide, by decide⟩

/-- A read only appends to the log. -/
theorem apiGet_grows (f : Faults) (cl : ClusterId) (k : Key) (w : World) :
    w.calls <+: (apiGet f cl k w).2.calls := by
  unfold apiGet
  split
  · simp
  · simp
  · simp
  · split <;> simp

/-- A create only appends to the log. -/
theorem apiCreate_grows (f : Faults) (cl : ClusterId) (o : Object) (w : World) :
    w.calls <+: (apiCreate f cl o w).2.calls := by
  unfold apiCreate
  split
  · simp
  · split <;> simp

/-- An update only appends to the log. -/
theorem apiUpdate_grows (f : Faults) (cl : ClusterId) (o : Object) (w : World) :
    w.calls <+: (apiUpdate f cl o w).2.calls := by
  unfold apiUpdate
  split
  · simp
  · split <;> simp

/-- A status update only appends to the log. -/
theorem apiStatusUpdate_grows (f : Faults) (cl : ClusterId) (o : Object) (w : World) :
    w.calls <+: (apiStatusUpdate f cl o w).2.calls := by
  unfold apiStatusUpdate
  split
  · simp
  · split <;> simp

/-- A typed read of a Role only appends to the log. -/
theorem getRole_grows (f : Faults) (cl : ClusterId) (k : Key) (w : World) :
    w.calls <+: (getRole f cl k w).2.calls := by
  have h := apiGet_grows f cl k w
  unfold getRole
  split <;> simp_all

/-- A typed read of a ClusterRole only appends to the log. -/
theorem getClusterRole_grows (f : Faults) (cl : ClusterId) (k : Key) (w : World) :
    w.calls <+: (getClusterRole f cl k w).2.calls := by
  have h := apiGet_grows f cl k w
  unfold getClusterRole
  split <;> simp_all

/-- A typed read of a Secret only appends to the log. -/
theorem getSecret_grows (f : Faults) (cl : ClusterId) (k : Key) (w : World) :
    w.calls <+: (getSecret f cl k w).2.calls := by
  have h := apiGet_grows f cl k w
  unfold getSecret
  split <;> simp_all

/-- `reconcileRole` only appends to the log. -/
theorem reconcileRole_grows (e : Env) (c : PermissionClaimController) (claim : PermissionClaim)
    (w : World) : w.calls <+: (reconcileRole e c claim w).2.calls := by
  unfold reconcileRole
  dsimp only
  split
  · exact List.prefix_rfl
  · rename_i m _
    have h1 := getRole_grows e.faults .target
      (Object.role { ObjectMeta := m, Rules := claim.Spec.Rules }).key w
    split
    · rename_i k w1 hg
      rw [hg] at h1
      split
      · exact h1
      · have h2 := apiCreate_grows e.faults .target
          (.role { ObjectMeta := m, Rules := claim.Spec.Rules }) w1
        split <;> simp_all <;> exact h1.trans h2
    · rename_i existingRole w1 hg
      rw [hg] at h1
      split
      · have h2 := apiUpdate_grows e.faults .target
          (.role { existingRole with Rules := claim.Spec.Rules }) w1
        split <;> simp_all <;> exact h1.trans h2
      · exact h1

/-- The log after a create extends the log before. -/
theorem apiCreate_grows_of {f : Faults} {cl : ClusterId} {o : Object} {w w1 : World}
    {res : Except ErrKind Object} (h : apiCreate f cl o w = (res, w1)) : w.calls <+: w1.calls := by
  have := apiCreate_grows f cl o w
  rw [h] at this
  exact this

/-- `reconcileClusterRole` only appends to the log. -/
theorem reconcileClusterRole_grows (e : Env) (c : PermissionClaimController)
    (claim : PermissionClaim) (w : World) :
    w.calls <+: (reconcileClusterRole e c claim w).2.calls := by
  unfold reconcileClusterRole
  dsimp only
  split
  · exact List.prefix_rfl
  · rename_i m _
    have h1 := getClusterRole_grows e.faults .target
      (Object.clusterRole { ObjectMeta := m, Rules := claim.Spec.Rules }).key w
    split
    · rename_i k w1 hg
      rw [hg] at h1
      split
      · exact h1
      · have h2 := apiCreate_grows e.faults .target
          (.clusterRole { ObjectMeta := m, Rules := claim.Spec.Rules }) w1
        split <;> simp_all <;> exact h1.trans h2
    · rename_i existingRole w1 hg
      rw [hg] at h1
      split
      · have h2 := apiUpdate_grows e.faults .target
          (.clusterRole { existingRole with Rules := claim.Spec.Rules }) w1
        split <;> simp_all <;> exact h1.trans h2
      · exact h1

/-- `reconcileServiceAccount` only appends to the log. -/
theorem reconcileServiceAccount_grows (e : Env) (c : PermissionClaimController)
    (claim : PermissionClaim) (w : World) :
    w.calls <+: (reconcileServiceAccount e c claim w).2.calls := by
  unfold reconcileServiceAccount
  dsimp only
  split
  · exact List.prefix_rfl
  · split
    · rename_i hc
      split <;> exact apiCreate_grows_of hc
    · rename_i hc
      exact apiCreate_grows_of hc

/-- `reconcileRoleBinding` only appends to the log. -/
theorem reconcileRoleBinding_grows (e : Env) (c : PermissionClaimController)
    (claim : PermissionClaim) (role : Role) (sa : ServiceAccount) (w : World) :
    w.calls <+: (reconcileRoleBinding e c claim role sa w).2.calls := by
  unfold reconcileRoleBinding
  dsimp only
  split
  · exact List.prefix_rfl
  · split
    · rename_i hc
      split <;> exact apiCreate_grows_of hc
    · rename_i hc
      exact apiCreate_grows_of hc

/-- `reconcileClusterRoleBinding` only appends to the log. -/
theorem reconcileClusterRoleBinding_grows (e : Env) (c : PermissionClaimController)
    (claim : PermissionClaim) (role : ClusterRole) (sa : ServiceAccount) (w : World) :
    w.calls <+: (reconcileClusterRoleBinding e c claim role sa w).2.calls := by
  unfold reconcileClusterRoleBinding
  dsimp only
  split
  · exact List.prefix_rfl
  · split
    · rename_i hc
      split <;> exact apiCreate_grows_of hc
    · rename_i hc
      exact apiCreate_grows_of hc

/-- `reconcileKubeconfigSecret` only appends to the log. -/
theorem reconcileKubeconfigSecret_grows (e : Env) (c : PermissionClaimController)
    (claim : PermissionClaim) (sa : ServiceAccount) (w : World) :
    w.calls <+: (reconcileKubeconfigSecret e c claim sa w).2.2.calls := by
  unfold reconcileKubeconfigSecret
  split
  · exact List.prefix_rfl
  · rename_i secretRef _ _
    have h1 := getSecret_grows e.faults .target
      ⟨.Secret, secretRef.Namespace, secretRef.Name⟩ w
    split
    · rename_i hg
      rw [hg] at h1
      exact h1
    · rename_i hg
      rw [hg] at h1
      dsimp only
      split
      · exact h1
      · split
        · rename_i hc
          exact h1.trans (apiCreate_grows_of hc)
        · rename_i hc
          exact h1.trans (apiCreate_grows_of hc)

/-- Reading the log growth off an equation for the result. -/
theorem grows_of_eq {α : Type} {x : α × World} {r : α} {w w1 : World}
    (hp : w.calls <+: x.2.calls) (h : x = (r, w1)) : w.calls <+: w1.calls := by
  subst h
  exact hp

/-- Reading the log growth off an equation for a result that also carries the
claim. -/
theorem grows_of_eq3 {α : Type} {x : α × PermissionClaim × World} {r : α} {cl : PermissionClaim}
    {w w1 : World} (hp : w.calls <+: x.2.2.calls) (h : x = (r, cl, w1)) : w.calls <+: w1.calls := by
  subst h
  exact hp

/-- Once the claim is loaded, live, and its finalizer ensured, everything else
`Reconcile` does only appends to the log. -/
theorem Reconcile_live_grows {e : Env} {c : PermissionClaimController} {req : NamespacedName}
    {w w0 w1 : World} {claim claim1 : PermissionClaim}
    (hget : getClaim e.faults .control req.claimKey w = (.ok claim, w0))
    (hz : claim.ObjectMeta.deletionTimestampIsZero = true)
    (hens : ensureCacheFinalizer e claim w0 = (none, claim1, w1)) :
    w1.calls <+: (Reconcile e c req w).2.calls := by
  unfold Reconcile
  rw [hget]
  simp only [hz, not_true_eq_false, ↓reduceIte]
  rw [hens]
  dsimp only
  split
  · rename_i h2
    exact grows_of_eq (reconcileRole_grows e c claim1 w1) h2
  · rename_i h2
    have p2 := grows_of_eq (reconcileRole_grows e c claim1 w1) h2
    split
    · rename_i h3
      exact p2.trans (grows_of_eq (reconcileClusterRole_grows _ _ _ _) h3)
    · rename_i h3
      have p3 := p2.trans (grows_of_eq (reconcileClusterRole_grows _ _ _ _) h3)
      split
      · rename_i h4
        exact p3.trans (grows_of_eq (reconcileServiceAccount_grows _ _ _ _) h4)
      · rename_i h4
        have p4 := p3.trans (grows_of_eq (reconcileServiceAccount_grows _ _ _ _) h4)
        split
        · rename_i h5
          exact p4.trans (grows_of_eq (reconcileRoleBinding_grows _ _ _ _ _ _) h5)
        · rename_i h5
          have p5 := p4.trans (grows_of_eq (reconcileRoleBinding_grows _ _ _ _ _ _) h5)
          split
          · rename_i h6
            exact p5.trans (grows_of_eq (reconcileClusterRoleBinding_grows _ _ _ _ _ _) h6)
          · rename_i h6
            have p6 := p5.trans (grows_of_eq (reconcileClusterRoleBinding_grows _ _ _ _ _ _) h6)
            split
            · rename_i h7
              exact p6.trans (grows_of_eq3 (reconcileKubeconfigSecret_grows _ _ _ _ _) h7)
            · rename_i h7
              have p7 := p6.trans (grows_of_eq3 (reconcileKubeconfigSecret_grows _ _ _ _ _) h7)
              split
              · rename_i h8
                exact p7.trans (grows_of_eq (apiStatusUpdate_grows _ _ _ _) h8)
              · rename_i h8
                exact p7.trans (grows_of_eq (apiStatusUpdate_grows _ _ _ _) h8)

/-- A successful typed read of a claim logs one call and changes no store. -/
theorem getClaim_ok_log {f : Faults} {cl : ClusterId} {k : Key} {w w1 : World}
    {r : PermissionClaim} (h : getClaim f cl k w = (.ok r, w1)) :
    w1 = w.record ⟨cl, .get, k.norm, none, none⟩ := by
  unfold getClaim at h
  split at h
  · simp at h
  · rename_i hg
    simp only [Prod.mk.injEq, Except.ok.injEq] at h
    rcases h with ⟨rfl, rfl⟩
    exact apiGet_ok_log hg
  · simp at h

/-- A successful typed read of a claim that is not served an outdated copy
returns the stored claim. -/
theorem getClaim_ok {f : Faults} {cl : ClusterId} {k : Key} {w w1 : World} {r : PermissionClaim}
    (hcur : noStaleHitAt f w.calls.length = true)
    (h : getClaim f cl k w = (.ok r, w1)) :
    w.store cl k.norm = some (.claim r) ∧ f w.calls.length = none
      ∧ w1 = w.record ⟨cl, .get, k.norm, none, none⟩ := by
  unfold getClaim at h
  split at h
  · simp at h
  · rename_i hg
    simp only [Prod.mk.injEq, Except.ok.injEq] at h
    rcases h with ⟨rfl, rfl⟩
    exact apiGet_ok hcur hg
  · simp at h

/-- Adding a finalizer makes it present. -/
theorem ContainsFinalizer_AddFinalizer (claim : PermissionClaim) (fin : String) :
    ContainsFinalizer (AddFinalizer claim fin) fin = true := by
  unfold AddFinalizer ContainsFinalizer
  split
  · assumption
  · simp

/-- Removing a finalizer makes it absent. -/
theorem ContainsFinalizer_RemoveFinalizer (claim : PermissionClaim) (fin : String) :
    ContainsFinalizer (RemoveFinalizer claim fin) fin = false := by
  simp [RemoveFinalizer, ContainsFinalizer]

/-- On a live claim without the finalizer, `Reconcile` first reads the claim,
then sends the claim update that adds the finalizer; when that update fails
nothing else is sent and both clusters are as before. -/
theorem Reconcile_adds_finalizer_first {e : Env} {c : PermissionClaimController}
    {req : NamespacedName} {w w0 : World} {claim : PermissionClaim}
    (hget : getClaim e.faults .control req.claimKey w = (.ok claim, w0))
    (hz : claim.ObjectMeta.deletionTimestampIsZero = true)
    (hfin : ContainsFinalizer claim cleanupFinalizer = false) :
    ∃ a rest, newCalls w (Reconcile e c req w).2
        = [⟨.control, .get, req.claimKey, none, none⟩,
           ⟨.control, .update, (Object.claim claim).key,
            some (.claim (AddFinalizer claim cleanupFinalizer)), a⟩] ++ rest
      ∧ (a ≠ none → rest = [] ∧ (Reconcile e c req w).1 ≠ none
          ∧ (Reconcile e c req w).2.target = w.target
          ∧ (Reconcile e c req w).2.control = w.control) := by
  have hw0 := getClaim_ok_log hget
  have hnorm : req.claimKey.norm = req.claimKey := rfl
  rw [hnorm] at hw0
  have hkey : (Object.claim (AddFinalizer claim cleanupFinalizer)).key = (Object.claim claim).key := by
    unfold AddFinalizer
    split <;> rfl
  rcases hu : updateClaim e.faults .control (AddFinalizer claim cleanupFinalizer) w0 with ⟨res, w1⟩
  cases res with
  | error k =>
    have hw1 := updateClaim_error hu
    rw [hkey] at hw1
    refine ⟨some k, [], ?_, fun _ => ⟨rfl, ?_, ?_, ?_⟩⟩
    all_goals
      unfold Reconcile
      rw [hget]
      simp only [hz, not_true_eq_false, ↓reduceIte, ensureCacheFinalizer, hfin, hu,
        Bool.false_eq_true, not_false_eq_true]
    · apply newCalls_of_append
      simp [hw1, hw0]
    · simp
    · simp [hw1, hw0]
    · simp [hw1, hw0]
  | ok claim1 =>
    obtain ⟨old, _, _, hw1⟩ := updateClaim_ok hu
    rw [hkey] at hw1
    have hens : ensureCacheFinalizer e claim w0 = (none, claim1, w1) := by
      simp [ensureCacheFinalizer, hfin, hu]
    obtain ⟨rest, hrest⟩ := Reconcile_live_grows (c := c) hget hz hens
    refine ⟨none, rest, ?_, fun h => absurd rfl h⟩
    apply newCalls_of_append
    rw [← hrest, hw1, hw0]
    simp

/-- C6: let `Reconcile` load the claim. If the claim is live and lacks the
cleanup finalizer, then the second call of the run is the claim update that
carries the finalizer; every write to a derived resource comes later in the log
and only after that update was answered with success; and when the update is
refused `Reconcile` returns an error after these two calls with both clusters
unchanged. If the claim has a deletion timestamp, the run contains no create
and no status update, and any claim update it sends carries the claim without
the cleanup finalizer. -/
theorem C6_finalizer_precedes_creation (e : Env) (c : PermissionClaimController)
    (req : NamespacedName) (w w0 : World) (claim : PermissionClaim)
    (hget : getClaim e.faults .control req.claimKey w = (.ok claim, w0)) :
    (claim.ObjectMeta.deletionTimestampIsZero = true
        ∧ ContainsFinalizer claim cleanupFinalizer = false →
      (∃ u, (newCalls w (Reconcile e c req w).2)[1]? = some u
          ∧ u.cluster = .control ∧ u.verb = .update
          ∧ u.obj = some (.claim (AddFinalizer claim cleanupFinalizer))
          ∧ ContainsFinalizer (AddFinalizer claim cleanupFinalizer) cleanupFinalizer = true)
        ∧ (∀ i x, (newCalls w (Reconcile e c req w).2)[i]? = some x → x.isWrite = true →
            x.key.kind ≠ .PermissionClaim →
            1 < i ∧ (newCalls w (Reconcile e c req w).2)[1]?
              = some ⟨.control, .update, (Object.claim claim).key,
                  some (.claim (AddFinalizer claim cleanupFinalizer)), none⟩)
        ∧ (∀ u, (newCalls w (Reconcile e c req w).2)[1]? = some u → u.err ≠ none →
            (Reconcile e c req w).1 ≠ none
              ∧ (newCalls w (Reconcile e c req w).2).length = 2
              ∧ (Reconcile e c req w).2.target = w.target
              ∧ (Reconcile e c req w).2.control = w.control))
      ∧ (claim.ObjectMeta.deletionTimestampIsZero = false →
          ContainsFinalizer (RemoveFinalizer claim cleanupFinalizer) cleanupFinalizer = false
            ∧ ∀ x ∈ newCalls w (Reconcile e c req w).2,
                x.verb ≠ .create ∧ x.verb ≠ .statusUpdate
                  ∧ (x.verb = .update →
                      x.obj = some (.claim (RemoveFinalizer claim cleanupFinalizer)))) := by
  constructor
  · rintro ⟨hz, hfin⟩
    obtain ⟨a, rest, hcalls, hfail⟩ := Reconcile_adds_finalizer_first (c := c) hget hz hfin
    rw [hcalls]
    refine ⟨⟨⟨.control, .update, (Object.claim claim).key,
      some (.claim (AddFinalizer claim cleanupFinalizer)), a⟩, by simp, rfl, rfl, rfl,
      ContainsFinalizer_AddFinalizer _ _⟩, ?_, ?_⟩
    · intro i x hx hwr hkind
      match i, hx with
      | 0, hx =>
        simp only [List.cons_append, List.getElem?_cons_zero, Option.some.injEq] at hx
        subst hx
        simp [Call.isWrite] at hwr
      | 1, hx =>
        simp only [List.cons_append, List.getElem?_cons_succ, List.getElem?_cons_zero,
          Option.some.injEq] at hx
        subst hx
        simp at hkind
      | i + 2, hx =>
        refine ⟨by omega, ?_⟩
        cases a with
        | none => simp
        | some k =>
          obtain ⟨hr, _⟩ := hfail (by simp)
          subst hr
          simp at hx
    · intro u hu hne
      simp only [List.cons_append, List.getElem?_cons_succ, List.getElem?_cons_zero,
        Option.some.injEq] at hu
      subst hu
      obtain ⟨hr, h1, h2, h3⟩ := hfail hne
      subst hr
      exact ⟨h1, rfl, h2, h3⟩
  · intro hz
    refine ⟨ContainsFinalizer_RemoveFinalizer _ _, ?_⟩
    have hw0 := getClaim_ok_log hget
    have hR : (Reconcile e c req w).2 = (handleDeletion e claim w0).2.2 := by
      unfold Reconcile
      rw [hget]
      simp [hz]
    rw [hR]
    obtain ⟨dels, hdel, hcase⟩ := handleDeletion_cases e claim w0
    have key : ∀ cs : List Call, (handleDeletion e claim w0).2.2.calls = w0.calls ++ cs →
        newCalls w (handleDeletion e claim w0).2.2
          = ⟨.control, .get, req.claimKey.norm, none, none⟩ :: cs := by
      intro cs h
      apply newCalls_of_append
      rw [h, hw0]
      simp
    rcases hcase with ⟨_, _, _, hcalls, _⟩ | ⟨_, _, ⟨_, _, _, hcalls, _⟩ | ⟨_, a, hcalls, _⟩⟩
    · rw [key _ hcalls]
      intro x hx
      rcases List.mem_cons.mp hx with rfl | hx
      · simp
      · simp [(hdel x hx).2]
    · rw [key _ hcalls]
      intro x hx
      rcases List.mem_cons.mp hx with rfl | hx
      · simp
      · simp [(hdel x hx).2]
    · rw [List.append_assoc] at hcalls
      rw [key _ hcalls]
      intro x hx
      rcases List.mem_cons.mp hx with rfl | hx
      · simp
      · rcases List.mem_append.mp hx with hx | hx
        · simp [(hdel x hx).2]
        · simp only [List.mem_singleton] at hx
          subst hx
          simp

/-- Witness for C6: the control cluster refuses the update that adds the
finalizer to `team-a/demo`; `Reconcile` returns an error after two calls and
neither cluster has changed. -/
theorem C6_finalizer_precedes_creation_witness :
    (Reconcile secondCallFails demoController demoReq (worldOf [.claim demoClaim] [])).1 ≠ none
      ∧ (newCalls (worldOf [.claim demoClaim] [])
          (Reconcile secondCallFails demoController demoReq
            (worldOf [.claim demoClaim] [])).2).length = 2
      ∧ (Reconcile secondCallFails demoController demoReq (worldOf [.claim demoClaim] [])).2.target
          = (worldOf [.claim demoClaim] []).target
      ∧ (Reconcile secondCallFails demoController demoReq (worldOf [.claim demoClaim] [])).2.control
          = (worldOf [.claim demoClaim] []).control :=
  ((C6_finalizer_precedes_creation secondCallFails demoController demoReq
      (worldOf [.claim demoClaim] []) _ demoClaim rfl).1 ⟨by decide, by decide⟩).2.2
    ⟨.control, .update, ⟨.PermissionClaim, "team-a", "demo"⟩,
      some (.claim (AddFinalizer demoClaim cleanupFinalizer)), some .Other⟩
    (by decide) (by decide)

/-- Assigning under a key that is present keeps the keys. -/
theorem mapAssign_of_mem (m : List (String × AuthInfo)) (k : String) (v : AuthInfo)
    (hk : k ∈ m.map Prod.fst) :
    mapAssign m k v = m.map (fun e => if e.1 = k then (e.1, v) else e) := by
  unfold mapAssign
  have : m.any (fun e => e.1 == k) = true := by
    simp only [List.mem_map] at hk
    obtain ⟨e, he, rfl⟩ := hk
    simp only [List.any_eq_true, beq_iff_eq]
    exact ⟨e, he, rfl⟩
  rw [if_pos this]
  apply List.map_congr_left
  intro e _
  by_cases h : e.1 = k
  · simp [h]
  · simp [h]

/-- Assigning every key of a map in turn replaces every value. -/
theorem foldl_mapAssign (v : AuthInfo) (ks : List String) (m : List (String × AuthInfo))
    (hks : ∀ k ∈ ks, k ∈ m.map Prod.fst) :
    ks.foldl (fun m k => mapAssign m k v) m
      = m.map (fun e => if e.1 ∈ ks then (e.1, v) else e) := by
  induction ks generalizing m with
  | nil => simp
  | cons k ks ih =>
    have hk : k ∈ m.map Prod.fst := hks k (List.mem_cons_self _ _)
    have hkeys : (mapAssign m k v).map Prod.fst = m.map Prod.fst := by
      rw [mapAssign_of_mem m k v hk, List.map_map]
      apply List.map_congr_left
      intro e _
      by_cases h : e.1 = k <;> simp [h]
    rw [List.foldl_cons, ih]
    · rw [mapAssign_of_mem m k v hk, List.map_map]
      apply List.map_congr_left
      intro e _
      by_cases h : e.1 = k
      · simp [h]
      · by_cases h2 : e.1 ∈ ks
        · simp [h, h2]
        · simp [h, h2]
    · intro k' hk'
      rw [hkeys]
      exact hks k' (List.mem_cons_of_mem _ hk')

/-- Dereferencing the fresh cell at the end of the memory. -/
theorem ConfigHeap.deref_append_length (h : ConfigHeap) (t : Config) :
    ConfigHeap.deref (h ++ [t]) h.length = t := by
  simp [ConfigHeap.deref, List.getD_eq_getElem?_getD]

/-- Dereferencing an old cell after a cell was appended. -/
theorem ConfigHeap.deref_append_lt (h : ConfigHeap) (t : Config) (p : Nat) (hp : p < h.length) :
    ConfigHeap.deref (h ++ [t]) p = ConfigHeap.deref h p := by
  simp [ConfigHeap.deref, List.getD_eq_getElem?_getD, List.getElem?_append_left hp]

/-- Assigning into the fresh cell rewrites that cell only. -/
theorem ConfigHeap.assignAuthInfo_last (h : ConfigHeap) (t : Config) (i : String) (a : AuthInfo) :
    ConfigHeap.assignAuthInfo (h ++ [t]) h.length i a
      = h ++ [{ t with AuthInfos := mapAssign t.AuthInfos i a }] := by
  unfold ConfigHeap.assignAuthInfo
  rw [ConfigHeap.deref_append_length]
  simp

/-- The walk over the keys, run on the fresh cell. -/
theorem foldl_assignAuthInfo_last (h : ConfigHeap) (a : AuthInfo) (ks : List String) (t : Config) :
    ks.foldl (fun hh i => ConfigHeap.assignAuthInfo hh h.length i a) (h ++ [t])
      = h ++ [{ t with AuthInfos := ks.foldl (fun m k => mapAssign m k a) t.AuthInfos }] := by
  induction ks generalizing t with
  | nil => rfl
  | cons k ks ih =>
    rw [List.foldl_cons, ConfigHeap.assignAuthInfo_last, ih]
    rfl

/-- What `newKubeconfig` computes: the old cells as they were, followed by the
template with every credential entry replaced by the token-only entry. -/
theorem newKubeconfig_eq (h : ConfigHeap) (base : Nat) (token : String) :
    newKubeconfig h base token
      = (h ++ [{ h.deref base with
            AuthInfos := (h.deref base).AuthInfos.map (fun e => (e.1, AuthInfo.ofToken token)) }],
          h.length) := by
  unfold newKubeconfig ConfigHeap.DeepCopy
  simp only [ConfigHeap.deref_append_length]
  rw [foldl_assignAuthInfo_last, foldl_mapAssign _ _ _ (fun _ hk => hk)]
  have hm : (h.deref base).AuthInfos.map
        (fun e => if e.1 ∈ List.map Prod.fst (h.deref base).AuthInfos
          then (e.1, AuthInfo.ofToken token) else e)
      = (h.deref base).AuthInfos.map (fun e => (e.1, AuthInfo.ofToken token)) := by
    apply List.map_congr_left
    intro e he
    have : e.1 ∈ List.map Prod.fst (h.deref base).AuthInfos := List.mem_map_of_mem _ he
    simp [this]
  rw [hm]

/-- The document `reconcileKubeconfigSecret` marshals is the controller's
template with every credential entry replaced by the token-only entry. -/
theorem kubeconfigFor_eq (c : PermissionClaimController) (token : String) :
    kubeconfigFor c token
      = { c.baseKubeconfig with
          AuthInfos := c.baseKubeconfig.AuthInfos.map (fun e => (e.1, AuthInfo.ofToken token)) } := by
  unfold kubeconfigFor
  rw [newKubeconfig_eq]
  rfl

/-- After `SetStatusCondition` the list holds a condition of the new type with
the new status. -/
theorem SetStatusCondition_mem (now : Nat) (conds : List Condition) (new : Condition) :
    ∃ x ∈ SetStatusCondition now conds new, x.Type_ = new.Type_ ∧ x.Status = new.Status := by
  induction conds with
  | nil => exact ⟨_, List.mem_singleton.mpr rfl, rfl, rfl⟩
  | cons x rest ih =>
    unfold SetStatusCondition
    split
    · rename_i h
      exact ⟨_, List.mem_cons_self _ _, h, rfl⟩
    · obtain ⟨y, hy, h1, h2⟩ := ih
      exact ⟨y, List.mem_cons_of_mem _ hy, h1, h2⟩

/-- A controller reference leaves name and namespace alone. -/
theorem SetControllerReference_ok {scheme : Scheme} {owner : PermissionClaim} {m m' : ObjectMeta}
    (h : SetControllerReference scheme owner m = .ok m') :
    m'.Name = m.Name ∧ m'.Namespace = m.Namespace := by
  unfold SetControllerReference at h
  split at h
  · simp at h
  · split at h
    · simp at h
    · dsimp only at h
      split at h
      · simp at h
      · simp only [Except.ok.injEq] at h
        subst h
        exact ⟨rfl, rfl⟩

/-- A successful typed read of a Secret logs one call and changes no store. -/
theorem getSecret_ok_log {f : Faults} {cl : ClusterId} {k : Key} {w w1 : World} {r : Secret}
    (h : getSecret f cl k w = (.ok r, w1)) :
    w1 = w.record ⟨cl, .get, k.norm, none, none⟩ := by
  unfold getSecret at h
  split at h
  · simp at h
  · rename_i hg
    simp only [Prod.mk.injEq, Except.ok.injEq] at h
    rcases h with ⟨rfl, rfl⟩
    exact apiGet_ok_log hg
  · simp at h

/-- A successful typed read of a Secret that is not served an outdated copy
returns the stored Secret. -/
theorem getSecret_ok {f : Faults} {cl : ClusterId} {k : Key} {w w1 : World} {r : Secret}
    (hcur : noStaleHitAt f w.calls.length = true)
    (h : getSecret f cl k w = (.ok r, w1)) :
    w.store cl k.norm = some (.secret r) ∧ w1 = w.record ⟨cl, .get, k.norm, none, none⟩ := by
  unfold getSecret at h
  split at h
  · simp at h
  · rename_i hg
    simp only [Prod.mk.injEq, Except.ok.injEq] at h
    rcases h with ⟨rfl, rfl⟩
    exact ⟨(apiGet_ok hcur hg).1, (apiGet_ok hcur hg).2.2⟩
  · simp at h

/-- A failed typed read of a Secret logs one call and changes no store. -/
theorem getSecret_error {f : Faults} {cl : ClusterId} {k : Key} {w w1 : World} {e : ErrKind}
    (h : getSecret f cl k w = (.error e, w1)) :
    ∃ a, w1 = w.record ⟨cl, .get, k.norm, none, a⟩ := by
  unfold getSecret at h
  split at h
  · rename_i hg
    simp only [Prod.mk.injEq, Except.error.injEq] at h
    rcases h with ⟨rfl, rfl⟩
    exact ⟨_, (apiGet_error hg).1⟩
  · simp at h
  · rename_i hg
    simp only [Prod.mk.injEq, Except.error.injEq] at h
    rcases h with ⟨rfl, rfl⟩
    exact ⟨_, apiGet_ok_log hg⟩

/-- C8: with a ServiceAccount that lists no token secret,
`reconcileKubeconfigSecret` returns no error and hands back the claim and the
world exactly as they were (no call is logged: no token secret is read, no
Secret is created, status and phase are unchanged). Conversely, whenever the
claim's status comes back changed, the step returned no error, its log contains
a create of the Secret `spec.secretName` in the claim's namespace on the control
cluster that was answered with success, the phase is `Bound` and a `Bound`
condition with status true is present; nothing but the status differs. -/
theorem C8_kubeconfig_secret_gated (e : Env) (c : PermissionClaimController)
    (claim : PermissionClaim) (sa : ServiceAccount) (w : World) :
    (sa.Secrets = [] → reconcileKubeconfigSecret e c claim sa w = (none, claim, w))
      ∧ ((reconcileKubeconfigSecret e c claim sa w).2.1.Status ≠ claim.Status →
          (reconcileKubeconfigSecret e c claim sa w).1 = none
            ∧ (∃ x ∈ newCalls w (reconcileKubeconfigSecret e c claim sa w).2.2,
                x.cluster = .control ∧ x.verb = .create
                  ∧ x.key = ⟨.Secret, claim.ObjectMeta.Namespace, claim.Spec.SecretName⟩
                  ∧ x.err = none)
            ∧ (reconcileKubeconfigSecret e c claim sa w).2.1.Status.Phase = PermissionClaimPhaseBound
            ∧ (∃ cond ∈ (reconcileKubeconfigSecret e c claim sa w).2.1.Status.Conditions,
                cond.Type_ = PermissionClaimBound ∧ cond.Status = ConditionTrue))
      ∧ (reconcileKubeconfigSecret e c claim sa w).2.1.ObjectMeta = claim.ObjectMeta
      ∧ (reconcileKubeconfigSecret e c claim sa w).2.1.Spec = claim.Spec := by
  refine ⟨fun h => by simp [reconcileKubeconfigSecret, h], ?_⟩
  unfold reconcileKubeconfigSecret
  split
  · simp
  · rename_i secretRef _ _
    split
    · simp
    · rename_i saTokenSecret w1 hg
      dsimp only
      split
      · simp
      · rename_i m hm
        split
        · simp
        · rename_i o w2 hc
          have hw1 := getSecret_ok_log hg
          obtain ⟨_, _, _, hw2⟩ := apiCreate_ok hc
          obtain ⟨hn, hns⟩ := SetControllerReference_ok hm
          have hnew : newCalls w w2 =
              [⟨.target, .get, ⟨.Secret, secretRef.Namespace, secretRef.Name⟩, none, none⟩,
               ⟨.control, .create, ⟨.Secret, m.Namespace, m.Name⟩,
                some (.secret { ObjectMeta := m, Data := [(ServiceAccountKubeconfigKey,
                  e.yamlMarshal (kubeconfigFor c
                    ((List.lookup ServiceAccountTokenKey saTokenSecret.Data).getD "")))] }),
                none⟩] := newCalls_of_append (by
              rw [hw2, hw1]
              simp only [World.calls_record, World.setStore_calls, List.append_assoc,
                List.singleton_append]
              rfl)
          have hmem : (⟨.control, .create, ⟨.Secret, m.Namespace, m.Name⟩,
                some (.secret { ObjectMeta := m, Data := [(ServiceAccountKubeconfigKey,
                  e.yamlMarshal (kubeconfigFor c
                    ((List.lookup ServiceAccountTokenKey saTokenSecret.Data).getD "")))] }),
                none⟩ : Call) ∈ newCalls w w2 := by
            rw [hnew]
            exact List.mem_cons_of_mem _ (List.mem_singleton.mpr rfl)
          refine ⟨fun _ => ⟨rfl, ⟨_, hmem, rfl, rfl, ?_, rfl⟩, rfl,
            SetStatusCondition_mem _ _ _⟩, rfl, rfl⟩
          simp [hn, hns, ObjectMeta.named]

/-- Witness for C8: without a token secret the step hands everything back
untouched; with the token secret at hand the claim comes back `Bound`. -/
theorem C8_kubeconfig_secret_gated_witness :
    reconcileKubeconfigSecret demoEnv demoController liveClaim freshServiceAccount
        (worldOf [.claim liveClaim] [.secret tokenSecret])
      = (none, liveClaim, worldOf [.claim liveClaim] [.secret tokenSecret])
    ∧ (reconcileKubeconfigSecret demoEnv demoController liveClaim readyServiceAccount
        (worldOf [.claim liveClaim] [.secret tokenSecret])).2.1.Status.Phase
      = PermissionClaimPhaseBound :=
  ⟨(C8_kubeconfig_secret_gated demoEnv demoController liveClaim freshServiceAccount
      (worldOf [.claim liveClaim] [.secret tokenSecret])).1 rfl,
    ((C8_kubeconfig_secret_gated demoEnv demoController liveClaim readyServiceAccount
      (worldOf [.claim liveClaim] [.secret tokenSecret])).2.1 (by decide)).2.2.1⟩

/-- What a successful `reconcileClusterRole` leaves behind: the control cluster
is untouched, the target cluster differs at most under the ClusterRole's key,
and that key holds a ClusterRole whose rules are the claim's `spec.rules`. -/
theorem reconcileClusterRole_ok {e : Env} {c : PermissionClaimController}
    {claim : PermissionClaim} {w w' : World} {r : ClusterRole} (hw : w.target.WellKeyed)
    (hcur : noStaleHitAt e.faults w.calls.length = true)
    (h : reconcileClusterRole e c claim w = (.ok r, w')) :
    w'.control = w.control
      ∧ (∀ k, k ≠ ⟨.ClusterRole, "", claim.ObjectMeta.Name⟩ → w'.target k = w.target k)
      ∧ (∃ role, w'.target ⟨.ClusterRole, "", claim.ObjectMeta.Name⟩ = some (.clusterRole role)
          ∧ role.Rules = claim.Spec.Rules)
      ∧ w'.target.WellKeyed
      ∧ r.ObjectMeta.Name = claim.ObjectMeta.Name := by
  unfold reconcileClusterRole at h
  simp only [OwnerStrategy.SetControllerReference] at h
  cases ha : c.ownerStrategy.ownerAnnotations claim
      (ObjectMeta.named claim.ObjectMeta.Name "") with
  | none => simp [ha] at h
  | some a =>
    simp only [ha] at h
    rcases hg : getClusterRole e.faults .target
      (Object.clusterRole { ObjectMeta := { ObjectMeta.named claim.ObjectMeta.Name "" with
          Annotations := a }, Rules := claim.Spec.Rules }).key w with ⟨res, w1⟩
    rw [hg] at h
    cases res with
    | error k =>
      simp only at h
      obtain ⟨ans, hw1⟩ := getClusterRole_error hg
      split at h
      · simp at h
      · rcases hc : apiCreate e.faults .target
          (.clusterRole { ObjectMeta := { ObjectMeta.named claim.ObjectMeta.Name "" with
            Annotations := a }, Rules := claim.Spec.Rules }) w1 with ⟨res2, w2⟩
        rw [hc] at h
        cases res2 with
        | error k2 => simp at h
        | ok o2 =>
          simp only [Prod.mk.injEq, Except.ok.injEq] at h
          rcases h with ⟨rfl, rfl⟩
          obtain ⟨_, _, _, hw2⟩ := apiCreate_ok hc
          subst hw2
          subst hw1
          refine ⟨rfl, ?_, ⟨{ ObjectMeta := { ObjectMeta.named claim.ObjectMeta.Name
            "" with Annotations := a }, Rules := claim.Spec.Rules }, ?_, rfl⟩, ?_, rfl⟩
          · intro k hk
            simp [ObjectMeta.named, Store.set_other _ _ _ _ hk]
          · simp [ObjectMeta.named]
          · simp only [World.target_record, World.setStore_target, World.store_target]
            exact hw.set _ _ rfl
    | ok existingRole =>
      simp only at h
      obtain ⟨hs, hw1⟩ := getClusterRole_ok hcur hg
      have hkey := hw _ _ hs
      simp only [Object.key_clusterRole, Key.norm, Kind.clusterScoped, ObjectMeta.named] at hkey hs
      simp at hkey
      split at h
      · rcases hu : apiUpdate e.faults .target
          (.clusterRole { existingRole with Rules := claim.Spec.Rules }) w1 with ⟨res2, w2⟩
        rw [hu] at h
        cases res2 with
        | error k2 => simp at h
        | ok o2 =>
          simp only [Prod.mk.injEq, Except.ok.injEq] at h
          rcases h with ⟨rfl, rfl⟩
          obtain ⟨old, _, _, hw2⟩ := apiUpdate_ok hu
          subst hw2
          subst hw1
          refine ⟨rfl, ?_, ⟨⟨{ existingRole.ObjectMeta with Namespace := "" },
            claim.Spec.Rules⟩, ?_, rfl⟩, ?_, rfl⟩
          · intro k hk
            simp [hkey, Store.set_other _ _ _ _ hk]
          · simp [hkey, Object.keepStatus]
          · simp only [World.target_record, World.setStore_target, World.store_target]
            refine hw.set _ _ ?_
            simp [Object.keepStatus]
      · rename_i hne
        simp only [Prod.mk.injEq, Except.ok.injEq] at h
        rcases h with ⟨rfl, rfl⟩
        subst hw1
        refine ⟨rfl, fun _ _ => rfl, ⟨existingRole, ?_, ?_⟩, hw, rfl⟩
        · simpa using hs
        · simp at hne
          exact hne.symm

/-- A successful `reconcileRole` was able to record the owner. -/
theorem reconcileRole_ok_owner {e : Env} {c : PermissionClaimController}
    {claim : PermissionClaim} {w w' : World} {r : Role}
    (h : reconcileRole e c claim w = (.ok r, w')) :
    ∃ a, c.ownerStrategy.ownerAnnotations claim
      (ObjectMeta.named claim.ObjectMeta.Name claim.Spec.Namespace) = some a := by
  unfold reconcileRole at h
  simp only [OwnerStrategy.SetControllerReference] at h
  cases ha : c.ownerStrategy.ownerAnnotations claim
      (ObjectMeta.named claim.ObjectMeta.Name claim.Spec.Namespace) with
  | none => simp [ha] at h
  | some a => exact ⟨a, rfl⟩

/-- A successful `reconcileClusterRole` was able to record the owner. -/
theorem reconcileClusterRole_ok_owner {e : Env} {c : PermissionClaimController}
    {claim : PermissionClaim} {w w' : World} {r : ClusterRole}
    (h : reconcileClusterRole e c claim w = (.ok r, w')) :
    ∃ a, c.ownerStrategy.ownerAnnotations claim
      (ObjectMeta.named claim.ObjectMeta.Name "") = some a := by
  unfold reconcileClusterRole at h
  simp only [OwnerStrategy.SetControllerReference] at h
  cases ha : c.ownerStrategy.ownerAnnotations claim
      (ObjectMeta.named claim.ObjectMeta.Name "") with
  | none => simp [ha] at h
  | some a => exact ⟨a, rfl⟩

/-- What a create that tolerates already-exists leaves behind: the key is
taken, and nothing else in the cluster changed. -/
theorem create_tolerant {f : Faults} {cl : ClusterId} {o : Object} {w w1 : World}
    {res : Except ErrKind Object} (h : apiCreate f cl o w = (res, w1))
    (hres : res = .error .AlreadyExists ∨ ∃ o', res = .ok o') :
    (w1.store cl o.key).isSome
      ∧ (∀ k, k ≠ o.key → w1.store cl k = w.store cl k)
      ∧ (∀ cl', cl' ≠ cl → w1.store cl' = w.store cl')
      ∧ ((w.store cl).WellKeyed → (w1.store cl).WellKeyed) := by
  rcases hres with rfl | ⟨o', rfl⟩
  · obtain ⟨hw1, _, hex, _⟩ := apiCreate_error h
    subst hw1
    exact ⟨by simpa using hex rfl, fun _ _ => by simp, fun _ _ => by simp, fun hw => by simpa using hw⟩
  · obtain ⟨_, _, _, hw1⟩ := apiCreate_ok h
    subst hw1
    refine ⟨?_, ?_, ?_, ?_⟩
    · cases cl <;> simp
    · intro k hk
      cases cl <;> simp [Store.set_other _ _ _ _ hk]
    · intro cl' hne
      cases cl <;> cases cl' <;> simp at hne ⊢
    · intro hw
      cases cl <;> simpa using hw.set _ _ (Object.key_norm o)

/-- What a successful `reconcileServiceAccount` leaves behind: the target
cluster is untouched, the control cluster holds an object under the
ServiceAccount's key and is otherwise as before, and the ServiceAccount handed
back lists no token secret. -/
theorem reconcileServiceAccount_ok {e : Env} {c : PermissionClaimController}
    {claim : PermissionClaim} {w w' : World} {sa : ServiceAccount}
    (h : reconcileServiceAccount e c claim w = (.ok sa, w')) :
    w'.target = w.target
      ∧ (w'.control ⟨.ServiceAccount, claim.Spec.Namespace, claim.ObjectMeta.Name⟩).isSome
      ∧ (∀ k, k ≠ ⟨.ServiceAccount, claim.Spec.Namespace, claim.ObjectMeta.Name⟩ →
          w'.control k = w.control k)
      ∧ (w.control.WellKeyed → w'.control.WellKeyed)
      ∧ sa.Secrets = []
      ∧ sa.ObjectMeta.Name = claim.ObjectMeta.Name
      ∧ sa.ObjectMeta.Namespace = claim.Spec.Namespace := by
  unfold reconcileServiceAccount at h
  simp only [OwnerStrategy.SetControllerReference] at h
  cases ha : c.ownerStrategy.ownerAnnotations claim
      (ObjectMeta.named claim.ObjectMeta.Name claim.Spec.Namespace) with
  | none => simp [ha] at h
  | some a =>
    simp only [ha] at h
    rcases hc : apiCreate e.faults .control
      (.serviceAccount { ObjectMeta := { ObjectMeta.named claim.ObjectMeta.Name
        claim.Spec.Namespace with Annotations := a }, Secrets := [] }) w with ⟨res, w1⟩
    rw [hc] at h
    have hres : res = .error .AlreadyExists ∨ ∃ o', res = .ok o' := by
      cases res with
      | error k =>
        by_cases hk : k = .AlreadyExists
        · exact Or.inl (by rw [hk])
        · simp [hk] at h
      | ok o' => exact Or.inr ⟨o', rfl⟩
    obtain ⟨h1, h2, h3, h4⟩ := create_tolerant hc hres
    have hw' : w' = w1 ∧ sa = { ObjectMeta := { ObjectMeta.named claim.ObjectMeta.Name
        claim.Spec.Namespace with Annotations := a }, Secrets := [] } := by
      rcases hres with rfl | ⟨o', rfl⟩
      · simp at h
        exact ⟨h.2.symm, h.1.symm⟩
      · simp at h
        exact ⟨h.2.symm, h.1.symm⟩
    obtain ⟨rfl, rfl⟩ := hw'
    exact ⟨h3 .target (by simp), h1, h2, h4, rfl, rfl, rfl⟩

/-- What a successful `reconcileRoleBinding` leaves behind: the target cluster
is untouched, the control cluster holds an object under the RoleBinding's key
and is otherwise as before. -/
theorem reconcileRoleBinding_ok {e : Env} {c : PermissionClaimController}
    {claim : PermissionClaim} {role : Role} {sa : ServiceAccount} {w w' : World}
    (h : reconcileRoleBinding e c claim role sa w = (none, w')) :
    w'.target = w.target
      ∧ (w'.control ⟨.RoleBinding, claim.Spec.Namespace, claim.ObjectMeta.Name⟩).isSome
      ∧ (∀ k, k ≠ ⟨.RoleBinding, claim.Spec.Namespace, claim.ObjectMeta.Name⟩ →
          w'.control k = w.control k)
      ∧ (w.control.WellKeyed → w'.control.WellKeyed) := by
  unfold reconcileRoleBinding at h
  simp only [OwnerStrategy.SetControllerReference] at h
  cases ha : c.ownerStrategy.ownerAnnotations claim
      (ObjectMeta.named claim.ObjectMeta.Name claim.Spec.Namespace) with
  | none => simp [ha] at h
  | some a =>
    simp only [ha] at h
    split at h
    · rename_i k w1 hc
      split at h
      · rename_i hk
        subst hk
        simp only [Prod.mk.injEq, true_and] at h
        subst h
        obtain ⟨h1, h2, h3, h4⟩ := create_tolerant hc (Or.inl rfl)
        exact ⟨h3 .target (by simp), h1, h2, h4⟩
      · simp at h
    · rename_i o w1 hc
      simp only [Prod.mk.injEq, true_and] at h
      subst h
      obtain ⟨h1, h2, h3, h4⟩ := create_tolerant hc (Or.inr ⟨_, rfl⟩)
      exact ⟨h3 .target (by simp), h1, h2, h4⟩

/-- What a successful `reconcileClusterRoleBinding` leaves behind: the target
cluster is untouched, the control cluster holds an object under the
ClusterRoleBinding's key and is otherwise as before. -/
theorem reconcileClusterRoleBinding_ok {e : Env} {c : PermissionClaimController}
    {claim : PermissionClaim} {role : ClusterRole} {sa : ServiceAccount} {w w' : World}
    (h : reconcileClusterRoleBinding e c claim role sa w = (none, w')) :
    w'.target = w.target
      ∧ (w'.control ⟨.ClusterRoleBinding, "", claim.ObjectMeta.Name⟩).isSome
      ∧ (∀ k, k ≠ ⟨.ClusterRoleBinding, "", claim.ObjectMeta.Name⟩ →
          w'.control k = w.control k)
      ∧ (w.control.WellKeyed → w'.control.WellKeyed) := by
  unfold reconcileClusterRoleBinding at h
  simp only [OwnerStrategy.SetControllerReference] at h
  cases ha : c.ownerStrategy.ownerAnnotations claim
      (ObjectMeta.named claim.ObjectMeta.Name claim.Spec.Namespace) with
  | none => simp [ha] at h
  | some a =>
    simp only [ha] at h
    split at h
    · rename_i k w1 hc
      split at h
      · rename_i hk
        subst hk
        simp only [Prod.mk.injEq, true_and] at h
        subst h
        obtain ⟨h1, h2, h3, h4⟩ := create_tolerant hc (Or.inl rfl)
        exact ⟨h3 .target (by simp), h1, h2, h4⟩
      · simp at h
    · rename_i o w1 hc
      simp only [Prod.mk.injEq, true_and] at h
      subst h
      obtain ⟨h1, h2, h3, h4⟩ := create_tolerant hc (Or.inr ⟨_, rfl⟩)
      exact ⟨h3 .target (by simp), h1, h2, h4⟩

/-- Adding a finalizer changes nothing but the finalizer list. -/
theorem AddFinalizer_fields (claim : PermissionClaim) (fin : String) :
    (AddFinalizer claim fin).Spec = claim.Spec
      ∧ (AddFinalizer claim fin).Status = claim.Status
      ∧ (AddFinalizer claim fin).ObjectMeta.Name = claim.ObjectMeta.Name
      ∧ (AddFinalizer claim fin).ObjectMeta.Namespace = claim.ObjectMeta.Namespace
      ∧ (AddFinalizer claim fin).ObjectMeta.DeletionTimestamp = claim.ObjectMeta.DeletionTimestamp := by
  unfold AddFinalizer
  split <;> exact ⟨rfl, rfl, rfl, rfl, rfl⟩

/-- What a successful `ensureCacheFinalizer` leaves behind when the control
cluster holds the claim under its key: the claim with the finalizer, in memory
and in the control cluster, and nothing else changed. -/
theorem ensureCacheFinalizer_ok {e : Env} {claim claim1 : PermissionClaim} {w0 w1 : World}
    (hs : w0.control (Object.claim claim).key = some (.claim claim))
    (h : ensureCacheFinalizer e claim w0 = (none, claim1, w1)) :
    claim1 = AddFinalizer claim cleanupFinalizer
      ∧ w1.target = w0.target
      ∧ w1.control (Object.claim claim).key = some (.claim claim1)
      ∧ (∀ k, k ≠ (Object.claim claim).key → w1.control k = w0.control k)
      ∧ (w0.control.WellKeyed → w1.control.WellKeyed) := by
  unfold ensureCacheFinalizer at h
  cases hfin : ContainsFinalizer claim cleanupFinalizer with
  | true =>
    simp only [hfin, not_true_eq_false, ↓reduceIte, Prod.mk.injEq, true_and] at h
    obtain ⟨rfl, rfl⟩ := h
    have : AddFinalizer claim cleanupFinalizer = claim := by
      unfold AddFinalizer
      unfold ContainsFinalizer at hfin
      rw [if_pos hfin]
    rw [this]
    exact ⟨rfl, rfl, hs, fun _ _ => rfl, id⟩
  | false =>
    simp only [hfin, Bool.false_eq_true, not_false_eq_true, ↓reduceIte] at h
    rcases hu : updateClaim e.faults .control (AddFinalizer claim cleanupFinalizer) w0
      with ⟨res, w2⟩
    rw [hu] at h
    cases res with
    | error k => simp at h
    | ok c2 =>
      simp only [Prod.mk.injEq, true_and] at h
      obtain ⟨rfl, rfl⟩ := h
      obtain ⟨old, hold, hks, hw2⟩ := updateClaim_ok hu
      have hkey : (Object.claim (AddFinalizer claim cleanupFinalizer)).key
          = (Object.claim claim).key := by
        unfold AddFinalizer
        split <;> rfl
      rw [hkey] at hold hw2
      simp only [World.store_control] at hold hw2
      rw [hs] at hold
      simp only [Option.some.injEq] at hold
      subst hold
      simp only [Object.keepStatus, Object.claim.injEq] at hks
      have hc : c2 = AddFinalizer claim cleanupFinalizer := by
        rw [← hks]
        have := (AddFinalizer_fields claim cleanupFinalizer).2.1
        rw [← this]
      subst hw2
      refine ⟨hc, rfl, by simp, fun k hk => ?_, fun hw => ?_⟩
      · simp only [World.control_record, World.setStore_control]
        exact Store.set_other _ _ _ _ hk
      · simp only [World.control_record, World.setStore_control]
        refine hw.set _ _ ?_
        rw [hc, hkey]

/-- A store with an entry rewritten to what it already holds is the same
store. -/
theorem Store.set_eq_self {s : Store} {k : Key} {v : Option Object} (h : s k = v) :
    s.set k v = s := by
  funext k'
  by_cases hk : k' = k
  · subst hk
    simp [h]
  · exact Store.set_other _ _ _ _ hk

/-- The state a successful `Reconcile` of a live claim leaves behind: the
control cluster holds the claim with the finalizer, the ServiceAccount, the
RoleBinding and the ClusterRoleBinding; the target cluster holds the Role and
the ClusterRole, both with the rules `spec.rules`; and the owner could be
recorded on the derived objects. No read of the run is answered with an
outdated cached copy. -/
theorem Reconcile_live_ok {e : Env} {c : PermissionClaimController} {req : NamespacedName}
    {w w0 : World} {claim : PermissionClaim}
    (hcur : ∀ n, noStaleHitAt e.faults n = true)
    (hwc : w.control.WellKeyed) (hwt : w.target.WellKeyed)
    (hget : getClaim e.faults .control req.claimKey w = (.ok claim, w0))
    (hz : claim.ObjectMeta.deletionTimestampIsZero = true)
    (hok : (Reconcile e c req w).1 = none) :
    (Reconcile e c req w).2.control req.claimKey
        = some (.claim (AddFinalizer claim cleanupFinalizer))
      ∧ (∃ role, (Reconcile e c req w).2.target
            ⟨.Role, claim.Spec.Namespace, claim.ObjectMeta.Name⟩ = some (.role role)
          ∧ role.Rules = claim.Spec.Rules)
      ∧ (∃ role, (Reconcile e c req w).2.target
            ⟨.ClusterRole, "", claim.ObjectMeta.Name⟩ = some (.clusterRole role)
          ∧ role.Rules = claim.Spec.Rules)
      ∧ ((Reconcile e c req w).2.control
            ⟨.ServiceAccount, claim.Spec.Namespace, claim.ObjectMeta.Name⟩).isSome
      ∧ ((Reconcile e c req w).2.control
            ⟨.RoleBinding, claim.Spec.Namespace, claim.ObjectMeta.Name⟩).isSome
      ∧ ((Reconcile e c req w).2.control
            ⟨.ClusterRoleBinding, "", claim.ObjectMeta.Name⟩).isSome
      ∧ (∃ a, c.ownerStrategy.ownerAnnotations (AddFinalizer claim cleanupFinalizer)
            (ObjectMeta.named claim.ObjectMeta.Name claim.Spec.Namespace) = some a)
      ∧ (∃ a, c.ownerStrategy.ownerAnnotations (AddFinalizer claim cleanupFinalizer)
            (ObjectMeta.named claim.ObjectMeta.Name "") = some a) := by
  obtain ⟨hs0, _, hw0⟩ := getClaim_ok (hcur _) hget
  have hkey0 : (Object.claim claim).key = req.claimKey := hwc _ _ hs0
  obtain ⟨hSpec, hStatus, hName, hNs, hDel⟩ := AddFinalizer_fields claim cleanupFinalizer
  generalize hr : Reconcile e c req w = r at hok ⊢
  unfold Reconcile at hr
  rw [hget] at hr
  simp only [hz, not_true_eq_false, ↓reduceIte] at hr
  rcases h1 : ensureCacheFinalizer e claim w0 with ⟨r1, claim1, w1⟩
  rw [h1] at hr
  cases r1 with
  | some err => subst hr; simp at hok
  | none =>
  dsimp only at hr
  have hs0' : w0.control (Object.claim claim).key = some (.claim claim) := by
    rw [hkey0, hw0]
    exact hs0
  obtain ⟨hc1, ht1, hcl1, hfr1, hwk1⟩ := ensureCacheFinalizer_ok hs0' h1
  subst hc1
  rcases h2 : reconcileRole e c (AddFinalizer claim cleanupFinalizer) w1 with ⟨r2, w2⟩
  rw [h2] at hr
  cases r2 with
  | error err => subst hr; simp at hok
  | ok role =>
  dsimp only at hr
  have hwt1 : w1.target.WellKeyed := by rw [ht1, hw0]; exact hwt
  obtain ⟨hc2, hfr2, hrole2, hwt2, _, _⟩ := reconcileRole_ok hwt1 (hcur _) h2
  obtain ⟨a1, ha1⟩ := reconcileRole_ok_owner h2
  rcases h3 : reconcileClusterRole e c (AddFinalizer claim cleanupFinalizer) w2 with ⟨r3, w3⟩
  rw [h3] at hr
  cases r3 with
  | error err => subst hr; simp at hok
  | ok clusterRole =>
  dsimp only at hr
  obtain ⟨hc3, hfr3, hrole3, hwt3, _⟩ := reconcileClusterRole_ok hwt2 (hcur _) h3
  obtain ⟨a2, ha2⟩ := reconcileClusterRole_ok_owner h3
  rcases h4 : reconcileServiceAccount e c (AddFinalizer claim cleanupFinalizer) w3 with ⟨r4, w4⟩
  rw [h4] at hr
  cases r4 with
  | error err => subst hr; simp at hok
  | ok sa =>
  dsimp only at hr
  obtain ⟨ht4, hsa4, hfr4, _, hsec, _, _⟩ := reconcileServiceAccount_ok h4
  rcases h5 : reconcileRoleBinding e c (AddFinalizer claim cleanupFinalizer) role sa w4
    with ⟨r5, w5⟩
  rw [h5] at hr
  cases r5 with
  | some err => subst hr; simp at hok
  | none =>
  dsimp only at hr
  obtain ⟨ht5, hrb5, hfr5, _⟩ := reconcileRoleBinding_ok h5
  rcases h6 : reconcileClusterRoleBinding e c (AddFinalizer claim cleanupFinalizer) clusterRole sa w5
    with ⟨r6, w6⟩
  rw [h6] at hr
  cases r6 with
  | some err => subst hr; simp at hok
  | none =>
  dsimp only at hr
  obtain ⟨ht6, hcrb6, hfr6, _⟩ := reconcileClusterRoleBinding_ok h6
  have h7 : reconcileKubeconfigSecret e c (AddFinalizer claim cleanupFinalizer) sa w6
      = (none, AddFinalizer claim cleanupFinalizer, w6) := by
    simp [reconcileKubeconfigSecret, hsec]
  rw [h7] at hr
  dsimp only at hr
  rcases h8 : apiStatusUpdate e.faults .control (.claim (AddFinalizer claim cleanupFinalizer)) w6
    with ⟨r8, w8⟩
  rw [h8] at hr
  cases r8 with
  | error k => subst hr; simp at hok
  | ok o8 =>
  dsimp only at hr
  subst hr
  dsimp only
  obtain ⟨old, hold, _, hw8⟩ := apiStatusUpdate_ok h8
  have hk1 : (Object.claim (AddFinalizer claim cleanupFinalizer)).key = req.claimKey := by
    rw [← hkey0]
    simp [hName, hNs]
  rw [hk1] at hold hw8
  rw [hkey0] at hcl1
  have hclaim6 : w6.control req.claimKey = some (.claim (AddFinalizer claim cleanupFinalizer)) := by
    rw [hfr6 _ (by simp [NamespacedName.claimKey]), hfr5 _ (by simp [NamespacedName.claimKey]),
      hfr4 _ (by simp [NamespacedName.claimKey]), hc3, hc2]
    exact hcl1
  simp only [World.store_control] at hold hw8
  rw [hclaim6] at hold
  simp only [Option.some.injEq] at hold
  subst hold
  have hsame : w8.control = w6.control := by
    rw [hw8]
    simp only [World.control_record, World.setStore_control]
    exact Store.set_eq_self (by rw [hclaim6]; rfl)
  have htgt : w8.target = w3.target := by
    rw [hw8]
    simp only [World.target_record, World.setStore_control_target]
    rw [ht6, ht5, ht4]
  simp only [hSpec, hName] at hrole2 hrole3 hfr3 hfr4 hsa4 hfr5 hrb5 hfr6 hcrb6 ha1 ha2
  refine ⟨by rw [hsame]; exact hclaim6, ?_, ?_, ?_, ?_, ?_, ⟨a1, ha1⟩, ⟨a2, ha2⟩⟩
  · rw [htgt, hfr3 _ (by simp)]
    exact hrole2
  · rw [htgt]
    exact hrole3
  · rw [hsame, hfr6 _ (by simp), hfr5 _ (by simp)]
    exact hsa4
  · rw [hsame, hfr6 _ (by simp)]
    exact hrb5
  · rw [hsame]
    exact hcrb6

/-- On a Role that already carries the claim's rules, a fault-free
`reconcileRole` only reads. -/
theorem reconcileRole_noop (e : Env) (c : PermissionClaimController) (claim : PermissionClaim)
    (w : World) {a : List (String × String)} {role : Role}
    (hf : e.faults w.calls.length = none)
    (ha : c.ownerStrategy.ownerAnnotations claim
      (ObjectMeta.named claim.ObjectMeta.Name claim.Spec.Namespace) = some a)
    (hs : w.target ⟨.Role, claim.Spec.Namespace, claim.ObjectMeta.Name⟩ = some (.role role))
    (hr : role.Rules = claim.Spec.Rules) :
    ∃ r, reconcileRole e c claim w = (.ok r,
      w.record ⟨.target, .get, ⟨.Role, claim.Spec.Namespace, claim.ObjectMeta.Name⟩, none, none⟩) := by
  unfold reconcileRole
  simp only [OwnerStrategy.SetControllerReference, ha]
  rw [getRole, apiGet_taken hf (by simpa [Key.norm, Kind.clusterScoped, ObjectMeta.named] using hs)]
  simp only [hr, ne_eq, not_true_eq_false, ↓reduceIte]
  exact ⟨_, rfl⟩

/-- On a ClusterRole that already carries the rules `spec.rules`, a fault-free
`reconcileClusterRole` only reads. -/
theorem reconcileClusterRole_noop (e : Env) (c : PermissionClaimController)
    (claim : PermissionClaim) (w : World) {a : List (String × String)} {role : ClusterRole}
    (hf : e.faults w.calls.length = none)
    (ha : c.ownerStrategy.ownerAnnotations claim
      (ObjectMeta.named claim.ObjectMeta.Name "") = some a)
    (hs : w.target ⟨.ClusterRole, "", claim.ObjectMeta.Name⟩ = some (.clusterRole role))
    (hr : role.Rules = claim.Spec.Rules) :
    ∃ r, reconcileClusterRole e c claim w = (.ok r,
      w.record ⟨.target, .get, ⟨.ClusterRole, "", claim.ObjectMeta.Name⟩, none, none⟩) := by
  unfold reconcileClusterRole
  simp only [OwnerStrategy.SetControllerReference, ha]
  rw [getClusterRole,
    apiGet_taken hf (by simpa [Key.norm, Kind.clusterScoped, ObjectMeta.named] using hs)]
  simp only [hr, ne_eq, not_true_eq_false, ↓reduceIte]
  exact ⟨_, rfl⟩

/-- On an existing ServiceAccount, a fault-free `reconcileServiceAccount`
sends one create that is answered already-exists. -/
theorem reconcileServiceAccount_exists (e : Env) (c : PermissionClaimController)
    (claim : PermissionClaim) (w : World) {a : List (String × String)}
    (hf : e.faults w.calls.length = none)
    (ha : c.ownerStrategy.ownerAnnotations claim
      (ObjectMeta.named claim.ObjectMeta.Name claim.Spec.Namespace) = some a)
    (hs : (w.control ⟨.ServiceAccount, claim.Spec.Namespace, claim.ObjectMeta.Name⟩).isSome) :
    ∃ sa o, sa.Secrets = [] ∧ reconcileServiceAccount e c claim w = (.ok sa,
      w.record ⟨.control, .create, ⟨.ServiceAccount, claim.Spec.Namespace, claim.ObjectMeta.Name⟩,
        some o, some .AlreadyExists⟩) := by
  obtain ⟨x, hx⟩ := Option.isSome_iff_exists.mp hs
  unfold reconcileServiceAccount
  simp only [OwnerStrategy.SetControllerReference, ha]
  rw [apiCreate_taken (x := x) (by simp [hf]) (by simpa [ObjectMeta.named] using hx)]
  simp only [↓reduceIte]
  exact ⟨_, _, rfl, rfl⟩

/-- On an existing RoleBinding, a fault-free `reconcileRoleBinding` sends one
create that is answered already-exists. -/
theorem reconcileRoleBinding_exists (e : Env) (c : PermissionClaimController)
    (claim : PermissionClaim) (role : Role) (sa : ServiceAccount) (w : World)
    {a : List (String × String)}
    (hf : e.faults w.calls.length = none)
    (ha : c.ownerStrategy.ownerAnnotations claim
      (ObjectMeta.named claim.ObjectMeta.Name claim.Spec.Namespace) = some a)
    (hs : (w.control ⟨.RoleBinding, claim.Spec.Namespace, claim.ObjectMeta.Name⟩).isSome) :
    ∃ o, reconcileRoleBinding e c claim role sa w = (none,
      w.record ⟨.control, .create, ⟨.RoleBinding, claim.Spec.Namespace, claim.ObjectMeta.Name⟩,
        some o, some .AlreadyExists⟩) := by
  obtain ⟨x, hx⟩ := Option.isSome_iff_exists.mp hs
  unfold reconcileRoleBinding
  simp only [OwnerStrategy.SetControllerReference, ha]
  rw [apiCreate_taken (x := x) (by simp [hf]) (by simpa [ObjectMeta.named] using hx)]
  simp only [↓reduceIte]
  exact ⟨_, rfl⟩

/-- On an existing ClusterRoleBinding, a fault-free
`reconcileClusterRoleBinding` sends one create that is answered
already-exists. -/
theorem reconcileClusterRoleBinding_exists (e : Env) (c : PermissionClaimController)
    (claim : PermissionClaim) (role : ClusterRole) (sa : ServiceAccount) (w : World)
    {a : List (String × String)}
    (hf : e.faults w.calls.length = none)
    (ha : c.ownerStrategy.ownerAnnotations claim
      (ObjectMeta.named claim.ObjectMeta.Name claim.Spec.Namespace) = some a)
    (hs : (w.control ⟨.ClusterRoleBinding, "", claim.ObjectMeta.Name⟩).isSome) :
    ∃ o, reconcileClusterRoleBinding e c claim role sa w = (none,
      w.record ⟨.control, .create, ⟨.ClusterRoleBinding, "", claim.ObjectMeta.Name⟩,
        some o, some .AlreadyExists⟩) := by
  obtain ⟨x, hx⟩ := Option.isSome_iff_exists.mp hs
  unfold reconcileClusterRoleBinding
  simp only [OwnerStrategy.SetControllerReference, ha]
  rw [apiCreate_taken (x := x) (by simp [hf]) (by simpa [ObjectMeta.named] using hx)]
  simp only [↓reduceIte]
  exact ⟨_, rfl⟩

/-- A fault-free `Reconcile` on a state in which the claim carries the
finalizer and all five derived objects are in place as the steps look for them:
no error, both clusters unchanged, and exactly seven calls. -/
theorem Reconcile_converged (e : Env) (c : PermissionClaimController) (req : NamespacedName)
    (w : World) (claim : PermissionClaim) (hf : ∀ n, e.faults n = none)
    (hclaim : w.control req.claimKey = some (.claim claim))
    (hkey : (Object.claim claim).key = req.claimKey)
    (hz : claim.ObjectMeta.deletionTimestampIsZero = true)
    (hfin : ContainsFinalizer claim cleanupFinalizer = true)
    (hrole : ∃ role, w.target ⟨.Role, claim.Spec.Namespace, claim.ObjectMeta.Name⟩
        = some (.role role) ∧ role.Rules = claim.Spec.Rules)
    (hcr : ∃ role, w.target ⟨.ClusterRole, "", claim.ObjectMeta.Name⟩
        = some (.clusterRole role) ∧ role.Rules = claim.Spec.Rules)
    (hsa : (w.control ⟨.ServiceAccount, claim.Spec.Namespace, claim.ObjectMeta.Name⟩).isSome)
    (hrb : (w.control ⟨.RoleBinding, claim.Spec.Namespace, claim.ObjectMeta.Name⟩).isSome)
    (hcrb : (w.control ⟨.ClusterRoleBinding, "", claim.ObjectMeta.Name⟩).isSome)
    (ha1 : ∃ a, c.ownerStrategy.ownerAnnotations claim
        (ObjectMeta.named claim.ObjectMeta.Name claim.Spec.Namespace) = some a)
    (ha2 : ∃ a, c.ownerStrategy.ownerAnnotations claim
        (ObjectMeta.named claim.ObjectMeta.Name "") = some a) :
    (Reconcile e c req w).1 = none
      ∧ (Reconcile e c req w).2.control = w.control
      ∧ (Reconcile e c req w).2.target = w.target
      ∧ (newCalls w (Reconcile e c req w).2).map (fun x => (x.cluster, x.verb, x.key, x.err))
        = [(.control, .get, req.claimKey, none),
           (.target, .get, ⟨.Role, claim.Spec.Namespace, claim.ObjectMeta.Name⟩, none),
           (.target, .get, ⟨.ClusterRole, "", claim.ObjectMeta.Name⟩, none),
           (.control, .create, ⟨.ServiceAccount, claim.Spec.Namespace, claim.ObjectMeta.Name⟩,
              some .AlreadyExists),
           (.control, .create, ⟨.RoleBinding, claim.Spec.Namespace, claim.ObjectMeta.Name⟩,
              some .AlreadyExists),
           (.control, .create, ⟨.ClusterRoleBinding, "", claim.ObjectMeta.Name⟩,
              some .AlreadyExists),
           (.control, .statusUpdate, req.claimKey, none)] := by
  obtain ⟨role, hrole, hrules⟩ := hrole
  obtain ⟨crole, hcr, hcrules⟩ := hcr
  obtain ⟨a1, ha1⟩ := ha1
  obtain ⟨a2, ha2⟩ := ha2
  have hg : getClaim e.faults .control req.claimKey w
      = (.ok claim, w.record ⟨.control, .get, req.claimKey, none, none⟩) := by
    rw [getClaim, apiGet_taken (hf _) (o := .claim claim) (by simpa using hclaim)]
    rfl
  have hens : ∀ w', ensureCacheFinalizer e claim w' = (none, claim, w') := by
    intro w'
    simp [ensureCacheFinalizer, hfin]
  obtain ⟨r2, h2⟩ := reconcileRole_noop e c claim
    (w.record ⟨.control, .get, req.claimKey, none, none⟩) (hf _) ha1
    (by simpa using hrole) hrules
  obtain ⟨r3, h3⟩ := reconcileClusterRole_noop e c claim
    ((w.record ⟨.control, .get, req.claimKey, none, none⟩).record
      ⟨.target, .get, ⟨.Role, claim.Spec.Namespace, claim.ObjectMeta.Name⟩, none, none⟩)
    (hf _) ha2 (by simpa using hcr) hcrules
  obtain ⟨sa, o4, hsec, h4⟩ := reconcileServiceAccount_exists e c claim
    (((w.record ⟨.control, .get, req.claimKey, none, none⟩).record
      ⟨.target, .get, ⟨.Role, claim.Spec.Namespace, claim.ObjectMeta.Name⟩, none, none⟩).record
      ⟨.target, .get, ⟨.ClusterRole, "", claim.ObjectMeta.Name⟩, none, none⟩)
    (hf _) ha1 (by simpa using hsa)
  obtain ⟨o5, h5⟩ := reconcileRoleBinding_exists e c claim r2 sa
    ((((w.record ⟨.control, .get, req.claimKey, none, none⟩).record
      ⟨.target, .get, ⟨.Role, claim.Spec.Namespace, claim.ObjectMeta.Name⟩, none, none⟩).record
      ⟨.target, .get, ⟨.ClusterRole, "", claim.ObjectMeta.Name⟩, none, none⟩).record
      ⟨.control, .create, ⟨.ServiceAccount, claim.Spec.Namespace, claim.ObjectMeta.Name⟩,
        some o4, some .AlreadyExists⟩)
    (hf _) ha1 (by simpa using hrb)
  obtain ⟨o6, h6⟩ := reconcileClusterRoleBinding_exists e c claim r3 sa
    (((((w.record ⟨.control, .get, req.claimKey, none, none⟩).record
      ⟨.target, .get, ⟨.Role, claim.Spec.Namespace, claim.ObjectMeta.Name⟩, none, none⟩).record
      ⟨.target, .get, ⟨.ClusterRole, "", claim.ObjectMeta.Name⟩, none, none⟩).record
      ⟨.control, .create, ⟨.ServiceAccount, claim.Spec.Namespace, claim.ObjectMeta.Name⟩,
        some o4, some .AlreadyExists⟩).record
      ⟨.control, .create, ⟨.RoleBinding, claim.Spec.Namespace, claim.ObjectMeta.Name⟩,
        some o5, some .AlreadyExists⟩)
    (hf _) ha1 (by simpa using hcrb)
  have h7 : ∀ w', reconcileKubeconfigSecret e c claim sa w' = (none, claim, w') := by
    intro w'
    simp [reconcileKubeconfigSecret, hsec]
  have hR : Reconcile e c req w = (none,
      ((((((w.record ⟨.control, .get, req.claimKey, none, none⟩).record
      ⟨.target, .get, ⟨.Role, claim.Spec.Namespace, claim.ObjectMeta.Name⟩, none, none⟩).record
      ⟨.target, .get, ⟨.ClusterRole, "", claim.ObjectMeta.Name⟩, none, none⟩).record
      ⟨.control, .create, ⟨.ServiceAccount, claim.Spec.Namespace, claim.ObjectMeta.Name⟩,
        some o4, some .AlreadyExists⟩).record
      ⟨.control, .create, ⟨.RoleBinding, claim.Spec.Namespace, claim.ObjectMeta.Name⟩,
        some o5, some .AlreadyExists⟩).record
      ⟨.control, .create, ⟨.ClusterRoleBinding, "", claim.ObjectMeta.Name⟩,
        some o6, some .AlreadyExists⟩).setStore .control
          (w.control.set req.claimKey (some (.claim claim))) |>.record
      ⟨.control, .statusUpdate, req.claimKey, some (.claim claim), none⟩) := by
    unfold Reconcile
    rw [hg]
    simp only [hz, not_true_eq_false, ↓reduceIte]
    rw [hens]
    dsimp only
    rw [h2]
    dsimp only
    rw [h3]
    dsimp only
    rw [h4]
    dsimp only
    rw [h5]
    dsimp only
    rw [h6]
    dsimp only
    rw [h7]
    dsimp only
    rw [@apiStatusUpdate_taken _ _ _ (.claim claim) _ (by simp [hf]) (by simpa [hkey] using hclaim)]
    simp [hkey, Object.withStatusOf]
  rw [hR]
  refine ⟨rfl, ?_, rfl, ?_⟩
  · simp only [World.control_record, World.setStore_control]
    exact Store.set_eq_self hclaim
  · rw [@newCalls_of_append _ _ [_, _, _, _, _, _, _] (by
      simp only [World.calls_record, World.setStore_calls, List.append_assoc,
        List.singleton_append, List.cons_append, List.nil_append]
      rfl)]
    rfl

/-- C10 as stated fails on the scenario `team-a/demo`: the first `Reconcile`
on otherwise empty clusters returns without error, and the second `Reconcile`
on the state it left, again without faults, returns without error but issues
four write calls: the creates of the ServiceAccount, the RoleBinding and the
ClusterRoleBinding (each answered already-exists) and the status update of the
claim. -/
theorem C10_second_reconcile_still_writes :
    (Reconcile demoEnv demoController demoReq (worldOf [.claim demoClaim] [])).1 = none
      ∧ (Reconcile demoEnv demoController demoReq
          (Reconcile demoEnv demoController demoReq (worldOf [.claim demoClaim] [])).2).1 = none
      ∧ ((newCalls (Reconcile demoEnv demoController demoReq (worldOf [.claim demoClaim] [])).2
            (Reconcile demoEnv demoController demoReq
              (Reconcile demoEnv demoController demoReq (worldOf [.claim demoClaim] [])).2).2).filter
            Call.isWrite).map (fun x => (x.verb, x.key.kind, x.err))
          = [(.create, .ServiceAccount, some .AlreadyExists),
             (.create, .RoleBinding, some .AlreadyExists),
             (.create, .ClusterRoleBinding, some .AlreadyExists),
             (.statusUpdate, .PermissionClaim, none)]
      ∧ ¬ (∀ x ∈ newCalls (Reconcile demoEnv demoController demoReq (worldOf [.claim demoClaim] [])).2
            (Reconcile demoEnv demoController demoReq
              (Reconcile demoEnv demoController demoReq (worldOf [.claim demoClaim] [])).2).2,
            x.isWrite = false) := by
  decide

/-- C10, amended: let a `Reconcile` of a live claim on well-keyed clusters
return without error, none of its reads having been answered with an outdated
cached copy. Then a second `Reconcile` of the same claim on the state it left,
run without faults, returns no error and leaves both clusters exactly as they
are. It issues seven calls: the reads of the claim, the Role and the
ClusterRole, the creates of the ServiceAccount, the RoleBinding and the
ClusterRoleBinding on the control cluster, each answered already-exists, and the
status update of the claim; no delete, no update and no create of a Role,
ClusterRole or Secret. -/
theorem C10_second_reconcile_changes_nothing (e : Env) (c : PermissionClaimController)
    (req : NamespacedName) (w w0 : World) (claim : PermissionClaim)
    (hcur : ∀ n, noStaleHitAt e.faults n = true)
    (hwc : w.control.WellKeyed) (hwt : w.target.WellKeyed)
    (hget : getClaim e.faults .control req.claimKey w = (.ok claim, w0))
    (hz : claim.ObjectMeta.deletionTimestampIsZero = true)
    (hok : (Reconcile e c req w).1 = none) :
    (Reconcile { e with faults := noFaults } c req (Reconcile e c req w).2).1 = none
      ∧ (Reconcile { e with faults := noFaults } c req (Reconcile e c req w).2).2.control
          = (Reconcile e c req w).2.control
      ∧ (Reconcile { e with faults := noFaults } c req (Reconcile e c req w).2).2.target
          = (Reconcile e c req w).2.target
      ∧ (newCalls (Reconcile e c req w).2
            (Reconcile { e with faults := noFaults } c req (Reconcile e c req w).2).2).map
            (fun x => (x.cluster, x.verb, x.key, x.err))
          = [(.control, .get, req.claimKey, none),
             (.target, .get, ⟨.Role, claim.Spec.Namespace, claim.ObjectMeta.Name⟩, none),
             (.target, .get, ⟨.ClusterRole, "", claim.ObjectMeta.Name⟩, none),
             (.control, .create, ⟨.ServiceAccount, claim.Spec.Namespace, claim.ObjectMeta.Name⟩,
                some .AlreadyExists),
             (.control, .create, ⟨.RoleBinding, claim.Spec.Namespace, claim.ObjectMeta.Name⟩,
                some .AlreadyExists),
             (.control, .create, ⟨.ClusterRoleBinding, "", claim.ObjectMeta.Name⟩,
                some .AlreadyExists),
             (.control, .statusUpdate, req.claimKey, none)] := by
  obtain ⟨hs0, _, _⟩ := getClaim_ok (hcur _) hget
  have hkey0 : (Object.claim claim).key = req.claimKey := hwc _ _ hs0
  obtain ⟨hSpec, _, hName, hNs, hDel⟩ := AddFinalizer_fields claim cleanupFinalizer
  obtain ⟨f1, f2, f3, f4, f5, f6, f7, f8⟩ := Reconcile_live_ok (c := c) hcur hwc hwt hget hz hok
  have hkey1 : (Object.claim (AddFinalizer claim cleanupFinalizer)).key = req.claimKey := by
    rw [← hkey0]
    simp [hName, hNs]
  have hz1 : (AddFinalizer claim cleanupFinalizer).ObjectMeta.deletionTimestampIsZero = true := by
    unfold ObjectMeta.deletionTimestampIsZero at hz ⊢
    rw [hDel]
    exact hz
  have := Reconcile_converged { e with faults := noFaults } c req
    (Reconcile e c req w).2 (AddFinalizer claim cleanupFinalizer)
    (fun _ => rfl) f1 hkey1 hz1 (ContainsFinalizer_AddFinalizer _ _)
    (by simpa only [hSpec, hName] using f2) (by simpa only [hSpec, hName] using f3)
    (by simpa only [hSpec, hName] using f4) (by simpa only [hSpec, hName] using f5)
    (by simpa only [hSpec, hName] using f6) (by simpa only [hSpec, hName] using f7)
    (by simpa only [hSpec, hName] using f8)
  simpa only [hSpec, hName] using this

/-- Witness for the amended C10 on the scenario `team-a/demo`: the first run
succeeds, and the second run succeeds and leaves the target cluster as it
is. -/
theorem C10_second_reconcile_changes_nothing_witness :
    (worldOf [.claim demoClaim] []).control.WellKeyed
      ∧ (Reconcile demoEnv demoController demoReq (worldOf [.claim demoClaim] [])).1 = none
      ∧ (Reconcile { demoEnv with faults := noFaults } demoController demoReq
          (Reconcile demoEnv demoController demoReq (worldOf [.claim demoClaim] [])).2).1 = none
      ∧ (Reconcile { demoEnv with faults := noFaults } demoController demoReq
          (Reconcile demoEnv demoController demoReq (worldOf [.claim demoClaim] [])).2).2.target
        = (Reconcile demoEnv demoController demoReq (worldOf [.claim demoClaim] [])).2.target :=
  ⟨storeOf_wellKeyed _, by decide,
    (C10_second_reconcile_changes_nothing demoEnv demoController demoReq
      (worldOf [.claim demoClaim] []) _ demoClaim (fun _ => rfl) (storeOf_wellKeyed _)
      (storeOf_wellKeyed _) rfl (by decide) (by decide)).1,
    (C10_second_reconcile_changes_nothing demoEnv demoController demoReq
      (worldOf [.claim demoClaim] []) _ demoClaim (fun _ => rfl) (storeOf_wellKeyed _)
      (storeOf_wellKeyed _) rfl (by decide) (by decide)).2.2.1⟩

/-- The three steps that create without reading first take an already-exists
answer to their create as success. -/
theorem create_first_steps_tolerate_conflict (e : Env) (c : PermissionClaimController)
    (claim : PermissionClaim) (role : Role) (clusterRole : ClusterRole) (sa : ServiceAccount)
    (w : World) :
    ((∃ x ∈ newCalls w (reconcileServiceAccount e c claim w).2,
          x.verb = .create ∧ x.err = some .AlreadyExists) →
        ∃ r, (reconcileServiceAccount e c claim w).1 = .ok r)
      ∧ ((∃ x ∈ newCalls w (reconcileRoleBinding e c claim role sa w).2,
          x.verb = .create ∧ x.err = some .AlreadyExists) →
        (reconcileRoleBinding e c claim role sa w).1 = none)
      ∧ ((∃ x ∈ newCalls w (reconcileClusterRoleBinding e c claim clusterRole sa w).2,
          x.verb = .create ∧ x.err = some .AlreadyExists) →
        (reconcileClusterRoleBinding e c claim clusterRole sa w).1 = none) := by
  refine ⟨?_, ?_, ?_⟩
  · unfold reconcileServiceAccount
    dsimp only
    split
    · rintro ⟨x, hx, _⟩
      simp [newCalls] at hx
    · split
      · rename_i k w1 hc
        obtain ⟨hw1, _⟩ := apiCreate_error hc
        split
        · intro _
          exact ⟨_, rfl⟩
        · rename_i hk
          rintro ⟨x, hx, _, hxe⟩
          dsimp only at hx
          rw [newCalls_of_append (w := w) (by rw [hw1]; rfl)] at hx
          simp only [List.mem_singleton] at hx
          subst hx
          simp at hxe
          exact absurd hxe hk
      · intro _
        exact ⟨_, rfl⟩
  · unfold reconcileRoleBinding
    dsimp only
    split
    · rintro ⟨x, hx, _⟩
      simp [newCalls] at hx
    · split
      · rename_i k w1 hc
        obtain ⟨hw1, _⟩ := apiCreate_error hc
        split
        · intro _
          rfl
        · rename_i hk
          rintro ⟨x, hx, _, hxe⟩
          dsimp only at hx
          rw [newCalls_of_append (w := w) (by rw [hw1]; rfl)] at hx
          simp only [List.mem_singleton] at hx
          subst hx
          simp at hxe
          exact absurd hxe hk
      · intro _
        rfl
  · unfold reconcileClusterRoleBinding
    dsimp only
    split
    · rintro ⟨x, hx, _⟩
      simp [newCalls] at hx
    · split
      · rename_i k w1 hc
        obtain ⟨hw1, _⟩ := apiCreate_error hc
        split
        · intro _
          rfl
        · rename_i hk
          rintro ⟨x, hx, _, hxe⟩
          dsimp only at hx
          rw [newCalls_of_append (w := w) (by rw [hw1]; rfl)] at hx
          simp only [List.mem_singleton] at hx
          subst hx
          simp at hxe
          exact absurd hxe hk
      · intro _
        rfl

/-- C11, the code when the Role (or the ClusterRole) exists but the read that
precedes the create is answered not-found by a cache that has not seen it: the
create is answered already-exists, `reconcileRole` (`reconcileClusterRole`)
returns that error, and `Reconcile` returns it wrapped as "reconciling Role"
("reconciling ClusterRole") without issuing any further call. -/
theorem C11_role_create_conflict_is_returned :
    (reconcileRole firstReadStale demoController liveClaim (worldOf [] [.role demoRole])).1
        = .error ⟨.AlreadyExists, []⟩
      ∧ (reconcileClusterRole firstReadStale demoController liveClaim
          (worldOf [] [.clusterRole demoClusterRole])).1 = .error ⟨.AlreadyExists, []⟩
      ∧ (Reconcile secondReadStale demoController demoReq
          (worldOf [.claim liveClaim] [.role demoRole])).1
        = some ⟨.AlreadyExists, ["reconciling Role"]⟩
      ∧ (Reconcile secondReadStale demoController demoReq
          (worldOf [.claim liveClaim] [.role demoRole])).2.calls.map
            (fun x => (x.cluster, x.verb, x.key.kind, x.err))
        = [(.control, .get, .PermissionClaim, none),
           (.target, .get, .Role, some .NotFound),
           (.target, .create, .Role, some .AlreadyExists)]
      ∧ (Reconcile thirdReadStale demoController demoReq
          (worldOf [.claim liveClaim] [.role demoRole, .clusterRole demoClusterRole])).1
        = some ⟨.AlreadyExists, ["reconciling ClusterRole"]⟩
      ∧ (Reconcile thirdReadStale demoController demoReq
          (worldOf [.claim liveClaim] [.role demoRole, .clusterRole demoClusterRole])).2.calls.map
            (fun x => (x.cluster, x.verb, x.key.kind, x.err))
        = [(.control, .get, .PermissionClaim, none),
           (.target, .get, .Role, none),
           (.target, .get, .ClusterRole, some .NotFound),
           (.target, .create, .ClusterRole, some .AlreadyExists)] := by
  refine ⟨rfl, rfl, rfl, rfl, rfl, rfl⟩

/-- What a successful `reconcileRoleBinding` did: it sent one create for the
RoleBinding. Either the key was free and the stored binding is the desired one,
or the create was answered already-exists and nothing was changed. -/
theorem reconcileRoleBinding_cases {e : Env} {c : PermissionClaimController}
    {claim : PermissionClaim} {role : Role} {sa : ServiceAccount} {w w' : World}
    (h : reconcileRoleBinding e c claim role sa w = (none, w')) :
    ∃ x, newCalls w w' = [x] ∧ x.verb = .create
      ∧ x.key = ⟨.RoleBinding, claim.Spec.Namespace, claim.ObjectMeta.Name⟩
      ∧ ((x.err = none ∧ w.store x.cluster x.key = none
            ∧ ∃ rb, w'.store x.cluster x.key = some (.roleBinding rb)
              ∧ rb.RoleRef = ⟨(GVKForObject c.scheme .Role).Group,
                  (GVKForObject c.scheme .Role).Kind, role.ObjectMeta.Name⟩
              ∧ rb.Subjects = [⟨(GVKForObject c.scheme .ServiceAccount).Group,
                  (GVKForObject c.scheme .ServiceAccount).Kind, sa.ObjectMeta.Name, ""⟩])
        ∨ (x.err = some .AlreadyExists ∧ (w.store x.cluster x.key).isSome
            ∧ w'.control = w.control ∧ w'.target = w.target)) := by
  unfold reconcileRoleBinding at h
  simp only [OwnerStrategy.SetControllerReference] at h
  cases ha : c.ownerStrategy.ownerAnnotations claim
      (ObjectMeta.named claim.ObjectMeta.Name claim.Spec.Namespace) with
  | none => simp [ha] at h
  | some a =>
    simp only [ha] at h
    split at h
    · rename_i k w1 hc
      split at h
      · rename_i hk
        subst hk
        simp only [Prod.mk.injEq, true_and] at h
        subst h
        obtain ⟨hw1, _, hex, _⟩ := apiCreate_error hc
        refine ⟨_, newCalls_of_append (w := w) (by rw [hw1]; rfl), rfl, rfl, Or.inr ⟨rfl, ?_, ?_, ?_⟩⟩
        · exact hex rfl
        · rw [hw1]; rfl
        · rw [hw1]; rfl
      · simp at h
    · rename_i o w1 hc
      simp only [Prod.mk.injEq, true_and] at h
      subst h
      obtain ⟨hfree, _, _, hw1⟩ := apiCreate_ok hc
      refine ⟨_, newCalls_of_append (w := w) (by rw [hw1]; rfl), rfl, rfl,
        Or.inl ⟨rfl, hfree,
          ⟨{ ObjectMeta.named claim.ObjectMeta.Name claim.Spec.Namespace with Annotations := a },
            ⟨(GVKForObject c.scheme .Role).Group, (GVKForObject c.scheme .Role).Kind,
              role.ObjectMeta.Name⟩,
            [⟨(GVKForObject c.scheme .ServiceAccount).Group,
              (GVKForObject c.scheme .ServiceAccount).Kind, sa.ObjectMeta.Name, ""⟩]⟩,
          ?_, rfl, rfl⟩⟩
      rw [hw1]
      simp [ObjectMeta.named]

/-- What a successful `reconcileClusterRoleBinding` did: it sent one create
for the ClusterRoleBinding. Either the key was free and the stored binding is
the desired one, or the create was answered already-exists and nothing was
changed. -/
theorem reconcileClusterRoleBinding_cases {e : Env} {c : PermissionClaimController}
    {claim : PermissionClaim} {role : ClusterRole} {sa : ServiceAccount} {w w' : World}
    (h : reconcileClusterRoleBinding e c claim role sa w = (none, w')) :
    ∃ x, newCalls w w' = [x] ∧ x.verb = .create
      ∧ x.key = ⟨.ClusterRoleBinding, "", claim.ObjectMeta.Name⟩
      ∧ ((x.err = none ∧ w.store x.cluster x.key = none
            ∧ ∃ rb, w'.store x.cluster x.key = some (.clusterRoleBinding rb)
              ∧ rb.RoleRef = ⟨(GVKForObject c.scheme .ClusterRole).Group,
                  (GVKForObject c.scheme .ClusterRole).Kind, role.ObjectMeta.Name⟩
              ∧ rb.Subjects = [⟨(GVKForObject c.scheme .ServiceAccount).Group,
                  (GVKForObject c.scheme .ServiceAccount).Kind, sa.ObjectMeta.Name,
                  sa.ObjectMeta.Namespace⟩])
        ∨ (x.err = some .AlreadyExists ∧ (w.store x.cluster x.key).isSome
            ∧ w'.control = w.control ∧ w'.target = w.target)) := by
  unfold reconcileClusterRoleBinding at h
  simp only [OwnerStrategy.SetControllerReference] at h
  cases ha : c.ownerStrategy.ownerAnnotations claim
      (ObjectMeta.named claim.ObjectMeta.Name claim.Spec.Namespace) with
  | none => simp [ha] at h
  | some a =>
    simp only [ha] at h
    split at h
    · rename_i k w1 hc
      split at h
      · rename_i hk
        subst hk
        simp only [Prod.mk.injEq, true_and] at h
        subst h
        obtain ⟨hw1, _, hex, _⟩ := apiCreate_error hc
        refine ⟨_, newCalls_of_append (w := w) (by rw [hw1]; rfl), rfl, rfl, Or.inr ⟨rfl, ?_, ?_, ?_⟩⟩
        · exact hex rfl
        · rw [hw1]; rfl
        · rw [hw1]; rfl
      · simp at h
    · rename_i o w1 hc
      simp only [Prod.mk.injEq, true_and] at h
      subst h
      obtain ⟨hfree, _, _, hw1⟩ := apiCreate_ok hc
      refine ⟨_, newCalls_of_append (w := w) (by rw [hw1]; rfl), rfl, rfl,
        Or.inl ⟨rfl, hfree,
          ⟨{ ObjectMeta.named claim.ObjectMeta.Name "" with Annotations := a },
            ⟨(GVKForObject c.scheme .ClusterRole).Group, (GVKForObject c.scheme .ClusterRole).Kind,
              role.ObjectMeta.Name⟩,
            [⟨(GVKForObject c.scheme .ServiceAccount).Group,
              (GVKForObject c.scheme .ServiceAccount).Kind, sa.ObjectMeta.Name,
              sa.ObjectMeta.Namespace⟩]⟩,
          ?_, rfl, rfl⟩⟩
      rw [hw1]
      simp [ObjectMeta.named]

/-- Without a fault on its create, a binding step returns no error whenever the
owner can be recorded, whether the binding exists or not. -/
theorem binding_steps_succeed (e : Env) (c : PermissionClaimController) (claim : PermissionClaim)
    (role : Role) (clusterRole : ClusterRole) (sa : ServiceAccount) (w : World)
    (hf : e.faults w.calls.length = none)
    (ha : c.ownerStrategy.ownerAnnotations claim
      (ObjectMeta.named claim.ObjectMeta.Name claim.Spec.Namespace) ≠ none) :
    (reconcileRoleBinding e c claim role sa w).1 = none
      ∧ (reconcileClusterRoleBinding e c claim clusterRole sa w).1 = none := by
  obtain ⟨a, ha⟩ := Option.ne_none_iff_exists'.mp ha
  constructor
  · unfold reconcileRoleBinding
    simp only [OwnerStrategy.SetControllerReference, ha]
    cases hs : w.control ⟨.RoleBinding, claim.Spec.Namespace, claim.ObjectMeta.Name⟩ with
    | none =>
      rw [apiCreate_free (by simp [hf]) (by simpa [ObjectMeta.named] using hs)]
    | some x =>
      rw [apiCreate_taken (x := x) (by simp [hf]) (by simpa [ObjectMeta.named] using hs)]
      simp
  · unfold reconcileClusterRoleBinding
    simp only [OwnerStrategy.SetControllerReference, ha]
    cases hs : w.control ⟨.ClusterRoleBinding, "", claim.ObjectMeta.Name⟩ with
    | none =>
      rw [apiCreate_free (by simp [hf]) (by simpa [ObjectMeta.named] using hs)]
    | some x =>
      rw [apiCreate_taken (x := x) (by simp [hf]) (by simpa [ObjectMeta.named] using hs)]
      simp

/-- C12 as stated fails when a binding named like the claim already exists
with another subject and another role-ref (here in both clusters):
`reconcileRoleBinding` and `reconcileClusterRoleBinding` return without error,
and afterwards the RoleBinding `team-a/demo` and the ClusterRoleBinding `demo`
are still the foreign ones, binding the user `mallory` to `cluster-admin`. -/
theorem C12_existing_binding_is_left_alone :
    (reconcileRoleBinding demoEnv demoController liveClaim demoRole freshServiceAccount
        (worldOf [.claim liveClaim, .roleBinding foreignRoleBinding]
          [.roleBinding foreignRoleBinding])).1 = none
      ∧ (reconcileRoleBinding demoEnv demoController liveClaim demoRole freshServiceAccount
          (worldOf [.claim liveClaim, .roleBinding foreignRoleBinding]
            [.roleBinding foreignRoleBinding])).2.control ⟨.RoleBinding, "team-a", "demo"⟩
        = some (.roleBinding foreignRoleBinding)
      ∧ (reconcileRoleBinding demoEnv demoController liveClaim demoRole freshServiceAccount
          (worldOf [.claim liveClaim, .roleBinding foreignRoleBinding]
            [.roleBinding foreignRoleBinding])).2.target ⟨.RoleBinding, "team-a", "demo"⟩
        = some (.roleBinding foreignRoleBinding)
      ∧ (reconcileClusterRoleBinding demoEnv demoController liveClaim demoClusterRole
          freshServiceAccount
          (worldOf [.claim liveClaim, .clusterRoleBinding foreignClusterRoleBinding]
            [.clusterRoleBinding foreignClusterRoleBinding])).1 = none
      ∧ (reconcileClusterRoleBinding demoEnv demoController liveClaim demoClusterRole
          freshServiceAccount
          (worldOf [.claim liveClaim, .clusterRoleBinding foreignClusterRoleBinding]
            [.clusterRoleBinding foreignClusterRoleBinding])).2.control
              ⟨.ClusterRoleBinding, "", "demo"⟩
        = some (.clusterRoleBinding foreignClusterRoleBinding)
      ∧ (reconcileClusterRoleBinding demoEnv demoController liveClaim demoClusterRole
          freshServiceAccount
          (worldOf [.claim liveClaim, .clusterRoleBinding foreignClusterRoleBinding]
            [.clusterRoleBinding foreignClusterRoleBinding])).2.target
              ⟨.ClusterRoleBinding, "", "demo"⟩
        = some (.clusterRoleBinding foreignClusterRoleBinding)
      ∧ foreignRoleBinding.RoleRef.Name = "cluster-admin"
      ∧ foreignRoleBinding.Subjects.map (fun s => (s.Kind, s.Name)) = [("User", "mallory")]
      ∧ foreignClusterRoleBinding.RoleRef.Name = "cluster-admin"
      ∧ foreignClusterRoleBinding.Subjects.map (fun s => (s.Kind, s.Name)) = [("User", "mallory")]
      ∧ liveClaim.ObjectMeta.Name = "demo" := by
  decide

/-- C12, amended: let the Role, the ClusterRole and the ServiceAccount handed
to the binding steps be named like the claim, as `Reconcile` hands them over.
Whenever `reconcileRoleBinding` returns without error it has sent exactly one
call, a create of the RoleBinding named `claim.Name` in `spec.namespace`.
Either that key was free, and the binding stored there now has the role-ref
naming the Role `claim.Name` and the single subject naming the ServiceAccount
`claim.Name`; or the create was answered already-exists, the key was taken, and
both clusters are exactly as before: the existing binding is left as it is.
The same holds for `reconcileClusterRoleBinding` with the ClusterRoleBinding
and the ClusterRole. Without a fault on the create both steps do return without
error whenever the owner can be recorded. -/
theorem C12_bindings_created_never_overwritten (e : Env) (c : PermissionClaimController)
    (claim : PermissionClaim) (role : Role) (clusterRole : ClusterRole) (sa : ServiceAccount)
    (w : World) (hrole : role.ObjectMeta.Name = claim.ObjectMeta.Name)
    (hcr : clusterRole.ObjectMeta.Name = claim.ObjectMeta.Name)
    (hsa : sa.ObjectMeta.Name = claim.ObjectMeta.Name) :
    (∀ w', reconcileRoleBinding e c claim role sa w = (none, w') →
        ∃ x, newCalls w w' = [x] ∧ x.verb = .create
          ∧ x.key = ⟨.RoleBinding, claim.Spec.Namespace, claim.ObjectMeta.Name⟩
          ∧ ((x.err = none ∧ w.store x.cluster x.key = none
                ∧ ∃ rb, w'.store x.cluster x.key = some (.roleBinding rb)
                  ∧ rb.RoleRef = ⟨(GVKForObject c.scheme .Role).Group,
                      (GVKForObject c.scheme .Role).Kind, claim.ObjectMeta.Name⟩
                  ∧ rb.Subjects = [⟨(GVKForObject c.scheme .ServiceAccount).Group,
                      (GVKForObject c.scheme .ServiceAccount).Kind, claim.ObjectMeta.Name, ""⟩])
            ∨ (x.err = some .AlreadyExists ∧ (w.store x.cluster x.key).isSome
                ∧ w'.control = w.control ∧ w'.target = w.target)))
      ∧ (∀ w', reconcileClusterRoleBinding e c claim clusterRole sa w = (none, w') →
          ∃ x, newCalls w w' = [x] ∧ x.verb = .create
            ∧ x.key = ⟨.ClusterRoleBinding, "", claim.ObjectMeta.Name⟩
            ∧ ((x.err = none ∧ w.store x.cluster x.key = none
                  ∧ ∃ rb, w'.store x.cluster x.key = some (.clusterRoleBinding rb)
                    ∧ rb.RoleRef = ⟨(GVKForObject c.scheme .ClusterRole).Group,
                        (GVKForObject c.scheme .ClusterRole).Kind, claim.ObjectMeta.Name⟩
                    ∧ rb.Subjects = [⟨(GVKForObject c.scheme .ServiceAccount).Group,
                        (GVKForObject c.scheme .ServiceAccount).Kind, claim.ObjectMeta.Name,
                        sa.ObjectMeta.Namespace⟩])
              ∨ (x.err = some .AlreadyExists ∧ (w.store x.cluster x.key).isSome
                  ∧ w'.control = w.control ∧ w'.target = w.target)))
      ∧ (e.faults w.calls.length = none →
          c.ownerStrategy.ownerAnnotations claim
            (ObjectMeta.named claim.ObjectMeta.Name claim.Spec.Namespace) ≠ none →
          (reconcileRoleBinding e c claim role sa w).1 = none
            ∧ (reconcileClusterRoleBinding e c claim clusterRole sa w).1 = none) := by
  refine ⟨fun w' h => ?_, fun w' h => ?_, fun hf ha => binding_steps_succeed e c claim role
    clusterRole sa w hf ha⟩
  · have := reconcileRoleBinding_cases h
    rw [hrole, hsa] at this
    exact this
  · have := reconcileClusterRoleBinding_cases h
    rw [hcr, hsa] at this
    exact this

/-- Witness for the amended C12 on the scenario `team-a/demo`: with no binding
in place both steps succeed, and the RoleBinding step has sent one create whose
key was free or taken as the theorem says. -/
theorem C12_bindings_created_never_overwritten_witness :
    demoRole.ObjectMeta.Name = liveClaim.ObjectMeta.Name
      ∧ demoClusterRole.ObjectMeta.Name = liveClaim.ObjectMeta.Name
      ∧ freshServiceAccount.ObjectMeta.Name = liveClaim.ObjectMeta.Name
      ∧ ((reconcileRoleBinding demoEnv demoController liveClaim demoRole freshServiceAccount
            (worldOf [.claim liveClaim] [])).1 = none
          ∧ (reconcileClusterRoleBinding demoEnv demoController liveClaim demoClusterRole
            freshServiceAccount (worldOf [.claim liveClaim] [])).1 = none) :=
  ⟨rfl, rfl, rfl,
    (C12_bindings_created_never_overwritten demoEnv demoController liveClaim demoRole
      demoClusterRole freshServiceAccount (worldOf [.claim liveClaim] []) rfl rfl rfl).2.2 rfl
      (by decide)⟩

/-- What `reconcileKubeconfigSecret` sends: every create of the step carries, on
the control cluster, a Secret whose only data entry is the marshalled document
`kubeconfigFor` builds from the token of the token secret the step read; and a
create answered with success leaves that Secret under `spec.secretName` in the
claim's namespace. -/
theorem reconcileKubeconfigSecret_creates (e : Env) (c : PermissionClaimController)
    (claim : PermissionClaim) (sa : ServiceAccount) (w : World) :
    ∀ x ∈ newCalls w (reconcileKubeconfigSecret e c claim sa w).2.2, x.verb = .create →
      ∃ secretRef saTokenSecret m,
        sa.Secrets.head? = some secretRef
          ∧ (getSecret e.faults .target ⟨.Secret, secretRef.Namespace, secretRef.Name⟩ w).1
              = .ok saTokenSecret
          ∧ x.cluster = .control
          ∧ x.obj = some (.secret { ObjectMeta := m, Data := [(ServiceAccountKubeconfigKey,
              e.yamlMarshal (kubeconfigFor c
                ((saTokenSecret.Data.lookup ServiceAccountTokenKey).getD "")))] })
          ∧ (x.err = none →
              (reconcileKubeconfigSecret e c claim sa w).2.2.control
                  ⟨.Secret, claim.ObjectMeta.Namespace, claim.Spec.SecretName⟩
                = some (.secret { ObjectMeta := m, Data := [(ServiceAccountKubeconfigKey,
                    e.yamlMarshal (kubeconfigFor c
                      ((saTokenSecret.Data.lookup ServiceAccountTokenKey).getD "")))] })) := by
  unfold reconcileKubeconfigSecret
  split
  · intro x hx
    simp [newCalls] at hx
  · rename_i secretRef rest hsec
    split
    · rename_i k w1 hg
      obtain ⟨a, hw1⟩ := getSecret_error hg
      intro x hx hv
      dsimp only at hx
      rw [newCalls_of_append (w := w) (by rw [hw1]; rfl)] at hx
      simp only [List.mem_singleton] at hx
      subst hx
      simp at hv
    · rename_i saTokenSecret w1 hg
      have hw1 := getSecret_ok_log hg
      dsimp only
      split
      · intro x hx hv
        dsimp only at hx
        rw [newCalls_of_append (w := w) (by rw [hw1]; rfl)] at hx
        simp only [List.mem_singleton] at hx
        subst hx
        simp at hv
      · rename_i m hm
        obtain ⟨hn, hns⟩ := SetControllerReference_ok hm
        split
        · rename_i k w2 hc
          obtain ⟨hw2, _⟩ := apiCreate_error hc
          intro x hx hv
          dsimp only at hx
          rw [newCalls_of_append (w := w) (by
            rw [hw2, hw1]
            simp only [World.calls_record, List.append_assoc, List.singleton_append]
            rfl)] at hx
          simp only [List.mem_cons, List.mem_singleton, List.not_mem_nil, or_false] at hx
          rcases hx with rfl | rfl
          · simp at hv
          · refine ⟨secretRef, saTokenSecret, m, by simp [hsec], by rw [hg], rfl, rfl, ?_⟩
            intro he
            simp at he
        · rename_i o w2 hc
          obtain ⟨_, _, _, hw2⟩ := apiCreate_ok hc
          intro x hx hv
          dsimp only at hx
          rw [newCalls_of_append (w := w) (by
            rw [hw2, hw1]
            simp only [World.calls_record, World.setStore_calls, List.append_assoc,
              List.singleton_append]
            rfl)] at hx
          simp only [List.mem_cons, List.mem_singleton, List.not_mem_nil, or_false] at hx
          rcases hx with rfl | rfl
          · simp at hv
          · refine ⟨secretRef, saTokenSecret, m, by simp [hsec], by rw [hg], rfl, rfl, ?_⟩
            intro _
            dsimp only
            rw [hw2]
            have hkey : (Object.secret { ObjectMeta := m, Data := [(ServiceAccountKubeconfigKey,
                e.yamlMarshal (kubeconfigFor c
                  ((List.lookup ServiceAccountTokenKey saTokenSecret.Data).getD "")))] }).key
                = ⟨.Secret, claim.ObjectMeta.Namespace, claim.Spec.SecretName⟩ := by
              show Key.norm ⟨.Secret, m.Namespace, m.Name⟩ = _
              rw [hn, hns]
              rfl
            rw [hkey]
            simp only [World.record, World.setStore_control, World.store_control,
              Store.set_same]
            rfl

/-- C9: the Secret `reconcileKubeconfigSecret` creates carries, as its only data
entry, the marshalled document `kubeconfigFor` builds from the controller's
template and the token of the token secret the step read. That document is the
one lines 127-134 build from the template: for every controller and every token
it has the same credential entry names as the template; every one of its
entries has the token as `Token` and the zero value in every other
authentication field; kind, version, preferences, clusters, contexts and current
context equal the template's; and the template is unchanged. The same holds of
lines 127-134 on every memory and every valid template pointer: the template
cell, like every other cell that existed before, is unchanged. -/
theorem C9_kubeconfig_token_only (e : Env) (c : PermissionClaimController)
    (claim : PermissionClaim) (sa : ServiceAccount) (w : World)
    (h : ConfigHeap) (base : Nat) (token : String) (hb : base < h.length) :
    (∀ x ∈ newCalls w (reconcileKubeconfigSecret e c claim sa w).2.2, x.verb = .create →
        ∃ secretRef saTokenSecret m,
          sa.Secrets.head? = some secretRef
            ∧ (getSecret e.faults .target ⟨.Secret, secretRef.Namespace, secretRef.Name⟩ w).1
                = .ok saTokenSecret
            ∧ x.cluster = .control
            ∧ x.obj = some (.secret { ObjectMeta := m, Data := [(ServiceAccountKubeconfigKey,
                e.yamlMarshal (kubeconfigFor c
                  ((saTokenSecret.Data.lookup ServiceAccountTokenKey).getD "")))] })
            ∧ (x.err = none →
                (reconcileKubeconfigSecret e c claim sa w).2.2.control
                    ⟨.Secret, claim.ObjectMeta.Namespace, claim.Spec.SecretName⟩
                  = some (.secret { ObjectMeta := m, Data := [(ServiceAccountKubeconfigKey,
                      e.yamlMarshal (kubeconfigFor c
                        ((saTokenSecret.Data.lookup ServiceAccountTokenKey).getD "")))] })))
      ∧ kubeconfigFor c token
          = (newKubeconfig [c.baseKubeconfig] 0 token).1.deref
              (newKubeconfig [c.baseKubeconfig] 0 token).2
      ∧ (kubeconfigFor c token).AuthInfos.map Prod.fst = c.baseKubeconfig.AuthInfos.map Prod.fst
      ∧ (∀ a ∈ (kubeconfigFor c token).AuthInfos,
          a.2 = { ClientCertificate := "", ClientCertificateData := "", ClientKey := "",
                  ClientKeyData := "", Token := token, TokenFile := "", Impersonate := "",
                  ImpersonateGroups := [], Username := "", Password := "", AuthProvider := none,
                  Exec := none })
      ∧ (kubeconfigFor c token).Clusters = c.baseKubeconfig.Clusters
      ∧ (kubeconfigFor c token).Contexts = c.baseKubeconfig.Contexts
      ∧ (kubeconfigFor c token).CurrentContext = c.baseKubeconfig.CurrentContext
      ∧ (kubeconfigFor c token).Preferences = c.baseKubeconfig.Preferences
      ∧ (kubeconfigFor c token).Kind = c.baseKubeconfig.Kind
      ∧ (kubeconfigFor c token).APIVersion = c.baseKubeconfig.APIVersion
      ∧ (newKubeconfig [c.baseKubeconfig] 0 token).1.deref 0 = c.baseKubeconfig
      ∧ ((newKubeconfig h base token).1.deref (newKubeconfig h base token).2).AuthInfos.map Prod.fst
          = (h.deref base).AuthInfos.map Prod.fst
      ∧ (∀ a ∈ ((newKubeconfig h base token).1.deref (newKubeconfig h base token).2).AuthInfos,
          a.2 = { ClientCertificate := "", ClientCertificateData := "", ClientKey := "",
                  ClientKeyData := "", Token := token, TokenFile := "", Impersonate := "",
                  ImpersonateGroups := [], Username := "", Password := "", AuthProvider := none,
                  Exec := none })
      ∧ ((newKubeconfig h base token).1.deref (newKubeconfig h base token).2).Clusters
          = (h.deref base).Clusters
      ∧ ((newKubeconfig h base token).1.deref (newKubeconfig h base token).2).Contexts
          = (h.deref base).Contexts
      ∧ ((newKubeconfig h base token).1.deref (newKubeconfig h base token).2).CurrentContext
          = (h.deref base).CurrentContext
      ∧ ((newKubeconfig h base token).1.deref (newKubeconfig h base token).2).Preferences
          = (h.deref base).Preferences
      ∧ ((newKubeconfig h base token).1.deref (newKubeconfig h base token).2).Kind
          = (h.deref base).Kind
      ∧ ((newKubeconfig h base token).1.deref (newKubeconfig h base token).2).APIVersion
          = (h.deref base).APIVersion
      ∧ (newKubeconfig h base token).1.deref base = h.deref base
      ∧ (∀ p, p < h.length → (newKubeconfig h base token).1.deref p = h.deref p) := by
  refine ⟨reconcileKubeconfigSecret_creates e c claim sa w, rfl, ?_, ?_, ?_, ?_, ?_, ?_, ?_, ?_,
    ?_, ?_⟩
  · rw [kubeconfigFor_eq, List.map_map]
    rfl
  · rw [kubeconfigFor_eq]
    intro a ha
    simp only [List.mem_map] at ha
    obtain ⟨a0, _, rfl⟩ := ha
    rfl
  · rw [kubeconfigFor_eq]
  · rw [kubeconfigFor_eq]
  · rw [kubeconfigFor_eq]
  · rw [kubeconfigFor_eq]
  · rw [kubeconfigFor_eq]
  · rw [kubeconfigFor_eq]
  · rw [newKubeconfig_eq]
    rfl
  · rw [newKubeconfig_eq]
    dsimp only
    rw [ConfigHeap.deref_append_length]
    refine ⟨?_, ?_, rfl, rfl, rfl, rfl, rfl, rfl, ConfigHeap.deref_append_lt _ _ _ hb,
      fun p hp => ConfigHeap.deref_append_lt _ _ _ hp⟩
    · rw [List.map_map]
      rfl
    · intro a ha
      simp only [List.mem_map] at ha
      obtain ⟨a0, _, rfl⟩ := ha
      rfl

/-- Witness for C9: the template with the certificate-based entry `admin`, and
the step run with the token secret holding `TOKEN` at hand: the Secret
`team-a/demo-kubeconfig` on the control cluster carries the document with the
one entry `admin`, whose token is `TOKEN`. -/
theorem C9_kubeconfig_token_only_witness :
    0 < [demoTemplate].length
      ∧ (kubeconfigFor demoController "TOKEN").AuthInfos = [("admin", AuthInfo.ofToken "TOKEN")]
      ∧ (kubeconfigFor demoController "TOKEN").AuthInfos.map Prod.fst
          = demoController.baseKubeconfig.AuthInfos.map Prod.fst
      ∧ (newKubeconfig [demoTemplate] 0 "TOKEN").1.deref 0 = demoTemplate
      ∧ (∃ s, (reconcileKubeconfigSecret demoEnv demoController liveClaim readyServiceAccount
          (worldOf [.claim liveClaim] [.secret tokenSecret])).2.2.control
            ⟨.Secret, "team-a", "demo-kubeconfig"⟩ = some (.secret s)
          ∧ s.Data = [(ServiceAccountKubeconfigKey, "admin=TOKEN")]) :=
  ⟨by decide, by decide,
    (C9_kubeconfig_token_only demoEnv demoController liveClaim readyServiceAccount
      (worldOf [.claim liveClaim] [.secret tokenSecret]) [demoTemplate] 0 "TOKEN"
      (by decide)).2.2.1,
    (C9_kubeconfig_token_only demoEnv demoController liveClaim readyServiceAccount
      (worldOf [.claim liveClaim] [.secret tokenSecret]) [demoTemplate] 0 "TOKEN"
      (by decide)).2.2.2.2.2.2.2.2.2.2.1,
    ⟨_, rfl, rfl⟩⟩

end Controllers
